import Mathlib

/-!
# tqlite: node interconnect and request routing

A shallow embedding of four source files of `minghsu0107/tqlite`:

* `tcp/conn.go`       : the connection multiplexer (`Mux`, `Layer`, `listener`);
* `cluster/service.go`: the cluster address service (client and server side);
* `http/endpoint.go`  : the HTTP service and its leader redirection;
* `cmd/tqlite/remove.go`: the administrative `remove` client.

Network peers, the Store and library calls are scripted: every call whose
result the code branches on is a field or a function argument of the model, so
that each path of the source is a path of the embedding. The one exception is
a write to an HTTP response, which always succeeds here.
-/

namespace tcp

/-- Go `byte`. -/
abbrev Byte := Fin 256

/-- Go `net.Addr`, by its printed form (`Addr.String()`). -/
abbrev Addr := String

/-- An error returned by `net.Listener.Accept`: its text, and whether it
implements `Temporary() bool` and answers true. -/
structure NetError where
  msg : String
  temporary : Bool
  deriving DecidableEq, Repr

/-- Result of `io.ReadFull(conn, typ[:])` on a one-byte buffer. -/
inductive ReadResult where
  | byte (b : Byte)
  | err (msg : String)
  deriving DecidableEq, Repr

/-- Result of a `conn.Write(p)`: complete, or failed after `n` bytes. -/
inductive WriteResult where
  | ok
  | err (n : Nat) (msg : String)
  deriving DecidableEq, Repr

/-- A `net.Conn` as the mux and the dialer see it: an identity and the result
each call made on it will give (`none` is a nil error). -/
structure Conn where
  id : Nat
  setReadDeadline : Option String
  readFull : ReadResult
  resetReadDeadline : Option String
  write : WriteResult
  deriving DecidableEq, Repr

/-- The package variable `stats` (an expvar map with two counters). -/
structure Stats where
  numConnectionsHandled : Int
  numUnregisteredHandlers : Int
  deriving DecidableEq, Repr

/-- Value of `stats` after `init()`. -/
def Stats.init : Stats := { numConnectionsHandled := 0, numUnregisteredHandlers := 0 }

/-- Go `listener`: the unbuffered channel `c`, as the connections whose send is
pending on it (oldest first) and whether `close(c)` has run. -/
structure listener where
  c : List Conn
  closed : Bool
  deriving DecidableEq, Repr

/-- The bound listener handed to `NewMux`, by what `ln.Addr()` returns. -/
structure NetListener where
  addr : Addr
  deriving DecidableEq, Repr

/-- Go `DefaultTimeout = 30 * time.Second`, in nanoseconds. -/
def DefaultTimeout : Int := 30 * 1000000000

/-- Go `Mux`. The map `m` is a partial function on header bytes. -/
structure Mux where
  ln : NetListener
  addr : Addr
  m : Byte → Option listener
  Timeout : Int

/-- Go `Layer`. The pointer `ln` is the key of `Mux.m` under which the
listener it points to is stored (entries are never replaced or removed). -/
structure Layer where
  ln : Byte
  header : Byte
  addr : Addr
  deriving DecidableEq, Repr

/-- Go `NewMux`; a nil `adv` is `none`. -/
def NewMux (ln : NetListener) (adv : Option Addr) : Mux :=
  let addr := match adv with
    | none => ln.addr
    | some a => a
  { ln := ln, addr := addr, m := fun _ => none, Timeout := DefaultTimeout }

/-- What the mux has done to the world besides its own fields: the counters,
the log lines, and the connections on which it called `Close`. -/
structure Effects where
  stats : Stats
  log : List String
  closed : List Conn
  deriving DecidableEq, Repr

/-- State threaded through `handleConn` and `Serve`. -/
structure State where
  mux : Mux
  eff : Effects

/-- The send `handler.c <- conn` on the listener registered under `h`. -/
def Mux.send (mux : Mux) (h : Byte) (handler : listener) (conn : Conn) : Mux :=
  { mux with m := fun k => if k = h then some { handler with c := handler.c ++ [conn] } else mux.m k }

/-- Go `Mux.handleConn`. `none` is a panic (send on a closed channel). -/
def handleConn (s : State) (conn : Conn) : Option State :=
  let eff := { s.eff with stats :=
    { s.eff.stats with numConnectionsHandled := s.eff.stats.numConnectionsHandled + 1 } }
  match conn.setReadDeadline with
  | some err =>
    some { s with eff := { eff with
      closed := eff.closed ++ [conn],
      log := eff.log ++ ["tcp.Mux: cannot set read deadline: " ++ err] } }
  | none =>
  match conn.readFull with
  | .err err =>
    some { s with eff := { eff with
      closed := eff.closed ++ [conn],
      log := eff.log ++ ["tcp.Mux: cannot read header byte: " ++ err] } }
  | .byte typ =>
  match conn.resetReadDeadline with
  | some err =>
    some { s with eff := { eff with
      closed := eff.closed ++ [conn],
      log := eff.log ++ ["tcp.Mux: cannot reset set read deadline: " ++ err] } }
  | none =>
  match s.mux.m typ with
  | none =>
    some { s with eff := { eff with
      closed := eff.closed ++ [conn],
      stats := { eff.stats with numUnregisteredHandlers := eff.stats.numUnregisteredHandlers + 1 },
      log := eff.log ++ ["tcp.Mux: handler not registered: " ++ toString typ.val
        ++ " (unsupported protocol?)"] } }
  | some handler =>
    if handler.closed then none
    else some { mux := s.mux.send typ handler conn, eff := eff }

/-- Go `Mux.Listen`: the mux afterwards and the returned layer; no layer
(`none`) is the panic on a header that is already registered. -/
def Mux.Listen (mux : Mux) (header : Byte) : Mux × Option Layer :=
  match mux.m header with
  | some _ => (mux, none)
  | none =>
    let ln : listener := { c := [], closed := false }
    ({ mux with m := fun k => if k = header then some ln else mux.m k },
      some { ln := header, header := header, addr := mux.addr })

/-- Go `listener.Accept`: the receive `conn, ok := <-ln.c`. A receive on a
closed unbuffered channel gives `ok = false`; on an open one it takes the
oldest pending send, and with none pending it blocks (`none`). -/
def listener.Accept (ln : listener) : Option (Except String Conn × listener) :=
  if ln.closed then some (.error "network connection closed", ln)
  else match ln.c with
    | conn :: rest => some (.ok conn, { ln with c := rest })
    | [] => none

/-- Go `Layer.Accept`, which is `l.ln.Accept()`. The outer `none` is a nil
`ln` (no listener under the layer's key); the inner one a blocked receive. -/
def Layer.Accept (mux : Mux) (l : Layer) : Option (Option (Except String Conn × listener)) :=
  (mux.m l.ln).map listener.Accept

/-- What `Layer.Dial` leaves behind. -/
structure DialResult where
  conn : Option Conn
  err : Option String
  written : List Byte
  closed : Bool
  deriving DecidableEq, Repr

/-- Go `Layer.Dial`. `dial` is `dialer.Dial("tcp", addr)` with the given timeout. -/
def Layer.Dial (l : Layer) (dial : String → Int → Except String Conn)
    (addr : String) (timeout : Int) : DialResult :=
  match dial addr timeout with
  | .error err => { conn := none, err := some err, written := [], closed := false }
  | .ok conn =>
    match conn.write with
    | .err n err =>
      { conn := none, err := some err, written := [l.header].take n, closed := true }
    | .ok => { conn := some conn, err := none, written := [l.header], closed := false }

/-- One result of `mux.ln.Accept()`. -/
inductive AcceptResult where
  | conn (c : Conn)
  | err (e : NetError)
  deriving DecidableEq, Repr

/-- How far `Serve` got on the accept results it was given. -/
inductive ServeStatus where
  | accepting
  | returned (err : NetError)
  | panicked
  deriving DecidableEq, Repr

/-- The `mux.wg.Wait()` of `Serve`: it returns once every handler has
returned, that is once every pending send has been received by the consumer
of its sub-listener. -/
def Mux.wgWait (mux : Mux) : Mux :=
  { mux with m := fun k => (mux.m k).map fun ln => { ln with c := [] } }

/-- Whether no channel of the map has been closed. -/
@[irreducible]
def Mux.allOpen (mux : Mux) : Bool :=
  (List.finRange 256).all fun k =>
    match mux.m k with
    | some ln => !ln.closed
    | none => true

/-- No channel of the map has been closed: the state of a mux from `NewMux`
and `Listen` on, until `Serve` returns. -/
def Mux.AllOpen (mux : Mux) : Prop :=
  ∀ k ln, mux.m k = some ln → ln.closed = false

/-- The loop `for _, ln := range mux.m { close(ln.c) }`; closing a closed
channel panics (`none`). -/
def Mux.closeAll (mux : Mux) : Option Mux :=
  if mux.allOpen then
    some { mux with m := fun k => (mux.m k).map fun ln => { ln with closed := true } }
  else none

/-- The accept loop of `Serve` on the results `mux.ln.Accept()` gives, in
order. Each `go mux.handleConn(conn)` is run when it is spawned. -/
def serveLoop : State → List AcceptResult → State × ServeStatus
  | s, [] => (s, .accepting)
  | s, .err e :: rest =>
    if e.temporary then serveLoop s rest
    else
      let mux := s.mux.wgWait
      match mux.closeAll with
      | none => ({ s with mux := mux }, .panicked)
      | some mux => ({ s with mux := mux }, .returned e)
  | s, .conn c :: rest =>
    match handleConn s c with
    | none => (s, .panicked)
    | some s => serveLoop s rest

/-- Go `Mux.Serve`. -/
def Serve (s : State) (accepts : List AcceptResult) : State × ServeStatus :=
  let s := { s with eff := { s.eff with log := s.eff.log ++
    ["mux serving on " ++ s.mux.ln.addr ++ ", advertising " ++ s.mux.addr] } }
  serveLoop s accepts

/-- A mux as `main` sets it up: headers 1 (Raft) and 2 (cluster) registered. -/
def demoMux : Mux :=
  (((NewMux { addr := "localhost:4002" } none).Listen 1).1.Listen 2).1

/-- The state of `demoMux` before it has served anything. -/
def demoState : State :=
  { mux := demoMux, eff := { stats := Stats.init, log := [], closed := [] } }

/-- A connection that sends the cluster header. -/
def demoConn : Conn :=
  { id := 1, setReadDeadline := none, readFull := .byte 2, resetReadDeadline := none,
    write := .ok }

/-- A connection that sends the unregistered header 9. -/
def strayConn : Conn :=
  { id := 2, setReadDeadline := none, readFull := .byte 9, resetReadDeadline := none,
    write := .ok }

/-- A connection that sends the unregistered header 9 and on which clearing
the read deadline then fails. -/
def brokenConn : Conn :=
  { id := 3, setReadDeadline := none, readFull := .byte 9,
    resetReadDeadline := some "use of closed network connection", write := .ok }

/-- Outcome (i) of `handleConn`: `conn` was sent on the channel registered
under its first byte, on no other channel, and was not closed. -/
def HandedOff (s s' : State) (conn : Conn) : Prop :=
  ∃ b ln, conn.readFull = .byte b ∧ s.mux.m b = some ln ∧
    s'.mux.m b = some { ln with c := ln.c ++ [conn] } ∧
    (∀ k, k ≠ b → s'.mux.m k = s.mux.m k) ∧
    s'.eff.closed = s.eff.closed

/-- Outcome (ii) of `handleConn`: `conn` was closed by the mux and sent on no
channel. -/
def ClosedByMux (s s' : State) (conn : Conn) : Prop :=
  s'.eff.closed = s.eff.closed ++ [conn] ∧ ∀ k, s'.mux.m k = s.mux.m k

end tcp

namespace cluster

open tcp (Byte WriteResult)

/-- Message `Command`; `type` is the Go field `Type` (an int32 enum). -/
structure Command where
  type : Int
  deriving DecidableEq, Repr

/-- Message `Address`. -/
structure Address where
  Url : String
  deriving DecidableEq, Repr

/-- Modelled from the spec: the generated enum constant
`Command_COMMAND_TYPE_GET_NODE_API_URL` (the message definitions are not among
the sources); the spec gives `GET_NODE_API_URL = 1`. -/
def Command_COMMAND_TYPE_GET_NODE_API_URL : Int := 1

/-- The calls into the protobuf library. `Unmarshal` fills the message it is
given and returns an error: both are kept, since the code reads the message
also after an error. -/
structure Proto where
  marshalCommand : Command → Except String (List Byte)
  unmarshalCommand : List Byte → Command × Option String
  marshalAddress : Address → Except String (List Byte)
  unmarshalAddress : List Byte → Address × Option String

/-- The package variable `stats` of the cluster service. -/
structure Stats where
  numGetNodeAPI : Int
  numGetNodeAPIRequest : Int
  numGetNodeAPIResponse : Int
  deriving DecidableEq, Repr

/-- Value of `stats` after `init()`. -/
def Stats.init : Stats :=
  { numGetNodeAPI := 0, numGetNodeAPIRequest := 0, numGetNodeAPIResponse := 0 }

/-- Go `Service` of the cluster package: the fields its logic reads. -/
structure Service where
  timeout : Int
  apiAddr : String
  deriving DecidableEq, Repr

/-- Go `Service.SetAPIAddr`. -/
def Service.SetAPIAddr (s : Service) (addr : String) : Service :=
  { s with apiAddr := addr }

/-- Go `Service.GetAPIAddr`. -/
def Service.GetAPIAddr (s : Service) : String := s.apiAddr

/-- Go `binary.LittleEndian.PutUint16(b[0:], v)` for a `uint16` value `v`:
`b[0] = byte(v)`, `b[1] = byte(v >> 8)`. -/
def PutUint16 (b : List Byte) (v : Nat) : List Byte :=
  (b.set 0 (Fin.ofNat v)).set 1 (Fin.ofNat (v / 256))

/-- Go `binary.LittleEndian.Uint16(b[0:])`: `uint16(b[0]) | uint16(b[1])<<8`. -/
def Uint16 (b : List Byte) : Nat :=
  (b.getD 0 0).val + (b.getD 1 0).val * 256

/-- The length field the client sends: `b := make([]byte, 4)` followed by
`PutUint16(b[0:], uint16(len(p)))`. -/
def lengthField (p : List Byte) : List Byte :=
  PutUint16 [0, 0, 0, 0] (p.length % 65536)

/-- The connection `s.tn.Dial` returns, as the client sees it: the results of
its two writes, and what `ioutil.ReadAll(conn)` gives once the peer has been
sent the given bytes. -/
structure ClientConn where
  writeLength : WriteResult
  writePayload : WriteResult
  readAll : List Byte → Except String (List Byte)

/-- What `GetNodeAPIAddr` returns and leaves behind. -/
structure GetResult where
  url : String
  err : Option String
  sent : List Byte
  closed : Bool
  stats : Stats
  deriving DecidableEq, Repr

/-- Go `Service.GetNodeAPIAddr`. `dial` is `s.tn.Dial`. -/
def Service.GetNodeAPIAddr (P : Proto) (s : Service)
    (dial : String → Int → Except String ClientConn) (st : Stats)
    (nodeAddr : String) : GetResult :=
  let st := { st with numGetNodeAPI := st.numGetNodeAPI + 1 }
  match dial nodeAddr s.timeout with
  | .error err =>
    { url := "", err := some ("dial connection: " ++ err), sent := [], closed := false, stats := st }
  | .ok conn =>
    let c : Command := { type := Command_COMMAND_TYPE_GET_NODE_API_URL }
    match P.marshalCommand c with
    | .error err =>
      { url := "", err := some ("command marshal: " ++ err), sent := [], closed := true, stats := st }
    | .ok p =>
      let b := lengthField p
      match conn.writeLength with
      | .err n err =>
        { url := "", err := some ("write protobuf length: " ++ err), sent := b.take n,
          closed := true, stats := st }
      | .ok =>
        match conn.writePayload with
        | .err n err =>
          { url := "", err := some ("write protobuf: " ++ err), sent := b ++ p.take n,
            closed := true, stats := st }
        | .ok =>
          match conn.readAll (b ++ p) with
          | .error err =>
            { url := "", err := some ("read protobuf bytes: " ++ err), sent := b ++ p,
              closed := true, stats := st }
          | .ok b' =>
            match P.unmarshalAddress b' with
            | (_, some err) =>
              { url := "", err := some ("protobuf unmarshal: " ++ err), sent := b ++ p,
                closed := true, stats := st }
            | (a, none) =>
              { url := a.Url, err := none, sent := b ++ p, closed := true, stats := st }

/-- Go `io.ReadFull(conn, b)` for a buffer of `n` bytes, on the bytes still to
come from the peer: the buffer and the rest, or an error when fewer than `n`
bytes arrive. -/
def readFull (input : List Byte) (n : Nat) : Option (List Byte × List Byte) :=
  if n ≤ input.length then some (input.take n, input.drop n) else none

/-- The request framing of `handleConn` (its two `io.ReadFull` calls and the
length decoding between them): the decoded length and the payload. -/
def readRequest (input : List Byte) : Option (Nat × List Byte) :=
  match readFull input 4 with
  | none => none
  | some (b, rest) =>
    let sz := Uint16 b
    match readFull rest sz with
    | none => none
    | some (b, _) => some (sz, b)

/-- An accepted connection as the server sees it: the bytes the peer sends,
and the result a `conn.Write` gives while the connection is open. -/
structure ServerConn where
  input : List Byte
  write : WriteResult
  deriving DecidableEq, Repr

/-- What `handleConn` leaves behind: the counters, the bytes that reached the
peer, and how many times `conn.Close()` ran. -/
structure Served where
  stats : Stats
  reply : List Byte
  closes : Nat
  deriving DecidableEq, Repr

/-- A `conn.Write(b)` of the server: on a connection already closed it fails
and sends nothing. -/
def connWrite (conn : ServerConn) (closes : Nat) (b : List Byte) : List Byte :=
  if closes = 0 then
    match conn.write with
    | .ok => b
    | .err n _ => b.take n
  else []

/-- The second half of Go `Service.handleConn`, from `proto.Unmarshal(b, c)` to
the end: `b` is the payload the first half has read. -/
def Service.handleCommand (P : Proto) (s : Service) (st : Stats) (conn : ServerConn)
    (b : List Byte) : Served :=
  let (c, err) := P.unmarshalCommand b
  let closes := if err.isSome then 1 else 0
  if c.type = Command_COMMAND_TYPE_GET_NODE_API_URL then
    let st := { st with numGetNodeAPIRequest := st.numGetNodeAPIRequest + 1 }
    let a : Address := { Url := "http" ++ "://" ++ s.apiAddr }
    let (b, closes) := match P.marshalAddress a with
      | .ok b => (b, closes)
      | .error _ => ([], closes + 1)
    let reply := connWrite conn closes b
    let st := { st with numGetNodeAPIResponse := st.numGetNodeAPIResponse + 1 }
    { stats := st, reply := reply, closes := closes + 1 }
  else { stats := st, reply := [], closes := closes + 1 }

/-- Go `Service.handleConn` of the cluster package: the request is read (the
two `io.ReadFull` calls of `readRequest`), and its payload handled. -/
def Service.handleConn (P : Proto) (s : Service) (st : Stats) (conn : ServerConn) : Served :=
  match readRequest conn.input with
  | none => { stats := st, reply := [], closes := 1 }
  | some (_, b) => s.handleCommand P st conn b

/-- A small codec to run the service on: a command is the byte of its type, an
address the bytes of its characters. -/
def byteCodec : Proto where
  marshalCommand c := .ok [Fin.ofNat c.type.toNat]
  unmarshalCommand b :=
    match b with
    | [t] => ({ type := t.val }, none)
    | _ => ({ type := 0 }, some "cannot parse invalid wire-format data")
  marshalAddress a := .ok (a.Url.data.map fun ch => Fin.ofNat ch.toNat)
  unmarshalAddress b := ({ Url := String.mk (b.map fun x => Char.ofNat x.val) }, none)

/-- Decoding of a `Command` in the manner of the protobuf wire format, cut down
to one-byte varints: the byte 8 (field 1, varint) followed by the value of
`type`, any number of times. Like `proto.Unmarshal` it stops with an error at
the first byte it cannot parse and keeps what it has read so far. -/
def decodeCommand : List Byte → Command → Command × Option String
  | [], c => (c, none)
  | [_], c => (c, some "proto: cannot parse invalid wire-format data")
  | t :: v :: rest, c =>
    if t = 8 ∧ v.val < 128 then decodeCommand rest { type := v.val }
    else (c, some "proto: cannot parse invalid wire-format data")

/-- A codec whose commands are in that cut-down wire format (a zero `type` is
left out, as in proto3); addresses as in `byteCodec`. -/
def wireCodec : Proto where
  marshalCommand c := .ok (if c.type = 0 then [] else [8, Fin.ofNat c.type.toNat])
  unmarshalCommand b := decodeCommand b { type := 0 }
  marshalAddress := byteCodec.marshalAddress
  unmarshalAddress := byteCodec.unmarshalAddress

/-- A cluster service that advertises `localhost:4001`. -/
def demoServer : Service := { timeout := 10000000000, apiAddr := "localhost:4001" }

/-- The connection a client gets when the peer is the server `srv` and every
write goes through: `ReadAll` gives the server's whole reply. -/
def loopback (P : Proto) (srv : Service) (st : Stats) : ClientConn where
  writeLength := .ok
  writePayload := .ok
  readAll sent := .ok (srv.handleConn P st { input := sent, write := .ok }).reply

end cluster

namespace http

/-- An error returned by the Store: whether it is `store.ErrNotLeader`
(the test `err == store.ErrNotLeader`) and its text (`err.Error()`). -/
structure StoreError where
  notLeader : Bool
  text : String
  deriving DecidableEq, Repr

/-- A decoded JSON value, as far as the type assertions of the handlers
distinguish them. -/
inductive Value where
  | string (s : String)
  | bool (b : Bool)
  | other (raw : String)
  deriving DecidableEq, Repr

/-- Go `command.Statement`. -/
structure Statement where
  Sql : String
  deriving DecidableEq, Repr

/-- Go `command.Request`. -/
structure CommandRequest where
  Transaction : Bool
  Statements : List Statement
  deriving DecidableEq, Repr

/-- Go `command.ExecuteRequest`. -/
structure ExecuteRequest where
  Request : CommandRequest
  Timings : Bool
  deriving DecidableEq, Repr

/-- Go `command.QueryRequest_Level`. -/
inductive QueryRequest_Level where
  | NONE
  | WEAK
  | STRONG
  deriving DecidableEq, Repr

/-- Go `command.QueryRequest`. -/
structure QueryRequest where
  Request : CommandRequest
  Timings : Bool
  Level : QueryRequest_Level
  Freshness : Int
  deriving DecidableEq, Repr

/-- Go `store.BackupFormat`. -/
inductive BackupFormat where
  | BackupSQL
  | BackupBinary
  deriving DecidableEq, Repr

/-- The results a Store call returns, in serialised form (opaque here). -/
abbrev Results := String

/-- Go `store.Server`: a node of the cluster. -/
structure Server where
  ID : String
  Addr : String
  Suffrage : String
  deriving DecidableEq, Repr

/-- The `Store` interface, scripted. A failed `Backup` is taken to have
written nothing to `dst`; a successful one returns what it wrote. The value
of `Stats` is kept in serialised form. -/
structure Store where
  Execute : ExecuteRequest → Except StoreError Results
  ExecuteOrAbort : ExecuteRequest → Except StoreError Results
  Query : QueryRequest → Except StoreError Results
  Join : String → String → Bool → Option StoreError
  Remove : String → Option StoreError
  LeaderAddr : Except String String
  Backup : Bool → BackupFormat → Except StoreError String
  Nodes : Except String (List Server)
  Stats : Except String String

/-- The `Cluster` interface, scripted. -/
structure Cluster where
  GetNodeAPIAddr : String → Except String String
  Stats : Except String String

/-- The entry of one node in the `/nodes` response (the anonymous struct of
`handleNodes`). -/
structure NodeEntry where
  APIAddr : String
  Addr : String
  Reachable : Bool
  Leader : Bool
  deriving DecidableEq, Repr

/-- A value of the `/status` map: the runtime facts, the statistics of the
cluster and of the store, the bind address, the start time and the uptime, the
time of the last backup, the build info, or what a registered status provider
returned. -/
inductive StatusValue where
  | runtime (facts : String)
  | cluster (stats : String)
  | store (stats : String)
  | http (addr : String)
  | node (start uptime : Int)
  | lastBackup (t : Int)
  | build (info : List (String × Value))
  | stat (v : String)
  deriving DecidableEq, Repr

/-- Go `Response`: the envelope. Times are in nanoseconds; `finish` is the
field `end`. -/
structure Response where
  Results : Option Results
  Error : String
  Time : Int
  start : Int
  finish : Int
  deriving DecidableEq, Repr

/-- Go `Response.SetTime`. -/
def Response.SetTime (r : Response) : Response :=
  { r with Time := r.finish - r.start }

/-- Library calls and clock readings the handlers depend on. The three
`marshal` fields are `json.Marshal` (`json.MarshalIndent` when the flag is
set) on an envelope, on the `/nodes` map and on the `/status` map; `runtime`
is the map of runtime facts of `/status`. `redirectURL oldpath url` is the
first step of `http.Redirect`: a `url` that parses with neither scheme nor host
is made absolute against the path of the request and cleaned, any other is
left as it is; `redirectNote` is the HTML note of its body. -/
structure Lib where
  jsonObject : String → Except String (List (String × Value))
  jsonStringMap : String → Except String (List (String × String))
  ParseRequest : String → Except String (List Statement)
  ParseDuration : String → Except String Int
  TrimSpace : String → String
  ToLower : String → String
  marshalResponse : Bool → Response → Except String String
  redirectNote : String → Nat → String
  redirectURL : String → String → String
  now : Int
  later : Int
  marshalNodes : Bool → List (String × NodeEntry) → Except String String
  marshalStatus : Bool → List (String × StatusValue) → Except String String
  runtime : String

/-- Go `NewResponse`. -/
def NewResponse (L : Lib) : Response :=
  { Results := none, Error := "", Time := 0, start := L.now, finish := 0 }

/-- Go `url.Values`. -/
abbrev Values := List (String × List String)

/-- Go `url.Values.Get`. -/
def Values.Get (v : Values) (key : String) : String :=
  match v.lookup key with
  | some (x :: _) => x
  | _ => ""

/-- An `http.Request` as the handlers read it: `Path` and `RawQuery` are
`r.URL.Path` and `r.URL.RawQuery`, `Query` is `r.URL.Query()`, `formEncoded`
says whether the media type of its `Content-Type` is
`application/x-www-form-urlencoded`, `parseForm` is the error of
`r.ParseForm()` and `Form` the field it fills, `Body` the result of
`ioutil.ReadAll(r.Body)` on the body as it was received. -/
structure Request where
  Method : String
  Path : String
  RawQuery : String
  Query : Values
  formEncoded : Bool
  parseForm : Option String
  Form : Values
  Body : Except String String

/-- The result of `ioutil.ReadAll(r.Body)` once `r.ParseForm()` has returned
without error. To fill `Form`, `ParseForm` reads the body of a POST, PUT or
PATCH whose content type is form-encoded to its end (a body over 10 MB it
refuses with an error), so that nothing is left to read; any other body it
leaves alone. -/
def Request.bodyAfterForm (r : Request) : Except String String :=
  if (r.Method = "POST" ∨ r.Method = "PUT" ∨ r.Method = "PATCH") ∧ r.formEncoded = true then
    .ok ""
  else r.Body

/-- An `http.ResponseWriter`: the header map, the status code once the header
has been written together with the header sent, and the body. -/
structure ResponseWriter where
  header : List (String × String)
  status : Option Nat
  sentHeader : List (String × String)
  body : String
  deriving DecidableEq, Repr

/-- A fresh response writer. -/
def ResponseWriter.new : ResponseWriter :=
  { header := [], status := none, sentHeader := [], body := "" }

/-- Go `w.Header().Set(k, v)`. -/
def ResponseWriter.Set (w : ResponseWriter) (k v : String) : ResponseWriter :=
  { w with header := (w.header.filter fun kv => kv.1 != k) ++ [(k, v)] }

/-- Go `w.Header().Add(k, v)`. -/
def ResponseWriter.Add (w : ResponseWriter) (k v : String) : ResponseWriter :=
  { w with header := w.header ++ [(k, v)] }

/-- Go `w.WriteHeader(code)`: only the first call takes effect. -/
def ResponseWriter.WriteHeader (w : ResponseWriter) (code : Nat) : ResponseWriter :=
  match w.status with
  | some _ => w
  | none => { w with status := some code, sentHeader := w.header }

/-- Go `w.Write(b)`: writes the header with status 200 first if it is not out. -/
def ResponseWriter.Write (w : ResponseWriter) (b : String) : ResponseWriter :=
  let w := w.WriteHeader 200
  { w with body := w.body ++ b }

/-- Go `http.Error(w, error, code)`: the content type is set to plain text, the
header is written with `code`, and the message is the body. -/
def Error (w : ResponseWriter) (error : String) (code : Nat) : ResponseWriter :=
  let w := w.Set "Content-Type" "text/plain; charset=utf-8"
  let w := w.Set "X-Content-Type-Options" "nosniff"
  let w := w.WriteHeader code
  w.Write (error ++ "\n")

/-- The bytes of the UTF-8 encoding of a character. -/
def utf8Bytes (c : Char) : List Nat :=
  let n := c.toNat
  if n < 0x80 then [n]
  else if n < 0x800 then [0xc0 + n / 64, 0x80 + n % 64]
  else if n < 0x10000 then [0xe0 + n / 4096, 0x80 + n / 64 % 64, 0x80 + n % 64]
  else [0xf0 + n / 262144, 0x80 + n / 4096 % 64, 0x80 + n / 64 % 64, 0x80 + n % 64]

/-- A digit in base 16, in lower case as `strconv.AppendInt` writes it. -/
def hexDigit (n : Nat) : Char :=
  if n < 10 then Char.ofNat (48 + n) else Char.ofNat (87 + n)

/-- Go `hexEscapeNonASCII` of `net/http`: every byte from 0x80 up becomes a
percent sign and the byte in base 16 (`strconv.AppendInt(b, int64(s[i]), 16)`);
the other bytes stay. -/
def hexEscapeNonASCII (s : String) : String :=
  String.mk (s.data.flatMap fun c =>
    if c.toNat < 0x80 then [c]
    else (utf8Bytes c).flatMap fun b => ['%', hexDigit (b / 16), hexDigit (b % 16)])

/-- Go `http.Redirect(w, r, url, code)`: the `url` goes through
`L.redirectURL`, and `Location` is set to the result with its non-ASCII bytes
escaped. The short HTML note it adds for a GET without content type is
`L.redirectNote`. -/
def Redirect (L : Lib) (w : ResponseWriter) (r : Request) (url : String) (code : Nat) :
    ResponseWriter :=
  let url := L.redirectURL r.Path url
  let hadCT := w.header.any fun kv => kv.1 == "Content-Type"
  let w := w.Set "Location" (hexEscapeNonASCII url)
  let w := if !hadCT && (r.Method == "GET" || r.Method == "HEAD") then
    w.Set "Content-Type" "text/html; charset=utf-8" else w
  let w := w.WriteHeader code
  if !hadCT && r.Method == "GET" then w.Write (L.redirectNote url code ++ "\n") else w

/-- Status codes of `net/http` used by the handlers. -/
def StatusOK : Nat := 200
def StatusMovedPermanently : Nat := 301
def StatusBadRequest : Nat := 400
def StatusNotFound : Nat := 404
def StatusMethodNotAllowed : Nat := 405
def StatusInternalServerError : Nat := 500
def StatusServiceUnavailable : Nat := 503

/-- Go `Service` of the http package: the fields its handlers read. `addr` is
what `s.Addr()` returns once the service has started; `statuses` is the map of
registered status providers, as the list of its entries with what `Stats()`
of each returns; `BuildInfo` is `none` for a nil map. -/
structure Service where
  store : Store
  cluster : Cluster
  lastBackup : Option Int
  addr : String
  start : Int
  statuses : List (String × Except String String)
  BuildInfo : Option (List (String × Value))
  Expvar : Bool
  Pprof : Bool

/-- Go `Service.FormRedirect`. -/
def FormRedirect (r : Request) (url : String) : String :=
  let rq := r.RawQuery
  let rq := if rq ≠ "" then "?" ++ rq else rq
  url ++ r.Path ++ rq

/-- Go `Service.LeaderAPIAddr`. -/
def Service.LeaderAPIAddr (s : Service) : String :=
  match s.store.LeaderAddr with
  | .error _ => ""
  | .ok nodeAddr =>
    match s.cluster.GetNodeAPIAddr nodeAddr with
    | .error _ => ""
    | .ok apiAddr => apiAddr

/-- Go `queryParam`. Its call of `req.ParseForm()` also consumes the body of a
form-encoded request: a handler that reads the body after it reads
`Request.bodyAfterForm`. -/
def queryParam (req : Request) (param : String) : Except String Bool :=
  match req.parseForm with
  | some err => .error err
  | none => .ok (req.Form.any fun kv => kv.1 == param)

/-- Go `stmtParam`. -/
def stmtParam (L : Lib) (req : Request) : Except String String :=
  .ok (L.TrimSpace (req.Query.Get "q"))

/-- Go `fmtParam`. -/
def fmtParam (L : Lib) (req : Request) : Except String String :=
  .ok (L.TrimSpace (req.Query.Get "fmt"))

/-- Go `isPretty`. -/
def isPretty (req : Request) : Except String Bool := queryParam req "pretty"

/-- Go `isTx`. -/
def isTx (req : Request) : Except String Bool := queryParam req "transaction"

/-- Go `noLeader`. -/
def noLeader (req : Request) : Except String Bool := queryParam req "noleader"

/-- Go `timings`. -/
def timings (req : Request) : Except String Bool := queryParam req "timings"

/-- Go `level`. -/
def level (L : Lib) (req : Request) : Except String QueryRequest_Level :=
  let lvl := L.TrimSpace (req.Query.Get "level")
  let l := L.ToLower lvl
  if l = "none" then .ok .NONE
  else if l = "weak" then .ok .WEAK
  else if l = "strong" then .ok .STRONG
  else .ok .WEAK

/-- Go `freshness`. -/
def freshness (L : Lib) (req : Request) : Except String Int :=
  let f := L.TrimSpace (req.Query.Get "freshness")
  if f = "" then .ok 0
  else match L.ParseDuration f with
    | .error err => .error err
    | .ok d => .ok d

/-- Go `backupFormat`: the format and the writer with its `Content-Type` set. -/
def backupFormat (L : Lib) (w : ResponseWriter) (r : Request) :
    ResponseWriter × Except String BackupFormat :=
  match fmtParam L r with
  | .error err => (w, .error err)
  | .ok fmt =>
    if fmt = "sql" then (w.Set "Content-Type" "application/sql", .ok .BackupSQL)
    else (w.Set "Content-Type" "application/octet-stream", .ok .BackupBinary)

/-- Go `executeRequestFromStrings`. -/
def executeRequestFromStrings (s : List String) (timings tx : Bool) : ExecuteRequest :=
  { Request := { Statements := s.map fun q => { Sql := q }, Transaction := tx },
    Timings := timings }

/-- Go `requestQueries`. `handleQuery` calls it after `isTx`, that is, after
`ParseForm`. -/
def requestQueries (L : Lib) (r : Request) : Except String (List Statement) :=
  if r.Method = "GET" then
    match stmtParam L r with
    | .error _ => .error "bad query GET request"
    | .ok query =>
      if query = "" then .error "bad query GET request" else .ok [{ Sql := query }]
  else
    match r.bodyAfterForm with
    | .error _ => .error "bad query POST request"
    | .ok b => L.ParseRequest b

/-- What a handler leaves behind: the response, and two marks on its path: the
answer of the Store call it made (if it got there) and the envelope it handed
to `writeResponse` (if it did). -/
structure Outcome where
  w : ResponseWriter
  storeCall : Option (Option StoreError)
  envelope : Option Response
  deriving DecidableEq, Repr

/-- Go `Service.writeResponse`. -/
def writeResponse (L : Lib) (w : ResponseWriter) (r : Request) (j : Response) : ResponseWriter :=
  let pretty := match isPretty r with
    | .ok b => b
    | .error _ => false
  let timings := match timings r with
    | .ok b => b
    | .error _ => false
  let j := if timings then j.SetTime else j
  match L.marshalResponse pretty j with
  | .error err => Error w err StatusInternalServerError
  | .ok b => w.Write b

/-- The block every leader-required handler runs when its Store call returns
`store.ErrNotLeader`: 503 when `LeaderAPIAddr` is empty, a 301 to the leader
otherwise. -/
def Service.notLeader (L : Lib) (s : Service) (w : ResponseWriter) (r : Request)
    (err : StoreError) : ResponseWriter :=
  let leaderAPIAddr := s.LeaderAPIAddr
  if leaderAPIAddr = "" then Error w err.text StatusServiceUnavailable
  else
    let redirect := FormRedirect r leaderAPIAddr
    Redirect L w r redirect StatusMovedPermanently

/-- Go `Service.handleJoin`. `none` is a panic (a failed type assertion). -/
def Service.handleJoin (L : Lib) (s : Service) (w : ResponseWriter) (r : Request) :
    Option Outcome :=
  if r.Method ≠ "POST" then
    some { w := w.WriteHeader StatusMethodNotAllowed, storeCall := none, envelope := none }
  else
  match r.Body with
  | .error _ => some { w := w.WriteHeader StatusBadRequest, storeCall := none, envelope := none }
  | .ok b =>
  match L.jsonObject b with
  | .error _ => some { w := w.WriteHeader StatusBadRequest, storeCall := none, envelope := none }
  | .ok md =>
  match md.lookup "id" with
  | none => some { w := w.WriteHeader StatusBadRequest, storeCall := none, envelope := none }
  | some remoteID =>
  match md.lookup "addr" with
  | none => some { w := w.WriteHeader StatusBadRequest, storeCall := none, envelope := none }
  | some remoteAddr =>
  let voter := match md.lookup "voter" with
    | none => Value.bool true
    | some v => v
  match remoteID, remoteAddr, voter with
  | .string id, .string addr, .bool v =>
    match s.store.Join id addr v with
    | some err =>
      if err.notLeader then
        some { w := s.notLeader L w r err, storeCall := some (some err), envelope := none }
      else
        some { w := Error w err.text StatusInternalServerError, storeCall := some (some err),
               envelope := none }
    | none => some { w := w, storeCall := some none, envelope := none }
  | _, _, _ => none

/-- Go `Service.handleRemove`. The decoded map is a list of its entries. -/
def Service.handleRemove (L : Lib) (s : Service) (w : ResponseWriter) (r : Request) : Outcome :=
  if r.Method ≠ "DELETE" then
    { w := w.WriteHeader StatusMethodNotAllowed, storeCall := none, envelope := none }
  else
  match r.Body with
  | .error _ => { w := w.WriteHeader StatusBadRequest, storeCall := none, envelope := none }
  | .ok b =>
  match L.jsonStringMap b with
  | .error _ => { w := w.WriteHeader StatusBadRequest, storeCall := none, envelope := none }
  | .ok m =>
  if m.length ≠ 1 then
    { w := w.WriteHeader StatusBadRequest, storeCall := none, envelope := none }
  else
  match m.lookup "id" with
  | none => { w := w.WriteHeader StatusBadRequest, storeCall := none, envelope := none }
  | some remoteID =>
    match s.store.Remove remoteID with
    | some err =>
      if err.notLeader then
        { w := s.notLeader L w r err, storeCall := some (some err), envelope := none }
      else
        { w := Error w err.text StatusInternalServerError, storeCall := some (some err),
          envelope := none }
    | none => { w := w, storeCall := some none, envelope := none }

/-- Go `Service.handleBackup`: the outcome and the service (`lastBackup` is
set on success). -/
def Service.handleBackup (L : Lib) (s : Service) (w : ResponseWriter) (r : Request) :
    Outcome × Service :=
  if r.Method ≠ "GET" then
    ({ w := w.WriteHeader StatusMethodNotAllowed, storeCall := none, envelope := none }, s)
  else
  match noLeader r with
  | .error err =>
    ({ w := Error w err StatusInternalServerError, storeCall := none, envelope := none }, s)
  | .ok noLeader =>
  match backupFormat L w r with
  | (w, .error err) =>
    ({ w := Error w err StatusInternalServerError, storeCall := none, envelope := none }, s)
  | (w, .ok bf) =>
    match s.store.Backup (!noLeader) bf with
    | .error err =>
      if err.notLeader then
        ({ w := s.notLeader L w r err, storeCall := some (some err), envelope := none }, s)
      else
        ({ w := Error w err.text StatusInternalServerError, storeCall := some (some err),
           envelope := none }, s)
    | .ok dump =>
      ({ w := w.Write dump, storeCall := some none, envelope := none },
        { s with lastBackup := some L.later })

/-- Go `Service.handleLoad`. The body is read after `timings(r)` has parsed
the form. -/
def Service.handleLoad (L : Lib) (s : Service) (w : ResponseWriter) (r : Request) : Outcome :=
  if r.Method ≠ "POST" then
    { w := w.WriteHeader StatusMethodNotAllowed, storeCall := none, envelope := none }
  else
  let resp := NewResponse L
  match timings r with
  | .error err =>
    { w := Error w err StatusInternalServerError, storeCall := none, envelope := none }
  | .ok timings =>
  match r.bodyAfterForm with
  | .error err => { w := Error w err StatusBadRequest, storeCall := none, envelope := none }
  | .ok b =>
    let queries := [b]
    let er := executeRequestFromStrings queries timings false
    match s.store.ExecuteOrAbort er with
    | .error err =>
      if err.notLeader then
        { w := s.notLeader L w r err, storeCall := some (some err), envelope := none }
      else
        let resp := { resp with Error := err.text }
        let resp := { resp with finish := L.later }
        { w := writeResponse L w r resp, storeCall := some (some err), envelope := some resp }
    | .ok results =>
      let resp := { resp with Results := some results }
      let resp := { resp with finish := L.later }
      { w := writeResponse L w r resp, storeCall := some none, envelope := some resp }

/-- Go `Service.handleExecute`. The body is read after `isTx(r)` and
`timings(r)` have parsed the form. -/
def Service.handleExecute (L : Lib) (s : Service) (w : ResponseWriter) (r : Request) : Outcome :=
  let w := w.Set "Content-Type" "application/json; charset=utf-8"
  if r.Method ≠ "POST" then
    { w := w.WriteHeader StatusMethodNotAllowed, storeCall := none, envelope := none }
  else
  let resp := NewResponse L
  match isTx r with
  | .error err =>
    { w := Error w err StatusInternalServerError, storeCall := none, envelope := none }
  | .ok isTx =>
  match timings r with
  | .error err =>
    { w := Error w err StatusInternalServerError, storeCall := none, envelope := none }
  | .ok timings =>
  match r.bodyAfterForm with
  | .error err => { w := Error w err StatusBadRequest, storeCall := none, envelope := none }
  | .ok b =>
  match L.ParseRequest b with
  | .error err => { w := Error w err StatusBadRequest, storeCall := none, envelope := none }
  | .ok stmts =>
    let er : ExecuteRequest :=
      { Request := { Transaction := isTx, Statements := stmts }, Timings := timings }
    match s.store.Execute er with
    | .error err =>
      if err.notLeader then
        { w := s.notLeader L w r err, storeCall := some (some err), envelope := none }
      else
        let resp := { resp with Error := err.text }
        let resp := { resp with finish := L.later }
        { w := writeResponse L w r resp, storeCall := some (some err), envelope := some resp }
    | .ok results =>
      let resp := { resp with Results := some results }
      let resp := { resp with finish := L.later }
      { w := writeResponse L w r resp, storeCall := some none, envelope := some resp }

/-- Go `Service.handleQuery`. -/
def Service.handleQuery (L : Lib) (s : Service) (w : ResponseWriter) (r : Request) : Outcome :=
  let w := w.Set "Content-Type" "application/json; charset=utf-8"
  if r.Method ≠ "GET" ∧ r.Method ≠ "POST" then
    { w := w.WriteHeader StatusMethodNotAllowed, storeCall := none, envelope := none }
  else
  let resp := NewResponse L
  match isTx r with
  | .error err => { w := Error w err StatusBadRequest, storeCall := none, envelope := none }
  | .ok isTx =>
  match timings r with
  | .error err => { w := Error w err StatusBadRequest, storeCall := none, envelope := none }
  | .ok timings =>
  match level L r with
  | .error err => { w := Error w err StatusBadRequest, storeCall := none, envelope := none }
  | .ok lvl =>
  match freshness L r with
  | .error err => { w := Error w err StatusBadRequest, storeCall := none, envelope := none }
  | .ok frsh =>
  match requestQueries L r with
  | .error _ => { w := w.WriteHeader StatusBadRequest, storeCall := none, envelope := none }
  | .ok queries =>
    let qr : QueryRequest :=
      { Request := { Transaction := isTx, Statements := queries }, Timings := timings,
        Level := lvl, Freshness := frsh }
    match s.store.Query qr with
    | .error err =>
      if err.notLeader then
        { w := s.notLeader L w r err, storeCall := some (some err), envelope := none }
      else
        let resp := { resp with Error := err.text }
        let resp := { resp with finish := L.later }
        { w := writeResponse L w r resp, storeCall := some (some err), envelope := some resp }
    | .ok results =>
      let resp := { resp with Results := some results }
      let resp := { resp with finish := L.later }
      { w := writeResponse L w r resp, storeCall := some none, envelope := some resp }

/-- Go `timeout`: the value of `timeout` in the query, or the given default. -/
def timeout (L : Lib) (req : Request) (d : Int) : Except String Int :=
  let tStr := req.Query.Get "timeout"
  if tStr = "" then .ok d
  else match L.ParseDuration tStr with
    | .error _ => .ok d
    | .ok t => .ok t

/-- Go `nonVoters`. -/
def nonVoters (req : Request) : Except String Bool := queryParam req "nonvoters"

/-- The assignment `m[k] = v` on a Go map with string keys, kept as the list of
its entries. -/
def mapSet {α : Type} : List (String × α) → String → α → List (String × α)
  | [], k, v => [(k, v)]
  | (k', v') :: rest, k, v =>
    if k' = k then (k, v) :: rest else (k', v') :: mapSet rest k v

/-- The read `m[k]` on a Go map of strings: the zero value when `k` is absent. -/
def mapGet (m : List (String × String)) (k : String) : String :=
  match m.lookup k with
  | some v => v
  | none => ""

set_option linter.unusedVariables false in
/-- Go `Service.checkNodesAPIAddr`. The probes, one goroutine each in the
source, are made in the order of `nodes`; the body of the source makes no use
of `timeout`, and neither does this one. -/
def Service.checkNodesAPIAddr (s : Service) (nodes : List Server) (timeout : Int) :
    Except String (List (String × String)) :=
  let apiAddrs := nodes.foldl (fun m n => mapSet m n.ID "") []
  let apiAddrs := nodes.foldl (fun m n =>
    match s.cluster.GetNodeAPIAddr n.Addr with
    | .ok apiAddr => mapSet m n.ID apiAddr
    | .error _ => m) apiAddrs
  .ok apiAddrs

/-- The filter of `handleNodes`: non-voters are kept only when asked for. -/
def filterNodes (nodes : List Server) (includeNonVoters : Bool) : List Server :=
  nodes.filter fun n => !(n.Suffrage != "Voter" && !includeNonVoters)

/-- The response map of `handleNodes` (its last `for` loop). -/
def nodesResponse (filteredNodes : List Server) (lAddr : String)
    (apiAddrs : List (String × String)) : List (String × NodeEntry) :=
  filteredNodes.foldl (fun resp n =>
    mapSet resp n.ID
      { Addr := n.Addr, Leader := n.Addr == lAddr, APIAddr := mapGet apiAddrs n.ID,
        Reachable := mapGet apiAddrs n.ID != "" }) []

/-- Go `Service.handleNodes`. The final write to the response succeeds, so the
branch on its error is not taken. -/
def Service.handleNodes (L : Lib) (s : Service) (w : ResponseWriter) (r : Request) :
    ResponseWriter :=
  let w := w.Set "Content-Type" "application/json; charset=utf-8"
  if r.Method ≠ "GET" then w.WriteHeader StatusMethodNotAllowed
  else
  match timeout L r 1 with
  | .error err => Error w err StatusInternalServerError
  | .ok t =>
  match nonVoters r with
  | .error err => Error w err StatusInternalServerError
  | .ok includeNonVoters =>
  match s.store.Nodes with
  | .error err => Error w err StatusInternalServerError
  | .ok nodes =>
  let filteredNodes := filterNodes nodes includeNonVoters
  match s.store.LeaderAddr with
  | .error err => Error w err StatusInternalServerError
  | .ok lAddr =>
  match s.checkNodesAPIAddr filteredNodes t with
  | .error err => Error w err StatusInternalServerError
  | .ok apiAddrs =>
    let resp := nodesResponse filteredNodes lAddr apiAddrs
    let pretty := match isPretty r with
      | .ok b => b
      | .error _ => false
    match L.marshalNodes pretty resp with
    | .error err => Error w err StatusInternalServerError
    | .ok b => w.Write b

/-- The loop of `handleStatus` over the registered status providers: the first
that fails answers with a 500 and ends the loop. -/
def addStatuses (w : ResponseWriter) (status : List (String × StatusValue)) :
    List (String × Except String String) → ResponseWriter × List (String × StatusValue)
  | [] => (w, status)
  | (k, v) :: rest =>
    match v with
    | .error err => (Error w err StatusInternalServerError, status)
    | .ok stat => addStatuses w (mapSet status k (.stat stat)) rest

/-- Go `Service.handleStatus`. The final write to the response succeeds, so the
branch on its error is not taken. -/
def Service.handleStatus (L : Lib) (s : Service) (w : ResponseWriter) (r : Request) :
    ResponseWriter :=
  let w := w.Set "Content-Type" "application/json; charset=utf-8"
  if r.Method ≠ "GET" then w.WriteHeader StatusMethodNotAllowed
  else
  match s.store.Stats with
  | .error err => Error w err StatusInternalServerError
  | .ok storeStatus =>
  match s.cluster.Stats with
  | .error err => Error w err StatusInternalServerError
  | .ok clusterStatus =>
    let status : List (String × StatusValue) :=
      [("runtime", .runtime L.runtime), ("cluster", .cluster clusterStatus),
       ("store", .store storeStatus), ("http", .http s.addr),
       ("node", .node s.start (L.now - s.start))]
    let status := match s.lastBackup with
      | some t => mapSet status "last_backup_time" (.lastBackup t)
      | none => status
    let status := match s.BuildInfo with
      | some info => mapSet status "build" (.build info)
      | none => status
    let (w, status) := addStatuses w status s.statuses
    let pretty := match isPretty r with
      | .ok b => b
      | .error _ => false
    match L.marshalStatus pretty status with
    | .error err => Error w err StatusInternalServerError
    | .ok b => w.Write b

/-- The leader-required handlers. -/
inductive LeaderHandler where
  | execute
  | query
  | load
  | backup
  | join
  | remove
  deriving DecidableEq, Repr

/-- The handler named by a `LeaderHandler`. -/
def Service.run (L : Lib) (s : Service) (h : LeaderHandler) (w : ResponseWriter) (r : Request) :
    Option Outcome :=
  match h with
  | .execute => some (s.handleExecute L w r)
  | .query => some (s.handleQuery L w r)
  | .load => some (s.handleLoad L w r)
  | .backup => some (s.handleBackup L w r).1
  | .join => s.handleJoin L w r
  | .remove => some (s.handleRemove L w r)

/-- Library stand-ins to run the handlers on: a body that is not empty parses
to one statement, and one that is not `{}` to the join fields of node `n2`; a
redirect URL is left as it is, as the library leaves one with a scheme. -/
def demoLib : Lib where
  jsonObject b :=
    if b = "\x7b\x7d" then .ok [] else .ok [("id", .string "n2"), ("addr", .string "n2:4002")]
  jsonStringMap _ := .ok [("id", "n2")]
  ParseRequest b := if b = "" then .error "EOF" else .ok [{ Sql := b }]
  ParseDuration x :=
    if x = "1s" then .ok 1000000000
    else if x = "1ms" then .ok 1000000
    else .error "time: invalid duration"
  TrimSpace x := x
  ToLower x := x
  marshalResponse _ j := .ok (j.Error ++ j.Results.getD "")
  redirectNote url _ := url
  redirectURL _ url := url
  now := 0
  later := 1
  marshalNodes _ m := .ok (if m.isEmpty then "\x7b\x7d" else String.intercalate "," (m.map fun kv => kv.1))
  marshalStatus _ m := .ok (String.intercalate "," (m.map fun kv => kv.1))
  runtime := "go"

/-- The error `store.ErrNotLeader`, with a text for the demonstrations. -/
def ErrNotLeader : StoreError := { notLeader := true, text := "not leader" }

/-- A follower: every Store call answers `ErrNotLeader`. -/
def followerStore (leader : Except String String) : Store where
  Execute _ := .error ErrNotLeader
  ExecuteOrAbort _ := .error ErrNotLeader
  Query _ := .error ErrNotLeader
  Join _ _ _ := some ErrNotLeader
  Remove _ := some ErrNotLeader
  LeaderAddr := leader
  Backup _ _ := .error ErrNotLeader
  Nodes := .ok [{ ID := "n1", Addr := "leader:4002", Suffrage := "Voter" },
                { ID := "n2", Addr := "n2:4002", Suffrage := "Voter" },
                { ID := "n3", Addr := "n3:4002", Suffrage := "Nonvoter" }]
  Stats := .ok "store"

/-- A follower that knows its leader, whose API is at `http://leader:4001`. -/
def follower : Service where
  store := followerStore (.ok "leader:4002")
  cluster := { GetNodeAPIAddr := fun _ => .ok "http://leader:4001", Stats := .ok "cluster" }
  lastBackup := none
  addr := "localhost:4001"
  start := 0
  statuses := []
  BuildInfo := none
  Expvar := false
  Pprof := false

/-- A node during an election: the leader is unknown. -/
def electing : Service where
  store := followerStore (.error "leader unknown")
  cluster := { GetNodeAPIAddr := fun _ => .error "dial connection: refused",
               Stats := .ok "cluster" }
  lastBackup := none
  addr := "localhost:4001"
  start := 0
  statuses := []
  BuildInfo := none
  Expvar := false
  Pprof := false

/-- The request `POST /db/execute?timings`. -/
def executeRequest : Request where
  Method := "POST"
  Path := "/db/execute"
  RawQuery := "timings"
  Query := [("timings", [""])]
  formEncoded := false
  parseForm := none
  Form := [("timings", [""])]
  Body := .ok "[\"CREATE TABLE t(x)\"]"

/-- The request `GET /nodes?nonvoters&timeout=...`. -/
def nodesRequest (timeout : String) : Request where
  Method := "GET"
  Path := "/nodes"
  RawQuery := "nonvoters&timeout=" ++ timeout
  Query := [("nonvoters", [""]), ("timeout", [timeout])]
  formEncoded := false
  parseForm := none
  Form := [("nonvoters", [""]), ("timeout", [timeout])]
  Body := .ok ""

/-- A leader whose Store fails every call with an I/O error. -/
def failing : Service where
  store :=
    { Execute := fun _ => .error { notLeader := false, text := "disk I/O error" }
      ExecuteOrAbort := fun _ => .error { notLeader := false, text := "disk I/O error" }
      Query := fun _ => .error { notLeader := false, text := "disk I/O error" }
      Join := fun _ _ _ => some { notLeader := false, text := "disk I/O error" }
      Remove := fun _ => some { notLeader := false, text := "disk I/O error" }
      LeaderAddr := .ok "localhost:4002"
      Backup := fun _ _ => .error { notLeader := false, text := "disk I/O error" }
      Nodes := .error "disk I/O error"
      Stats := .error "disk I/O error" }
  cluster := { GetNodeAPIAddr := fun _ => .ok "http://localhost:4001", Stats := .ok "cluster" }
  lastBackup := none
  addr := "localhost:4001"
  start := 0
  statuses := []
  BuildInfo := none
  Expvar := false
  Pprof := false

/-- Go `strings.HasPrefix`. The handlers call it with prefixes in ASCII, for
which the comparison by characters is the comparison by bytes. -/
def HasPrefix (s pfx : String) : Bool := pfx.data.isPrefixOf s.data

/-- Go `NormalizeAddr`. -/
def NormalizeAddr (addr : String) : String :=
  if !HasPrefix addr "http://" then "http://" ++ addr else addr

/-- Go `VersionHTTPHeader`. -/
def VersionHTTPHeader : String := "X-TQLITE-VERSION"

/-- The bytes a header key may hold (`validHeaderFieldByte` of `net/textproto`):
letters, digits and the punctuation of an HTTP token, by code. -/
def validHeaderFieldByte (c : Char) : Bool :=
  c.isAlphanum ||
    [0x21, 0x23, 0x24, 0x25, 0x26, 0x27, 0x2a, 0x2b, 0x2d, 0x2e, 0x5e, 0x5f, 0x60, 0x7c, 0x7e].contains
      c.toNat

/-- The rewriting loop of `CanonicalMIMEHeaderKey`: a letter is put in upper
case at the start and after a hyphen, in lower case elsewhere. -/
def canonicalChars : Bool → List Char → List Char
  | _, [] => []
  | upper, c :: cs =>
    let c := if upper then c.toUpper else c.toLower
    c :: canonicalChars (c == '-') cs

/-- Go `textproto.CanonicalMIMEHeaderKey`, which `http.Header.Add` and `Set`
apply to the key: a key holding a byte that is not valid is left as it is. -/
def CanonicalMIMEHeaderKey (s : String) : String :=
  if s.data.all validHeaderFieldByte then String.mk (canonicalChars true s.data) else s

/-- Go `Service.addBuildVersion`. A read of the nil map gives no entry. The
header map stores the key in its canonical form (the keys the handlers set
are written in that form already). -/
def Service.addBuildVersion (s : Service) (w : ResponseWriter) : ResponseWriter :=
  let version := "unknown"
  let version := match s.BuildInfo with
    | none => version
    | some info =>
      match info.lookup "version" with
      | some (.string v) => v
      | _ => version
  w.Add (CanonicalMIMEHeaderKey VersionHTTPHeader) version

/-- The handlers of `net/http/pprof` that `handlePprof` calls. -/
inductive PprofHandler where
  | Cmdline
  | Profile
  | Symbol
  | Index
  deriving DecidableEq, Repr

/-- What a handler of `net/http/pprof` does to the response: the content type
it sets, the `Content-Disposition` it sets (if any), whether it reports an
error (then it sets `X-Go-Pprof` and removes `Content-Disposition`), the status
it writes (if it writes one itself) and the body. -/
structure PprofReply where
  contentType : String
  disposition : Option String
  failed : Bool
  status : Option Nat
  body : String
  deriving DecidableEq, Repr

/-- The packages `expvar` and `net/http/pprof`, scripted: the published
variables with their values in text, the quoting of `%q`, and what each pprof
handler answers to a request. -/
structure Debug where
  vars : List (String × String)
  quote : String → String
  pprof : PprofHandler → Request → PprofReply

/-- Go `w.Header().Del(k)`. -/
def ResponseWriter.Del (w : ResponseWriter) (k : String) : ResponseWriter :=
  { w with header := w.header.filter fun kv => kv.1 != k }

/-- Go `Service.handleExpvar`. -/
def handleExpvar (D : Debug) (w : ResponseWriter) : ResponseWriter :=
  let w := w.Set "Content-Type" "application/json; charset=utf-8"
  let w := w.Write "\x7b\n"
  let wf := D.vars.foldl (fun (wf : ResponseWriter × Bool) kv =>
    let w := if !wf.2 then wf.1.Write ",\n" else wf.1
    (w.Write (D.quote kv.1 ++ ": " ++ kv.2), false)) (w, true)
  wf.1.Write "\n\x7d\n"

/-- A handler of `net/http/pprof` at work on the response. -/
def servePprof (w : ResponseWriter) (reply : PprofReply) : ResponseWriter :=
  let w := w.Set "X-Content-Type-Options" "nosniff"
  let w := match reply.disposition with
    | some d => w.Set "Content-Disposition" d
    | none => w
  let w := w.Set "Content-Type" reply.contentType
  let w := if reply.failed then (w.Set "X-Go-Pprof" "1").Del "Content-Disposition" else w
  let w := match reply.status with
    | some code => w.WriteHeader code
    | none => w
  if reply.body = "" then w else w.Write reply.body

/-- Go `Service.handlePprof`. -/
def handlePprof (D : Debug) (w : ResponseWriter) (r : Request) : ResponseWriter :=
  if r.Path = "/debug/pprof/cmdline" then servePprof w (D.pprof .Cmdline r)
  else if r.Path = "/debug/pprof/profile" then servePprof w (D.pprof .Profile r)
  else if r.Path = "/debug/pprof/symbol" then servePprof w (D.pprof .Symbol r)
  else servePprof w (D.pprof .Index r)

/-- The counters of the expvar map `stats` of the package. -/
structure Counters where
  executions : Nat
  queries : Nat
  backups : Nat
  loads : Nat
  joins : Nat
  deriving DecidableEq, Repr

/-- What `ServeHTTP` leaves behind: the response, the service (a backup sets
`lastBackup`), the counters, and whether the handler panicked; the response is
then the one at the moment of the panic. -/
structure Handled where
  w : ResponseWriter
  s : Service
  stats : Counters
  panicked : Bool

/-- Go `Service.ServeHTTP`. -/
def Service.ServeHTTP (L : Lib) (D : Debug) (s : Service) (stats : Counters)
    (w : ResponseWriter) (r : Request) : Handled :=
  let w := s.addBuildVersion w
  if HasPrefix r.Path "/db/execute" then
    let stats := { stats with executions := stats.executions + 1 }
    { w := (s.handleExecute L w r).w, s := s, stats := stats, panicked := false }
  else if HasPrefix r.Path "/db/query" then
    let stats := { stats with queries := stats.queries + 1 }
    { w := (s.handleQuery L w r).w, s := s, stats := stats, panicked := false }
  else if HasPrefix r.Path "/db/backup" then
    let stats := { stats with backups := stats.backups + 1 }
    { w := (s.handleBackup L w r).1.w, s := (s.handleBackup L w r).2, stats := stats,
      panicked := false }
  else if HasPrefix r.Path "/db/load" then
    let stats := { stats with loads := stats.loads + 1 }
    { w := (s.handleLoad L w r).w, s := s, stats := stats, panicked := false }
  else if HasPrefix r.Path "/join" then
    let stats := { stats with joins := stats.joins + 1 }
    match s.handleJoin L w r with
    | some o => { w := o.w, s := s, stats := stats, panicked := false }
    | none => { w := w, s := s, stats := stats, panicked := true }
  else if HasPrefix r.Path "/remove" then
    { w := (s.handleRemove L w r).w, s := s, stats := stats, panicked := false }
  else if HasPrefix r.Path "/status" then
    { w := s.handleStatus L w r, s := s, stats := stats, panicked := false }
  else if HasPrefix r.Path "/nodes" then
    { w := s.handleNodes L w r, s := s, stats := stats, panicked := false }
  else if r.Path = "/debug/vars" ∧ s.Expvar then
    { w := handleExpvar D w, s := s, stats := stats, panicked := false }
  else if HasPrefix r.Path "/debug/pprof" ∧ s.Pprof then
    { w := handlePprof D w r, s := s, stats := stats, panicked := false }
  else
    { w := w.WriteHeader StatusNotFound, s := s, stats := stats, panicked := false }

/-- Two published variables, and pprof handlers that answer with a line of text. -/
def demoDebug : Debug where
  vars := [("cmdline", "[\"tqlited\"]"), ("http", "\x7b\x7d")]
  quote k := "\"" ++ k ++ "\""
  pprof _ _ :=
    { contentType := "text/plain; charset=utf-8", disposition := none, failed := false,
      status := none, body := "tqlited\n" }

/-- The counters when the package is loaded. -/
def Counters.init : Counters :=
  { executions := 0, queries := 0, backups := 0, loads := 0, joins := 0 }

/-- A request with an empty body and no query. -/
def bare (method path : String) : Request where
  Method := method
  Path := path
  RawQuery := ""
  Query := []
  formEncoded := false
  parseForm := none
  Form := []
  Body := .ok ""

/-- A node built as version `v6.0.0`, with both debug endpoints on. -/
def released : Service :=
  { follower with
    BuildInfo := some [("commit", .string "abc"), ("version", .string "v6.0.0")],
    Expvar := true, Pprof := true }

/-- A leader whose Store answers `Execute` and `ExecuteOrAbort` with the SQL
texts it was handed, each between brackets. -/
def recording : Service :=
  { failing with
    store :=
      { failing.store with
        Execute := fun er =>
          .ok (String.join (er.Request.Statements.map fun st => "[" ++ st.Sql ++ "]"))
        ExecuteOrAbort := fun er =>
          .ok (String.join (er.Request.Statements.map fun st => "[" ++ st.Sql ++ "]")) } }

/-- The request `POST /db/load` with the body `CREATE TABLE t(x)`, its content
type form-encoded or not. A form-encoded body without `=` is a form with that
one key. -/
def formLoad (formEncoded : Bool) : Request :=
  { bare "POST" "/db/load" with
    formEncoded := formEncoded
    Form := if formEncoded then [("CREATE TABLE t(x)", [""])] else []
    Body := .ok "CREATE TABLE t(x)" }

/-- The endpoints that check the method of the request. -/
inductive Endpoint where
  | execute
  | query
  | backup
  | load
  | join
  | remove
  | status
  | nodes
  deriving DecidableEq, Repr

/-- The methods each endpoint allows, after the table of endpoints of the
spec (section 4.3). -/
def Endpoint.methods : Endpoint → List String
  | .execute => ["POST"]
  | .query => ["GET", "POST"]
  | .backup => ["GET"]
  | .load => ["POST"]
  | .join => ["POST"]
  | .remove => ["DELETE"]
  | .status => ["GET"]
  | .nodes => ["GET"]

/-- The response of the handler of an endpoint (`none` is a panic). -/
def Service.serve (L : Lib) (s : Service) (e : Endpoint) (w : ResponseWriter) (r : Request) :
    Option ResponseWriter :=
  match e with
  | .execute => some (s.handleExecute L w r).w
  | .query => some (s.handleQuery L w r).w
  | .backup => some (s.handleBackup L w r).1.w
  | .load => some (s.handleLoad L w r).w
  | .join => (s.handleJoin L w r).map fun o => o.w
  | .remove => some (s.handleRemove L w r).w
  | .status => some (s.handleStatus L w r)
  | .nodes => some (s.handleNodes L w r)

/-- The response carries the header entry `(k, v)`: it is in the header map,
and in the header sent once the status is out. -/
def Carries (k v : String) (w : ResponseWriter) : Prop :=
  (k, v) ∈ w.header ∧ ∀ code, w.status = some code → (k, v) ∈ w.sentHeader

/-- The header keys that the handlers and the library calls behind them set. -/
def handlerKeys : List String :=
  ["Content-Type", "X-Content-Type-Options", "Location", "Content-Disposition", "X-Go-Pprof"]

/-- The library with a JSON decoder for the two bodies below: decoded into
`map[string]interface`, the number stays a number; decoded into
`map[string]string`, a number is an error. -/
def typedLib : Lib :=
  { demoLib with
    jsonObject := fun b =>
      if b = "\x7b\"id\":1,\"addr\":\"n2:4002\"\x7d" then
        .ok [("id", .other "1"), ("addr", .string "n2:4002")]
      else if b = "\x7b\"id\":\"n2\",\"addr\":\"n2:4002\",\"voter\":\"yes\"\x7d" then
        .ok [("id", .string "n2"), ("addr", .string "n2:4002"), ("voter", .string "yes")]
      else demoLib.jsonObject b,
    jsonStringMap := fun b =>
      if b = "\x7b\"id\":1\x7d" then
        .error "json: cannot unmarshal number into Go value of type string"
      else demoLib.jsonStringMap b }

/-- The request `POST /join` with the given body. -/
def joinRequest (body : String) : Request :=
  { bare "POST" "/join" with Body := .ok body }

/-- The request `DELETE /remove` with the given body. -/
def removeRequest (body : String) : Request :=
  { bare "DELETE" "/remove" with Body := .ok body }

end http

namespace tqlite

/-- Go `argT`: the flags `removeNode` reads. -/
structure argT where
  Protocol : String
  Host : String
  Port : Int
  Prefix : String
  deriving DecidableEq, Repr

/-- An `http.Response` as `removeNode` reads it; `Location` is
`resp.Header["Location"]`. -/
structure HttpResponse where
  StatusCode : Int
  Status : String
  Location : List String
  deriving DecidableEq, Repr

/-- Status codes of `net/http` that `removeNode` tests. -/
def StatusOK : Int := 200
def StatusMovedPermanently : Int := 301
def StatusUnauthorized : Int := 401

/-- The library calls and the server behind `removeNode`: `urlString` is
`url.URL.String()` on scheme, host and path, `jsonMarshal` is `json.Marshal` of
the map holding `id`, `NewRequest` the error of `http.NewRequest("DELETE", url,
body)`, and `Do n url body` what `client.Do` gives for the request number `n`
(from 0). -/
structure Env where
  urlString : String → String → String → String
  jsonMarshal : String → Except String String
  NewRequest : String → Option String
  Do : Nat → String → String → Except String HttpResponse

/-- How a call of `removeNode` ends: `nil`, an error, or a panic. -/
inductive Result where
  | nil
  | error (msg : String)
  | panic
  deriving DecidableEq, Repr

/-- A finished call of `removeNode`: its result, the URLs it sent a request to
and the responses it received, both in order. -/
structure Run where
  result : Result
  requests : List String
  responses : List HttpResponse
  deriving DecidableEq, Repr

/-- The `for` loop of `removeNode`; one unit of fuel per iteration, `none` when
the fuel runs out. -/
def removeLoop (E : Env) (maxRedirect : Nat) (b : String) :
    Nat → Nat → String → List String → List HttpResponse → Option Run
  | 0, _, _, _, _ => none
  | fuel + 1, nRedirect, urlStr, reqs, resps =>
    match E.NewRequest urlStr with
    | some err => some { result := .error err, requests := reqs, responses := resps }
    | none =>
      match E.Do reqs.length urlStr b with
      | .error err =>
        some { result := .error err, requests := reqs ++ [urlStr], responses := resps }
      | .ok resp =>
        let reqs := reqs ++ [urlStr]
        let resps := resps ++ [resp]
        if resp.StatusCode = StatusUnauthorized then
          some { result := .error "unauthorized", requests := reqs, responses := resps }
        else if resp.StatusCode = StatusMovedPermanently then
          let nRedirect := nRedirect + 1
          if nRedirect > maxRedirect then
            some { result := .error "maximum leader redirect limit exceeded",
                   requests := reqs, responses := resps }
          else
            match resp.Location with
            | [] => some { result := .panic, requests := reqs, responses := resps }
            | loc :: _ => removeLoop E maxRedirect b fuel nRedirect loc reqs resps
        else if resp.StatusCode ≠ StatusOK then
          some { result := .error ("server responded with: " ++ resp.Status),
                 requests := reqs, responses := resps }
        else some { result := .nil, requests := reqs, responses := resps }

/-- Go `removeNode`. The constant `maxRedirect` is declared outside the
sources and is a parameter; `fuel` bounds the iterations of the loop. -/
def removeNode (E : Env) (maxRedirect : Nat) (fuel : Nat) (id : String) (argv : argT) :
    Option Run :=
  let urlStr := E.urlString argv.Protocol (argv.Host ++ ":" ++ toString argv.Port)
    (argv.Prefix ++ "remove")
  match E.jsonMarshal id with
  | .error err => some { result := .error err, requests := [], responses := [] }
  | .ok b => removeLoop E maxRedirect b fuel 0 urlStr [] []

/-- A server that answers every request with a 301 to the next hop. -/
def alwaysRedirect : Env where
  urlString scheme host path := scheme ++ "://" ++ host ++ path
  jsonMarshal id := .ok ("\x7b\"id\":\"" ++ id ++ "\"\x7d")
  NewRequest _ := none
  Do n _ _ := .ok { StatusCode := 301, Status := "301 Moved Permanently",
                    Location := ["http://hop" ++ toString (n + 1) ++ "/remove"] }

/-- A server that answers request number `n` with the `n`-th of the given
responses, and refuses the connection after the last. -/
def scripted (resps : List HttpResponse) : Env where
  urlString scheme host path := scheme ++ "://" ++ host ++ path
  jsonMarshal id := .ok ("\x7b\"id\":\"" ++ id ++ "\"\x7d")
  NewRequest _ := none
  Do n _ _ :=
    match resps[n]? with
    | some resp => .ok resp
    | none => .error "connection refused"

/-- The flags of `tqlite -H localhost -p 4001`. -/
def demoArgv : argT := { Protocol := "http", Host := "localhost", Port := 4001, Prefix := "/" }

/-- A 301 to the leader. -/
def movedToLeader : HttpResponse :=
  { StatusCode := 301, Status := "301 Moved Permanently",
    Location := ["http://leader:4001/remove"] }

/-- A 401. -/
def unauthorized : HttpResponse :=
  { StatusCode := 401, Status := "401 Unauthorized", Location := [] }

/-- A 503. -/
def unavailable : HttpResponse :=
  { StatusCode := 503, Status := "503 Service Unavailable", Location := [] }

/-- A 200. -/
def okResponse : HttpResponse := { StatusCode := 200, Status := "200 OK", Location := [] }

/-- A 201. -/
def created : HttpResponse := { StatusCode := 201, Status := "201 Created", Location := [] }

/-- A 204. -/
def noContent : HttpResponse := { StatusCode := 204, Status := "204 No Content", Location := [] }

/-- A 301 without a `Location` header. -/
def movedNowhere : HttpResponse :=
  { StatusCode := 301, Status := "301 Moved Permanently", Location := [] }

end tqlite

/-! ## Theorems: the connection multiplexer -/

namespace tcp

theorem allOpen_eq_true_iff (mux : Mux) : mux.allOpen = true ↔ mux.AllOpen := by
  unfold Mux.allOpen Mux.AllOpen
  rw [List.all_eq_true]
  constructor
  · intro h k ln hk
    have := h k (List.mem_finRange k)
    simp only [hk] at this
    simpa using this
  · intro h k _
    cases hk : mux.m k with
    | none => rfl
    | some ln => simp [h k ln hk]

theorem AllOpen_NewMux (ln : NetListener) (adv : Option Addr) : (NewMux ln adv).AllOpen := by
  intro k l h
  simp [NewMux] at h

theorem AllOpen_Listen (mux : Mux) (h : Byte) (hopen : mux.AllOpen) :
    (mux.Listen h).1.AllOpen := by
  unfold Mux.Listen
  cases hm : mux.m h with
  | some l => simpa using hopen
  | none =>
    intro k l hk
    simp only at hk
    by_cases hkh : k = h
    · simp [hkh] at hk
      rw [← hk]
    · simp [hkh] at hk
      exact hopen k l hk

theorem append_singleton_ne_self {α : Type} (l : List α) (a : α) : l ≠ l ++ [a] := by
  intro h
  have := congrArg List.length h
  simp at this

theorem HandedOff_isSome {s s' : State} {conn : Conn} (h : HandedOff s s' conn) (k : Byte) :
    (s'.mux.m k).isSome = (s.mux.m k).isSome := by
  obtain ⟨b, ln, _, h1, h2, h3, _⟩ := h
  by_cases hk : k = b
  · rw [hk, h1, h2]; rfl
  · rw [h3 k hk]

theorem handleConn_outcome (s : State) (conn : Conn) (hopen : s.mux.AllOpen) :
    ∃ s', handleConn s conn = some s' ∧
      (HandedOff s s' conn ∨ ClosedByMux s s' conn) ∧
      ¬ (HandedOff s s' conn ∧ ClosedByMux s s' conn) ∧
      (HandedOff s s' conn ↔
        conn.setReadDeadline = none ∧ conn.resetReadDeadline = none ∧
          ∃ b, conn.readFull = .byte b ∧ (s.mux.m b).isSome = true) ∧
      s'.mux.AllOpen := by
  have hexcl : ∀ s', ¬ (HandedOff s s' conn ∧ ClosedByMux s s' conn) := by
    rintro s' ⟨⟨b, ln, _, _, _, _, h1⟩, h2, _⟩
    rw [h1] at h2
    exact append_singleton_ne_self _ _ h2
  have hclosed : ∀ s', ClosedByMux s s' conn → ¬ HandedOff s s' conn :=
    fun s' h2 h1 => hexcl s' ⟨h1, h2⟩
  cases h1 : conn.setReadDeadline with
  | some err =>
    have hcl : ClosedByMux s { s with eff := { s.eff with
        stats := { s.eff.stats with
          numConnectionsHandled := s.eff.stats.numConnectionsHandled + 1 },
        closed := s.eff.closed ++ [conn],
        log := s.eff.log ++ ["tcp.Mux: cannot set read deadline: " ++ err] } } conn :=
      ⟨rfl, fun _ => rfl⟩
    refine ⟨_, by simp only [handleConn, h1], Or.inr hcl, hexcl _, ?_, hopen⟩
    constructor
    · intro h; exact absurd h (hclosed _ hcl)
    · rintro ⟨h, _⟩; cases h
  | none =>
  cases h2 : conn.readFull with
  | err msg =>
    have hcl : ClosedByMux s { s with eff := { s.eff with
        stats := { s.eff.stats with
          numConnectionsHandled := s.eff.stats.numConnectionsHandled + 1 },
        closed := s.eff.closed ++ [conn],
        log := s.eff.log ++ ["tcp.Mux: cannot read header byte: " ++ msg] } } conn :=
      ⟨rfl, fun _ => rfl⟩
    refine ⟨_, by simp only [handleConn, h1, h2], Or.inr hcl, hexcl _, ?_, hopen⟩
    constructor
    · intro h; exact absurd h (hclosed _ hcl)
    · rintro ⟨_, _, b, hb, _⟩; cases hb
  | byte typ =>
  cases h3 : conn.resetReadDeadline with
  | some err =>
    have hcl : ClosedByMux s { s with eff := { s.eff with
        stats := { s.eff.stats with
          numConnectionsHandled := s.eff.stats.numConnectionsHandled + 1 },
        closed := s.eff.closed ++ [conn],
        log := s.eff.log ++ ["tcp.Mux: cannot reset set read deadline: " ++ err] } } conn :=
      ⟨rfl, fun _ => rfl⟩
    refine ⟨_, by simp only [handleConn, h1, h2, h3], Or.inr hcl, hexcl _, ?_, hopen⟩
    constructor
    · intro h; exact absurd h (hclosed _ hcl)
    · rintro ⟨_, h, _⟩; cases h
  | none =>
  cases h4 : s.mux.m typ with
  | none =>
    have hcl : ClosedByMux s { s with eff := { s.eff with
        stats := { numConnectionsHandled := s.eff.stats.numConnectionsHandled + 1,
                   numUnregisteredHandlers := s.eff.stats.numUnregisteredHandlers + 1 },
        closed := s.eff.closed ++ [conn],
        log := s.eff.log ++ ["tcp.Mux: handler not registered: " ++ toString typ.val
          ++ " (unsupported protocol?)"] } } conn :=
      ⟨rfl, fun _ => rfl⟩
    refine ⟨_, by simp only [handleConn, h1, h2, h3, h4], Or.inr hcl, hexcl _, ?_, hopen⟩
    constructor
    · intro h; exact absurd h (hclosed _ hcl)
    · rintro ⟨_, _, b, hb, hsome⟩
      cases hb
      simp [h4] at hsome
  | some handler =>
    have hc := hopen typ handler h4
    have hoff : HandedOff s { mux := s.mux.send typ handler conn, eff := { s.eff with stats :=
        { s.eff.stats with numConnectionsHandled := s.eff.stats.numConnectionsHandled + 1 } } }
        conn := by
      refine ⟨typ, handler, h2, h4, ?_, ?_, rfl⟩
      · simp [Mux.send]
      · intro k hk
        simp [Mux.send, hk]
    refine ⟨_, by simp [handleConn, h1, h2, h3, h4, hc], Or.inl hoff, hexcl _, ?_, ?_⟩
    · constructor
      · intro _
        exact ⟨rfl, rfl, typ, rfl, by simp [h4]⟩
      · intro _; exact hoff
    · intro k ln hk
      simp only [Mux.send] at hk
      by_cases hkt : k = typ
      · simp [hkt] at hk
        rw [← hk]; exact hc
      · simp [hkt] at hk
        exact hopen k ln hk

theorem handleConn_isSome (s : State) (conn : Conn) (hopen : s.mux.AllOpen) :
    ∃ s', handleConn s conn = some s' ∧ s'.mux.AllOpen ∧
      ∀ k, (s'.mux.m k).isSome = (s.mux.m k).isSome := by
  obtain ⟨s', h, hor, _, _, ho⟩ := handleConn_outcome s conn hopen
  refine ⟨s', h, ho, fun k => ?_⟩
  rcases hor with hh | hc
  · exact HandedOff_isSome hh k
  · rw [hc.2 k]

theorem AllOpen_wgWait (mux : Mux) (hopen : mux.AllOpen) : mux.wgWait.AllOpen := by
  intro k ln hk
  simp only [Mux.wgWait] at hk
  cases hm : mux.m k with
  | none => simp [hm] at hk
  | some l =>
    simp [hm] at hk
    rw [← hk]
    exact hopen k l hm

theorem closeAll_of_AllOpen (mux : Mux) (hopen : mux.AllOpen) :
    mux.closeAll =
      some { mux with m := fun k => (mux.m k).map fun ln => { ln with closed := true } } := by
  unfold Mux.closeAll
  rw [if_pos ((allOpen_eq_true_iff mux).2 hopen)]

theorem serveLoop_err (s : State) (e : NetError) (rest : List AcceptResult) :
    serveLoop s (.err e :: rest) =
      if e.temporary then serveLoop s rest
      else match s.mux.wgWait.closeAll with
        | none => ({ s with mux := s.mux.wgWait }, .panicked)
        | some mux => ({ s with mux := mux }, .returned e) := rfl

theorem serveLoop_conn (s : State) (c : Conn) (rest : List AcceptResult) :
    serveLoop s (.conn c :: rest) =
      match handleConn s c with
      | none => (s, .panicked)
      | some s => serveLoop s rest := rfl

theorem serveLoop_terminal (pre : List AcceptResult) (e : NetError) (rest : List AcceptResult)
    (hpre : ∀ e', AcceptResult.err e' ∈ pre → e'.temporary = true)
    (he : e.temporary = false) :
    ∀ s : State, s.mux.AllOpen →
      (serveLoop s (pre ++ .err e :: rest)).2 = .returned e ∧
      ∀ k, (s.mux.m k).isSome = true →
        (serveLoop s (pre ++ .err e :: rest)).1.mux.m k = some { c := [], closed := true } := by
  induction pre with
  | nil =>
    intro s hopen
    rw [List.nil_append, serveLoop_err, he, if_neg Bool.false_ne_true,
      closeAll_of_AllOpen _ (AllOpen_wgWait _ hopen)]
    refine ⟨rfl, fun k hk => ?_⟩
    simp only [Mux.wgWait]
    cases hm : s.mux.m k with
    | none => simp [hm] at hk
    | some l => simp
  | cons a pre ih =>
    have ih' := ih (fun e' h => hpre e' (List.mem_cons_of_mem _ h))
    intro s hopen
    cases a with
    | err e' =>
      have ht := hpre e' (List.mem_cons_self _ _)
      rw [List.cons_append, serveLoop_err, ht, if_pos rfl]
      exact ih' s hopen
    | conn c =>
      obtain ⟨s', hs', ho', hreg⟩ := handleConn_isSome s c hopen
      rw [List.cons_append, serveLoop_conn, hs']
      refine ⟨(ih' s' ho').1, fun k hk => ?_⟩
      exact (ih' s' ho').2 k (by rw [hreg k]; exact hk)

/-- C1. Every connection handled by a serving mux ends in exactly one of two
outcomes: it is sent on the channel registered under its first byte (and not
closed), or it is closed by the mux (and sent on no channel). It is handed off
exactly when setting the read deadline, reading the byte and clearing the
deadline all succeed and the byte is a registered header. -/
theorem handleConn_hands_off_or_closes (s : State) (conn : Conn) (hopen : s.mux.AllOpen) :
    ∃ s', handleConn s conn = some s' ∧
      (HandedOff s s' conn ∨ ClosedByMux s s' conn) ∧
      ¬ (HandedOff s s' conn ∧ ClosedByMux s s' conn) ∧
      (HandedOff s s' conn ↔
        conn.setReadDeadline = none ∧ conn.resetReadDeadline = none ∧
          ∃ b, conn.readFull = .byte b ∧ (s.mux.m b).isSome = true) ∧
      s'.mux.AllOpen :=
  handleConn_outcome s conn hopen

theorem demoMux_AllOpen : demoMux.AllOpen :=
  AllOpen_Listen _ 2 (AllOpen_Listen _ 1 (AllOpen_NewMux _ _))

theorem handleConn_hands_off_or_closes_witness :
    demoState.mux.AllOpen ∧
    ∃ s', handleConn demoState demoConn = some s' ∧
      (HandedOff demoState s' demoConn ∨ ClosedByMux demoState s' demoConn) ∧
      ¬ (HandedOff demoState s' demoConn ∧ ClosedByMux demoState s' demoConn) ∧
      (HandedOff demoState s' demoConn ↔
        demoConn.setReadDeadline = none ∧ demoConn.resetReadDeadline = none ∧
          ∃ b, demoConn.readFull = .byte b ∧ (demoState.mux.m b).isSome = true) ∧
      s'.mux.AllOpen :=
  ⟨demoMux_AllOpen, handleConn_hands_off_or_closes demoState demoConn demoMux_AllOpen⟩

end tcp

namespace tcp

/-- C7. When `Layer.Dial` succeeds, the bytes it has written to the new
connection are exactly the one byte of the layer's header, and the connection
is returned open; whatever happens, it writes nothing but (a prefix of) that
byte. When the write of the byte fails, `Dial` closes the connection and
returns the error and no connection. -/
theorem Dial_writes_header_only (l : Layer) (dial : String → Int → Except String Conn)
    (addr : String) (timeout : Int) :
    ((l.Dial dial addr timeout).err = none →
      (l.Dial dial addr timeout).written = [l.header] ∧
      (l.Dial dial addr timeout).closed = false ∧
      ∃ conn, dial addr timeout = .ok conn ∧ (l.Dial dial addr timeout).conn = some conn) ∧
    (l.Dial dial addr timeout).written <+: [l.header] ∧
    (∀ conn n msg, dial addr timeout = .ok conn → conn.write = .err n msg →
      (l.Dial dial addr timeout).closed = true ∧
      (l.Dial dial addr timeout).conn = none ∧
      (l.Dial dial addr timeout).err = some msg) := by
  cases hd : dial addr timeout with
  | error err =>
    have hD : l.Dial dial addr timeout =
        { conn := none, err := some err, written := [], closed := false } := by
      simp only [Layer.Dial, hd]
    rw [hD]
    refine ⟨(fun h => by cases h), List.nil_prefix, ?_⟩
    intro conn n msg hc
    cases hc
  | ok conn =>
    cases hw : conn.write with
    | ok =>
      have hD : l.Dial dial addr timeout =
          { conn := some conn, err := none, written := [l.header], closed := false } := by
        simp only [Layer.Dial, hd, hw]
      rw [hD]
      refine ⟨fun _ => ⟨rfl, rfl, conn, rfl, rfl⟩, List.prefix_refl _, ?_⟩
      intro conn' n' msg' hc hw'
      cases hc
      rw [hw] at hw'
      cases hw'
    | err n msg =>
      have hD : l.Dial dial addr timeout =
          { conn := none, err := some msg, written := [l.header].take n, closed := true } := by
        simp only [Layer.Dial, hd, hw]
      rw [hD]
      refine ⟨(fun h => by cases h), List.take_prefix _ _, ?_⟩
      intro conn' n' msg' hc hw'
      cases hc
      rw [hw] at hw'
      cases hw'
      exact ⟨rfl, rfl, rfl⟩

theorem Dial_writes_header_only_witness :
    (((Layer.mk 2 2 "localhost:4002").Dial (fun _ _ => .ok demoConn) "peer:4002" 10).err = none ∧
      ((Layer.mk 2 2 "localhost:4002").Dial (fun _ _ => .ok demoConn) "peer:4002" 10).written = [2]) ∧
    ((Layer.mk 2 2 "localhost:4002").Dial
        (fun _ _ => .ok { demoConn with write := .err 0 "broken pipe" }) "peer:4002" 10).closed
      = true :=
  ⟨⟨by decide,
    ((Dial_writes_header_only (Layer.mk 2 2 "localhost:4002") (fun _ _ => .ok demoConn)
      "peer:4002" 10).1 (by decide)).1⟩,
   ((Dial_writes_header_only (Layer.mk 2 2 "localhost:4002")
      (fun _ _ => .ok { demoConn with write := .err 0 "broken pipe" }) "peer:4002" 10).2.2
      { demoConn with write := .err 0 "broken pipe" } 0 "broken pipe" rfl rfl).1⟩

/-- C8. When `Accept` on the underlying listener returns a non-temporary error
(after any number of connections and temporary errors), `Serve` closes the
channel of every registered sub-listener and returns that error; `Accept` on
every registered layer then fails with "network connection closed", leaving the
listener as it is (so every later `Accept` fails alike); and `listener.Accept`
fails only on a closed channel, and only with that error. -/
theorem Serve_closes_sublisteners (s : State) (pre : List AcceptResult) (e : NetError)
    (rest : List AcceptResult) (hopen : s.mux.AllOpen)
    (hpre : ∀ e', AcceptResult.err e' ∈ pre → e'.temporary = true)
    (he : e.temporary = false) :
    (Serve s (pre ++ .err e :: rest)).2 = .returned e ∧
    (∀ k, (s.mux.m k).isSome = true →
      ∃ ln, (Serve s (pre ++ .err e :: rest)).1.mux.m k = some ln ∧ ln.closed = true) ∧
    (∀ l : Layer, (s.mux.m l.ln).isSome = true →
      ∃ ln, (Serve s (pre ++ .err e :: rest)).1.mux.m l.ln = some ln ∧
        Layer.Accept (Serve s (pre ++ .err e :: rest)).1.mux l =
          some (some (.error "network connection closed", ln))) ∧
    (∀ (ln ln' : listener) (err : String), ln.Accept = some (.error err, ln') →
      ln.closed = true ∧ err = "network connection closed" ∧ ln' = ln) := by
  have hs := serveLoop_terminal pre e rest hpre he
    { s with eff := { s.eff with log := s.eff.log ++
      ["mux serving on " ++ s.mux.ln.addr ++ ", advertising " ++ s.mux.addr] } } hopen
  refine ⟨hs.1, fun k hk => ⟨_, hs.2 k hk, rfl⟩, fun l hl => ?_, ?_⟩
  · refine ⟨_, hs.2 l.ln hl, ?_⟩
    unfold Layer.Accept
    unfold Serve
    rw [hs.2 l.ln hl]
    rfl
  · intro ln ln' err h
    unfold listener.Accept at h
    by_cases hc : ln.closed = true
    · rw [if_pos hc] at h
      simp only [Option.some.injEq, Prod.mk.injEq, Except.error.injEq] at h
      exact ⟨hc, h.1.symm, h.2.symm⟩
    · rw [if_neg hc] at h
      cases hq : ln.c with
      | nil => simp [hq] at h
      | cons c cs => simp [hq] at h

theorem Serve_closes_sublisteners_witness :
    demoState.mux.AllOpen ∧
    (NetError.mk "too many open files" true).temporary = true ∧
    (NetError.mk "use of closed network connection" false).temporary = false ∧
    (Serve demoState ([.conn demoConn, .err ⟨"too many open files", true⟩, .conn strayConn]
      ++ .err ⟨"use of closed network connection", false⟩ :: [])).2
      = .returned ⟨"use of closed network connection", false⟩ :=
  ⟨demoMux_AllOpen, rfl, rfl,
   (Serve_closes_sublisteners demoState
      [.conn demoConn, .err ⟨"too many open files", true⟩, .conn strayConn]
      ⟨"use of closed network connection", false⟩ [] demoMux_AllOpen
      (by intro e' h; simp at h; rw [h])
      rfl).1⟩

/-- C9. `Listen` on a header that is already registered panics and leaves the
map as it is; on a free header it registers one new sub-listener (open, empty)
under it, leaves every other entry untouched, and returns a layer with that
header and the address of the mux, which is the `adv` given to `NewMux` or the
address of the listener when `adv` is nil. -/
theorem Listen_registers_once (mux : Mux) (h : Byte) :
    ((mux.m h).isSome = true → (mux.Listen h).2 = none ∧ (mux.Listen h).1.m = mux.m) ∧
    (mux.m h = none →
      (mux.Listen h).2 = some { ln := h, header := h, addr := mux.addr } ∧
      (mux.Listen h).1.m h = some { c := [], closed := false } ∧
      ∀ k, k ≠ h → (mux.Listen h).1.m k = mux.m k) ∧
    (mux.Listen h).1.addr = mux.addr ∧
    (∀ (ln : NetListener) (a : Addr), (NewMux ln (some a)).addr = a) ∧
    (∀ ln : NetListener, (NewMux ln none).addr = ln.addr) ∧
    (∀ (ln : NetListener) (adv : Option Addr), ∀ k, (NewMux ln adv).m k = none) := by
  refine ⟨?_, ?_, ?_, fun _ _ => rfl, fun _ => rfl, fun _ _ _ => rfl⟩
  · intro hs
    unfold Mux.Listen
    cases hm : mux.m h with
    | none => simp [hm] at hs
    | some ln => exact ⟨rfl, rfl⟩
  · intro hm
    have hL : mux.Listen h =
        ({ mux with m := fun k => if k = h then some { c := [], closed := false } else mux.m k },
          some { ln := h, header := h, addr := mux.addr }) := by
      simp only [Mux.Listen, hm]
    rw [hL]
    exact ⟨rfl, by simp, fun k hk => by simp [hk]⟩
  · unfold Mux.Listen
    cases hm : mux.m h <;> rfl

theorem Listen_registers_once_witness :
    ((demoMux.m 2).isSome = true ∧ (demoMux.Listen 2).2 = none) ∧
    (demoMux.m 3 = none ∧
      (demoMux.Listen 3).2 = some { ln := 3, header := 3, addr := "localhost:4002" }) :=
  ⟨⟨by decide, ((Listen_registers_once demoMux 2).1 (by decide)).1⟩,
   ⟨by decide, ((Listen_registers_once demoMux 3).2.1 (by decide)).1⟩⟩

/-- C10, as amended. When the read deadline is set, the first byte is read, the
deadline is cleared, and the byte is not a registered header, `handleConn`
closes the connection and adds exactly one to `num_unregistered_handlers`; on
every other path that counter is unchanged. -/
theorem handleConn_counts_unregistered (s s' : State) (conn : Conn)
    (h : handleConn s conn = some s') :
    ((conn.setReadDeadline = none ∧ conn.resetReadDeadline = none ∧
        ∃ b, conn.readFull = .byte b ∧ s.mux.m b = none) →
      ClosedByMux s s' conn ∧
      s'.eff.stats.numUnregisteredHandlers = s.eff.stats.numUnregisteredHandlers + 1) ∧
    (¬ (conn.setReadDeadline = none ∧ conn.resetReadDeadline = none ∧
        ∃ b, conn.readFull = .byte b ∧ s.mux.m b = none) →
      s'.eff.stats.numUnregisteredHandlers = s.eff.stats.numUnregisteredHandlers) := by
  unfold handleConn at h
  cases h1 : conn.setReadDeadline with
  | some err =>
    simp only [h1, Option.some.injEq] at h
    subst h
    exact ⟨fun hc => by simp at hc, fun _ => rfl⟩
  | none =>
  cases h2 : conn.readFull with
  | err msg =>
    simp only [h1, h2, Option.some.injEq] at h
    subst h
    exact ⟨fun hc => by simp at hc, fun _ => rfl⟩
  | byte typ =>
  cases h3 : conn.resetReadDeadline with
  | some err =>
    simp only [h1, h2, h3, Option.some.injEq] at h
    subst h
    exact ⟨fun hc => by simp at hc, fun _ => rfl⟩
  | none =>
  cases h4 : s.mux.m typ with
  | none =>
    simp only [h1, h2, h3, h4, Option.some.injEq] at h
    subst h
    refine ⟨fun _ => ⟨⟨rfl, fun _ => rfl⟩, rfl⟩, fun hn => ?_⟩
    exact absurd ⟨rfl, rfl, typ, rfl, h4⟩ hn
  | some handler =>
    simp only [h1, h2, h3, h4] at h
    by_cases hc : handler.closed = true
    · simp [hc] at h
    · simp only [hc, Bool.false_eq_true, if_false, Option.some.injEq] at h
      subst h
      refine ⟨fun hcond => ?_, fun _ => rfl⟩
      obtain ⟨_, _, b, hb, hm⟩ := hcond
      cases hb
      rw [h4] at hm
      cases hm

theorem handleConn_counts_unregistered_witness :
    ∃ s', handleConn demoState strayConn = some s' ∧
      s'.eff.stats.numUnregisteredHandlers = demoState.eff.stats.numUnregisteredHandlers + 1 := by
  obtain ⟨s', hs', _, _, _, _⟩ :=
    handleConn_outcome demoState strayConn demoMux_AllOpen
  exact ⟨s', hs', ((handleConn_counts_unregistered demoState s' strayConn hs').1
    ⟨rfl, rfl, 9, rfl, by decide⟩).2⟩

/-- C10, counterexample. The first byte of `brokenConn` is read and is not a
registered header, yet `handleConn` leaves `num_unregistered_handlers` at its
old value 0: clearing the read deadline failed before the lookup. -/
theorem handleConn_unregistered_uncounted :
    brokenConn.setReadDeadline = none ∧ brokenConn.readFull = .byte 9 ∧
    demoState.mux.m 9 = none ∧
    demoState.eff.stats.numUnregisteredHandlers = 0 ∧
    (handleConn demoState brokenConn).map
      (fun s' => (s'.eff.closed, s'.eff.stats.numUnregisteredHandlers))
      = some ([brokenConn], 0) := by
  decide

end tcp

/-! ## Theorems: the cluster address service -/

namespace cluster

open tcp (Byte WriteResult)

theorem lengthField_eq (p : List Byte) :
    lengthField p =
      [Fin.ofNat (p.length % 65536), Fin.ofNat (p.length % 65536 / 256), 0, 0] := rfl

theorem readRequest_lengthField (p : List Byte) (hlen : p.length ≤ 65535) :
    readRequest (lengthField p ++ p) = some (p.length, p) := by
  have hmod : p.length % 65536 = p.length := Nat.mod_eq_of_lt (by omega)
  have hsz : Uint16 (lengthField p) = p.length := by
    rw [lengthField_eq, hmod]
    simp only [Uint16, List.getD_cons_zero, List.getD_cons_succ, Fin.ofNat, Fin.val_mk]
    omega
  have h4 : readFull (lengthField p ++ p) 4 = some (lengthField p, p) := by
    rw [lengthField_eq]
    simp [readFull]
  unfold readRequest
  rw [h4]
  simp only [hsz]
  simp [readFull]

theorem GetNodeAPIAddr_sent (P : Proto) (s : Service)
    (dial : String → Int → Except String ClientConn) (st : Stats) (nodeAddr : String)
    (conn : ClientConn) (p : List Byte)
    (hd : dial nodeAddr s.timeout = .ok conn)
    (hp : P.marshalCommand { type := Command_COMMAND_TYPE_GET_NODE_API_URL } = .ok p)
    (hw1 : conn.writeLength = .ok) (hw2 : conn.writePayload = .ok) :
    (s.GetNodeAPIAddr P dial st nodeAddr).sent = lengthField p ++ p := by
  simp only [Service.GetNodeAPIAddr, hd, hp, hw1, hw2]
  cases conn.readAll (lengthField p ++ p) with
  | error err => rfl
  | ok b =>
    simp only
    rcases P.unmarshalAddress b with ⟨a, _ | err⟩ <;> rfl

/-- C2. For a command encoded as `p` with `len(p) <= 65535`, what
`GetNodeAPIAddr` writes is the four bytes `len(p) mod 256`, `len(p) div 256`,
0, 0 followed by `p`. The request framing of the server's `handleConn`, run
on those bytes, decodes the length `len(p)` and takes `p` as the payload; and
`handleConn` of any server, on a connection that delivers those bytes, is the
rest of the handler run on the payload `p`: it is `p`, all of it and nothing
else, that it hands to `proto.Unmarshal`, and the command decoded from `p`
decides whether the request is counted. -/
theorem request_length_roundtrip (P : Proto) (s : Service)
    (dial : String → Int → Except String ClientConn) (st : Stats) (nodeAddr : String)
    (conn : ClientConn) (p : List Byte)
    (hd : dial nodeAddr s.timeout = .ok conn)
    (hp : P.marshalCommand { type := Command_COMMAND_TYPE_GET_NODE_API_URL } = .ok p)
    (hw1 : conn.writeLength = .ok) (hw2 : conn.writePayload = .ok)
    (hlen : p.length ≤ 65535) :
    (s.GetNodeAPIAddr P dial st nodeAddr).sent.map Fin.val =
      [p.length % 256, p.length / 256, 0, 0] ++ p.map Fin.val ∧
    (s.GetNodeAPIAddr P dial st nodeAddr).sent.length = 4 + p.length ∧
    readRequest (s.GetNodeAPIAddr P dial st nodeAddr).sent = some (p.length, p) ∧
    ∀ (srv : Service) (st' : Stats) (wr : WriteResult),
      srv.handleConn P st'
          { input := (s.GetNodeAPIAddr P dial st nodeAddr).sent, write := wr } =
        srv.handleCommand P st'
          { input := (s.GetNodeAPIAddr P dial st nodeAddr).sent, write := wr } p ∧
      (srv.handleConn P st'
          { input := (s.GetNodeAPIAddr P dial st nodeAddr).sent,
            write := wr }).stats.numGetNodeAPIRequest =
        st'.numGetNodeAPIRequest +
          (if (P.unmarshalCommand p).1.type = Command_COMMAND_TYPE_GET_NODE_API_URL then 1
           else 0) := by
  rw [GetNodeAPIAddr_sent P s dial st nodeAddr conn p hd hp hw1 hw2]
  refine ⟨?_, ?_, readRequest_lengthField p hlen, ?_⟩
  rotate_right
  · intro srv st' wr
    refine ⟨by simp only [Service.handleConn, readRequest_lengthField p hlen], ?_⟩
    simp only [Service.handleConn, readRequest_lengthField p hlen, Service.handleCommand]
    split <;> simp
  · have hmod : p.length % 65536 = p.length := Nat.mod_eq_of_lt (by omega)
    rw [lengthField_eq, hmod]
    simp only [List.map_append, List.map_cons, List.map_nil, Fin.ofNat, Fin.val_mk]
    have h2 : p.length / 256 % (255 + 1) = p.length / 256 := Nat.mod_eq_of_lt (by omega)
    rw [h2]
    rfl
  · rw [lengthField_eq]
    simp
    omega

theorem request_length_roundtrip_witness :
    byteCodec.marshalCommand { type := Command_COMMAND_TYPE_GET_NODE_API_URL } = .ok [1] ∧
    ([1] : List Byte).length ≤ 65535 ∧
    readRequest ((Service.mk 10 "localhost:4001").GetNodeAPIAddr byteCodec
      (fun _ _ => .ok (loopback byteCodec (Service.mk 10 "peer:4001") Stats.init))
      Stats.init "peer:4002").sent = some (1, [1]) ∧
    (Service.mk 10 "peer:4001").handleConn byteCodec Stats.init
        { input := ((Service.mk 10 "localhost:4001").GetNodeAPIAddr byteCodec
            (fun _ _ => .ok (loopback byteCodec (Service.mk 10 "peer:4001") Stats.init))
            Stats.init "peer:4002").sent, write := .ok } =
      (Service.mk 10 "peer:4001").handleCommand byteCodec Stats.init
        { input := ((Service.mk 10 "localhost:4001").GetNodeAPIAddr byteCodec
            (fun _ _ => .ok (loopback byteCodec (Service.mk 10 "peer:4001") Stats.init))
            Stats.init "peer:4002").sent, write := .ok } [1] :=
  ⟨rfl, by decide,
   (request_length_roundtrip byteCodec (Service.mk 10 "localhost:4001")
      (fun _ _ => .ok (loopback byteCodec (Service.mk 10 "peer:4001") Stats.init))
      Stats.init "peer:4002" (loopback byteCodec (Service.mk 10 "peer:4001") Stats.init) [1]
      rfl rfl rfl rfl (by decide)).2.2.1,
   ((request_length_roundtrip byteCodec (Service.mk 10 "localhost:4001")
      (fun _ _ => .ok (loopback byteCodec (Service.mk 10 "peer:4001") Stats.init))
      Stats.init "peer:4002" (loopback byteCodec (Service.mk 10 "peer:4001") Stats.init) [1]
      rfl rfl rfl rfl (by decide)).2.2.2 (Service.mk 10 "peer:4001") Stats.init .ok).1⟩

theorem handleConn_reply (P : Proto) (srv : Service) (st : Stats) (conn : ServerConn)
    (sz : Nat) (payload b : List Byte)
    (hreq : readRequest conn.input = some (sz, payload))
    (hcmd : P.unmarshalCommand payload =
      ({ type := Command_COMMAND_TYPE_GET_NODE_API_URL }, none))
    (hw : conn.write = .ok)
    (henc : P.marshalAddress { Url := "http://" ++ srv.apiAddr } = .ok b) :
    (srv.handleConn P st conn).reply = b := by
  have henc2 : P.marshalAddress { Url := "http" ++ "://" ++ srv.apiAddr } = .ok b := henc
  simp [Service.handleConn, Service.handleCommand, hreq, hcmd, henc, henc2, connWrite, hw]

/-- C3. After `SetAPIAddr(a)`, the whole reply of the server to a request that
decodes as a `GET_NODE_API_URL` command is the encoding of the address
"http://" + a, with nothing before it; and `GetNodeAPIAddr`, talking to that
server, reads the reply to the end, decodes it and returns "http://" + a with
no error, given that decoding undoes encoding for this command and address. -/
theorem get_node_api_url_reply (P : Proto) (srv cl : Service) (a : String) (st st' : Stats)
    (nodeAddr : String) (p b : List Byte)
    (hp : P.marshalCommand { type := Command_COMMAND_TYPE_GET_NODE_API_URL } = .ok p)
    (hlen : p.length ≤ 65535)
    (hcmd : P.unmarshalCommand p = ({ type := Command_COMMAND_TYPE_GET_NODE_API_URL }, none))
    (henc : P.marshalAddress { Url := "http://" ++ a } = .ok b)
    (hdec : P.unmarshalAddress b = ({ Url := "http://" ++ a }, none)) :
    (∀ (conn : ServerConn) (sz : Nat) (payload : List Byte),
      readRequest conn.input = some (sz, payload) →
      P.unmarshalCommand payload =
        ({ type := Command_COMMAND_TYPE_GET_NODE_API_URL }, none) →
      conn.write = .ok →
      ((srv.SetAPIAddr a).handleConn P st conn).reply = b) ∧
    (cl.GetNodeAPIAddr P (fun _ _ => .ok (loopback P (srv.SetAPIAddr a) st)) st' nodeAddr).url
      = "http://" ++ a ∧
    (cl.GetNodeAPIAddr P (fun _ _ => .ok (loopback P (srv.SetAPIAddr a) st)) st' nodeAddr).err
      = none := by
  have hsrv : ∀ (conn : ServerConn) (sz : Nat) (payload : List Byte),
      readRequest conn.input = some (sz, payload) →
      P.unmarshalCommand payload =
        ({ type := Command_COMMAND_TYPE_GET_NODE_API_URL }, none) →
      conn.write = .ok →
      ((srv.SetAPIAddr a).handleConn P st conn).reply = b :=
    fun conn sz payload hreq hc hw =>
      handleConn_reply P (srv.SetAPIAddr a) st conn sz payload b hreq hc hw henc
  have hreply : ((srv.SetAPIAddr a).handleConn P st
      { input := lengthField p ++ p, write := .ok }).reply = b :=
    hsrv _ p.length p (readRequest_lengthField p hlen) hcmd rfl
  refine ⟨hsrv, ?_, ?_⟩ <;>
    simp [Service.GetNodeAPIAddr, hp, loopback, hreply, hdec]

theorem get_node_api_url_reply_witness :
    byteCodec.marshalCommand { type := Command_COMMAND_TYPE_GET_NODE_API_URL } = .ok [1] ∧
    byteCodec.unmarshalCommand [1] =
      ({ type := Command_COMMAND_TYPE_GET_NODE_API_URL }, none) ∧
    byteCodec.unmarshalAddress
      [104, 116, 116, 112, 58, 47, 47, 108, 111, 99, 97, 108, 104, 111, 115, 116, 58, 52, 48,
        48, 49] = ({ Url := "http://" ++ "localhost:4001" }, none) ∧
    ((Service.mk 10 "").GetNodeAPIAddr byteCodec
      (fun _ _ => .ok (loopback byteCodec ((Service.mk 10 "").SetAPIAddr "localhost:4001")
        Stats.init)) Stats.init "peer:4002").url = "http://" ++ "localhost:4001" :=
  ⟨rfl, rfl, rfl,
  (get_node_api_url_reply byteCodec (Service.mk 10 "") (Service.mk 10 "") "localhost:4001"
    Stats.init Stats.init "peer:4002" [1]
    [104, 116, 116, 112, 58, 47, 47, 108, 111, 99, 97, 108, 104, 111, 115, 116, 58, 52, 48,
      48, 49]
    rfl (by decide) rfl rfl rfl).2.1⟩

end cluster

/-! ## Theorems: the HTTP service -/

namespace http

theorem lookup_filter_append_same (l : List (String × String)) (k v : String) :
    ((l.filter fun kv => kv.1 != k) ++ [(k, v)]).lookup k = some v := by
  induction l with
  | nil => simp [List.lookup]
  | cons a l ih =>
    obtain ⟨a1, a2⟩ := a
    by_cases h : a1 = k
    · subst h
      simpa [List.filter_cons] using ih
    · have h' : (k == a1) = false := by
        simpa using fun e : k = a1 => h e.symm
      simpa [List.filter_cons, h, List.lookup_cons, h'] using ih

theorem lookup_filter_append_other (l : List (String × String)) (k k' v : String)
    (hk : k ≠ k') :
    ((l.filter fun kv => kv.1 != k') ++ [(k', v)]).lookup k = l.lookup k := by
  have hkk : (k == k') = false := by simpa using hk
  induction l with
  | nil => simp [List.lookup, hkk]
  | cons a l ih =>
    obtain ⟨a1, a2⟩ := a
    by_cases h : a1 = k'
    · subst h
      simpa [List.filter_cons, List.lookup_cons, hkk] using ih
    · cases hka : k == a1 with
      | true => simp [List.filter_cons, h, List.lookup_cons, hka]
      | false => simpa [List.filter_cons, h, List.lookup_cons, hka] using ih

theorem Set_status (w : ResponseWriter) (k v : String) : (w.Set k v).status = w.status := rfl

theorem WriteHeader_fresh (w : ResponseWriter) (code : Nat) (hw : w.status = none) :
    w.WriteHeader code = { w with status := some code, sentHeader := w.header } := by
  simp [ResponseWriter.WriteHeader, hw]

theorem WriteHeader_status_isSome (w : ResponseWriter) (code : Nat) :
    ∃ c, (w.WriteHeader code).status = some c := by
  unfold ResponseWriter.WriteHeader
  cases h : w.status with
  | none => exact ⟨code, rfl⟩
  | some c => exact ⟨c, h⟩

theorem WriteHeader_sent (w : ResponseWriter) (code c : Nat) (hw : w.status = some c) :
    w.WriteHeader code = w := by
  simp [ResponseWriter.WriteHeader, hw]

theorem Write_status (w : ResponseWriter) (b : String) (c : Nat) (hw : w.status = some c) :
    (w.Write b).status = some c ∧ (w.Write b).sentHeader = w.sentHeader := by
  simp [ResponseWriter.Write, WriteHeader_sent w 200 c hw, hw]

theorem Error_status (w : ResponseWriter) (msg : String) (code : Nat) (hw : w.status = none) :
    (Error w msg code).status = some code := by
  unfold Error
  have h1 : ((w.Set "Content-Type" "text/plain; charset=utf-8").Set
      "X-Content-Type-Options" "nosniff").status = none := hw
  exact (Write_status _ _ code (by rw [WriteHeader_fresh _ _ h1])).1

theorem Redirect_tail (w1 : ResponseWriter) (url note : String) (code : Nat) (b : Bool)
    (hs : w1.status = none) (hl : w1.header.lookup "Location" = some url) :
    (if b = true then (w1.WriteHeader code).Write note else w1.WriteHeader code).status
      = some code ∧
    (if b = true then (w1.WriteHeader code).Write note
      else w1.WriteHeader code).sentHeader.lookup "Location" = some url := by
  have hwh := WriteHeader_fresh w1 code hs
  cases b with
  | false =>
    simp only [Bool.false_eq_true, if_false]
    rw [hwh]
    exact ⟨rfl, hl⟩
  | true =>
    simp only [if_true]
    have := Write_status (w1.WriteHeader code) note code (by rw [hwh])
    rw [this.1, this.2, hwh]
    exact ⟨rfl, hl⟩

theorem Redirect_status (L : Lib) (w : ResponseWriter) (r : Request) (url : String) (code : Nat)
    (hw : w.status = none) :
    (Redirect L w r url code).status = some code ∧
    (Redirect L w r url code).sentHeader.lookup "Location" =
      some (hexEscapeNonASCII (L.redirectURL r.Path url)) := by
  unfold Redirect
  apply Redirect_tail
  · split <;> exact hw
  · split
    · show List.lookup "Location" ((List.filter _ (w.Set "Location" _).header) ++ _) = _
      rw [lookup_filter_append_other _ _ _ _ (by decide)]
      exact lookup_filter_append_same _ _ _
    · exact lookup_filter_append_same _ _ _

theorem notLeader_response (L : Lib) (s : Service) (w : ResponseWriter) (r : Request)
    (err : StoreError) (hw : w.status = none) :
    (s.LeaderAPIAddr = "" → (s.notLeader L w r err).status = some StatusServiceUnavailable) ∧
    (s.LeaderAPIAddr ≠ "" →
      (s.notLeader L w r err).status = some StatusMovedPermanently ∧
      (s.notLeader L w r err).sentHeader.lookup "Location" =
        some (hexEscapeNonASCII (L.redirectURL r.Path (FormRedirect r s.LeaderAPIAddr)))) := by
  unfold Service.notLeader
  constructor
  · intro h
    simp only [h, if_true]
    exact Error_status _ _ _ hw
  · intro h
    simp only [h, if_false]
    exact Redirect_status L w r _ _ hw

theorem handleExecute_notLeader (L : Lib) (s : Service) (w : ResponseWriter) (r : Request)
    (err : StoreError) (hw : w.status = none)
    (hcall : (s.handleExecute L w r).storeCall = some (some err))
    (hnl : err.notLeader = true) :
    ∃ w', w'.status = none ∧ (s.handleExecute L w r).w = s.notLeader L w' r err ∧
      (s.handleExecute L w r).envelope = none := by
  unfold Service.handleExecute at hcall ⊢
  try simp only at hcall ⊢
  repeat' (split at hcall)
  all_goals first
    | (simp at hcall; done)
    | (simp only [Option.some.injEq] at hcall
       subst hcall
       simp only [*, if_true]
       refine ⟨_, ?_, rfl, rfl⟩
       exact hw)
    | (simp only [Option.some.injEq] at hcall
       subst hcall
       simp_all)

theorem handleQuery_notLeader (L : Lib) (s : Service) (w : ResponseWriter) (r : Request)
    (err : StoreError) (hw : w.status = none)
    (hcall : (s.handleQuery L w r).storeCall = some (some err))
    (hnl : err.notLeader = true) :
    ∃ w', w'.status = none ∧ (s.handleQuery L w r).w = s.notLeader L w' r err ∧
      (s.handleQuery L w r).envelope = none := by
  unfold Service.handleQuery at hcall ⊢
  try simp only at hcall ⊢
  repeat' (split at hcall)
  all_goals first
    | (simp at hcall; done)
    | (simp only [Option.some.injEq] at hcall
       subst hcall
       simp only [*, if_true]
       refine ⟨_, ?_, rfl, rfl⟩
       exact hw)
    | (simp only [Option.some.injEq] at hcall
       subst hcall
       simp_all)

theorem handleLoad_notLeader (L : Lib) (s : Service) (w : ResponseWriter) (r : Request)
    (err : StoreError) (hw : w.status = none)
    (hcall : (s.handleLoad L w r).storeCall = some (some err))
    (hnl : err.notLeader = true) :
    ∃ w', w'.status = none ∧ (s.handleLoad L w r).w = s.notLeader L w' r err ∧
      (s.handleLoad L w r).envelope = none := by
  unfold Service.handleLoad at hcall ⊢
  try simp only at hcall ⊢
  repeat' (split at hcall)
  all_goals first
    | (simp at hcall; done)
    | (simp only [Option.some.injEq] at hcall
       subst hcall
       simp only [*, if_true]
       refine ⟨_, ?_, rfl, rfl⟩
       exact hw)
    | (simp only [Option.some.injEq] at hcall
       subst hcall
       simp_all)

theorem handleRemove_notLeader (L : Lib) (s : Service) (w : ResponseWriter) (r : Request)
    (err : StoreError) (hw : w.status = none)
    (hcall : (s.handleRemove L w r).storeCall = some (some err))
    (hnl : err.notLeader = true) :
    ∃ w', w'.status = none ∧ (s.handleRemove L w r).w = s.notLeader L w' r err ∧
      (s.handleRemove L w r).envelope = none := by
  unfold Service.handleRemove at hcall ⊢
  try simp only at hcall ⊢
  repeat' (split at hcall)
  all_goals first
    | (simp at hcall; done)
    | (simp only [Option.some.injEq] at hcall
       subst hcall
       simp only [*, if_true]
       refine ⟨_, ?_, rfl, rfl⟩
       exact hw)
    | (simp only [Option.some.injEq] at hcall
       subst hcall
       simp_all)

theorem backupFormat_status (L : Lib) (w : ResponseWriter) (r : Request) :
    (backupFormat L w r).1.status = w.status := by
  unfold backupFormat
  split
  · rfl
  · split <;> rfl

theorem handleBackup_notLeader (L : Lib) (s : Service) (w : ResponseWriter) (r : Request)
    (err : StoreError) (hw : w.status = none)
    (hcall : (s.handleBackup L w r).1.storeCall = some (some err))
    (hnl : err.notLeader = true) :
    ∃ w', w'.status = none ∧ (s.handleBackup L w r).1.w = s.notLeader L w' r err ∧
      (s.handleBackup L w r).1.envelope = none := by
  unfold Service.handleBackup at hcall ⊢
  repeat' (split at hcall)
  all_goals try (simp at hcall; done)
  · simp only [Option.some.injEq] at hcall
    subst hcall
    have h := backupFormat_status L w r
    simp only [*] at h
    simp only [*, if_true, if_false]
    exact ⟨_, h, rfl, trivial⟩
  · simp only [Option.some.injEq] at hcall
    subst hcall
    simp_all

theorem handleJoin_notLeader (L : Lib) (s : Service) (w : ResponseWriter) (r : Request)
    (o : Outcome) (err : StoreError) (hw : w.status = none)
    (hrun : s.handleJoin L w r = some o)
    (hcall : o.storeCall = some (some err))
    (hnl : err.notLeader = true) :
    ∃ w', w'.status = none ∧ o.w = s.notLeader L w' r err ∧ o.envelope = none := by
  unfold Service.handleJoin at hrun
  try simp only at hrun
  repeat' (split at hrun)
  all_goals first
    | (simp at hrun; done)
    | (simp only [Option.some.injEq] at hrun
       subst hrun
       simp at hcall; done)
    | (simp only [Option.some.injEq] at hrun
       subst hrun
       simp only [Option.some.injEq] at hcall
       subst hcall
       refine ⟨_, ?_, rfl, rfl⟩
       exact hw)
    | (simp only [Option.some.injEq] at hrun
       subst hrun
       simp only [Option.some.injEq] at hcall
       subst hcall
       simp_all)

theorem run_notLeader (L : Lib) (s : Service) (h : LeaderHandler) (w : ResponseWriter)
    (r : Request) (o : Outcome) (err : StoreError) (hw : w.status = none)
    (hrun : s.run L h w r = some o) (hcall : o.storeCall = some (some err))
    (hnl : err.notLeader = true) :
    ∃ w', w'.status = none ∧ o.w = s.notLeader L w' r err ∧ o.envelope = none := by
  cases h with
  | join => exact handleJoin_notLeader L s w r o err hw hrun hcall hnl
  | execute =>
    simp only [Service.run, Option.some.injEq] at hrun
    subst hrun
    exact handleExecute_notLeader L s w r err hw hcall hnl
  | query =>
    simp only [Service.run, Option.some.injEq] at hrun
    subst hrun
    exact handleQuery_notLeader L s w r err hw hcall hnl
  | load =>
    simp only [Service.run, Option.some.injEq] at hrun
    subst hrun
    exact handleLoad_notLeader L s w r err hw hcall hnl
  | backup =>
    simp only [Service.run, Option.some.injEq] at hrun
    subst hrun
    exact handleBackup_notLeader L s w r err hw hcall hnl
  | remove =>
    simp only [Service.run, Option.some.injEq] at hrun
    subst hrun
    exact handleRemove_notLeader L s w r err hw hcall hnl

theorem hexEscapeNonASCII_ascii (s : String) (h : ∀ c ∈ s.data, c.toNat < 0x80) :
    hexEscapeNonASCII s = s := by
  unfold hexEscapeNonASCII
  have : ∀ l : List Char, (∀ c ∈ l, c.toNat < 0x80) →
      (l.flatMap fun c =>
        if c.toNat < 0x80 then [c]
        else (utf8Bytes c).flatMap fun b => ['%', hexDigit (b / 16), hexDigit (b % 16)]) = l := by
    intro l
    induction l with
    | nil => intro _; rfl
    | cons a l ih =>
      intro hl
      have ha := hl a (List.mem_cons_self _ _)
      simp only [List.flatMap_cons, ha, if_true, List.singleton_append]
      rw [ih fun c hc => hl c (List.mem_cons_of_mem _ hc)]
  rw [this s.data h]

/-- C4, as amended. For each leader-required handler (execute, query, load,
backup, join, remove), when its Store call returns NotLeader the response is
503 if `LeaderAPIAddr` is empty, which it is when `Store.LeaderAddr` or the
cluster lookup fails, and otherwise 301 with `Location` set to what
`http.Redirect` makes of `FormRedirect(request, leaderAPIAddr)`: the URL as the
library rewrites it, with every non-ASCII byte escaped. That is
`FormRedirect(request, leaderAPIAddr)` itself when the library leaves the URL
as it is (as it does one with a scheme) and the URL is ASCII. In neither case
is an envelope handed to `writeResponse`. -/
theorem notLeader_503_or_301 (L : Lib) (s : Service) (h : LeaderHandler) (w : ResponseWriter)
    (r : Request) (o : Outcome) (err : StoreError) (hw : w.status = none)
    (hrun : s.run L h w r = some o) (hcall : o.storeCall = some (some err))
    (hnl : err.notLeader = true) :
    (s.LeaderAPIAddr = "" → o.w.status = some StatusServiceUnavailable) ∧
    (s.LeaderAPIAddr ≠ "" →
      o.w.status = some StatusMovedPermanently ∧
      o.w.sentHeader.lookup "Location" =
        some (hexEscapeNonASCII (L.redirectURL r.Path (FormRedirect r s.LeaderAPIAddr))) ∧
      (L.redirectURL r.Path (FormRedirect r s.LeaderAPIAddr) = FormRedirect r s.LeaderAPIAddr →
        (∀ c ∈ (FormRedirect r s.LeaderAPIAddr).data, c.toNat < 0x80) →
        o.w.sentHeader.lookup "Location" = some (FormRedirect r s.LeaderAPIAddr))) ∧
    o.envelope = none ∧
    ((∃ e, s.store.LeaderAddr = .error e) → s.LeaderAPIAddr = "") ∧
    (∀ a, s.store.LeaderAddr = .ok a → (∃ e, s.cluster.GetNodeAPIAddr a = .error e) →
      s.LeaderAPIAddr = "") := by
  obtain ⟨w', hw', how, henv⟩ := run_notLeader L s h w r o err hw hrun hcall hnl
  have hresp := notLeader_response L s w' r err hw'
  rw [how]
  refine ⟨hresp.1, fun hne => ⟨(hresp.2 hne).1, (hresp.2 hne).2, fun hurl hascii => ?_⟩, henv,
    ?_, ?_⟩
  · rw [(hresp.2 hne).2, hurl, hexEscapeNonASCII_ascii _ hascii]
  · rintro ⟨e, he⟩
    simp [Service.LeaderAPIAddr, he]
  · rintro a ha ⟨e, he⟩
    simp [Service.LeaderAPIAddr, ha, he]

theorem notLeader_503_or_301_witness :
    (follower.run demoLib .execute ResponseWriter.new executeRequest).bind
        (fun o => o.w.sentHeader.lookup "Location")
      = some "http://leader:4001/db/execute?timings" ∧
    (electing.run demoLib .join ResponseWriter.new executeRequest).bind (fun o => o.w.status)
      = some 503 := by
  have h1 : follower.run demoLib .execute ResponseWriter.new executeRequest
      = some (follower.handleExecute demoLib ResponseWriter.new executeRequest) := rfl
  have h2 : ∃ o, electing.run demoLib .join ResponseWriter.new executeRequest = some o ∧
      o.storeCall = some (some ErrNotLeader) := ⟨_, rfl, rfl⟩
  obtain ⟨o, h2, h2c⟩ := h2
  have t1 := (notLeader_503_or_301 demoLib follower .execute ResponseWriter.new executeRequest
    _ ErrNotLeader rfl h1 rfl rfl).2.1 (by decide)
  have t2 := (notLeader_503_or_301 demoLib electing .join ResponseWriter.new executeRequest
    o ErrNotLeader rfl h2 h2c rfl).1 rfl
  rw [h1, h2]
  exact ⟨t1.2.2 rfl (by decide), t2⟩

/-- C4, counterexample. A follower with the leader at `http://leader:4001` gets
`POST /db/execute/%C3%A9?timings`, whose path decodes to `/db/execute/é`: the
Store answers NotLeader, the response is a 301, and its `Location` is not
`FormRedirect(request, leaderAPIAddr)`: the `é` is sent as `%c3%a9`. -/
theorem handleExecute_location_is_escaped :
    (follower.handleExecute demoLib ResponseWriter.new
      { executeRequest with Path := "/db/execute/é" }).storeCall = some (some ErrNotLeader) ∧
    (follower.handleExecute demoLib ResponseWriter.new
      { executeRequest with Path := "/db/execute/é" }).w.status = some 301 ∧
    (follower.handleExecute demoLib ResponseWriter.new
      { executeRequest with Path := "/db/execute/é" }).w.sentHeader.lookup "Location" =
      some "http://leader:4001/db/execute/%c3%a9?timings" ∧
    FormRedirect { executeRequest with Path := "/db/execute/é" } follower.LeaderAPIAddr =
      "http://leader:4001/db/execute/é?timings" ∧
    (follower.handleExecute demoLib ResponseWriter.new
      { executeRequest with Path := "/db/execute/é" }).w.sentHeader.lookup "Location" ≠
      some (FormRedirect { executeRequest with Path := "/db/execute/é" }
        follower.LeaderAPIAddr) := by
  decide

/-- C5. `FormRedirect` returns the leader URL followed by the path of the
request and then "?" and the raw query of the request; when the raw query is
empty it returns the URL followed by the path, with no "?". -/
theorem FormRedirect_path_and_query (r : Request) (u : String) :
    (r.RawQuery ≠ "" → FormRedirect r u = u ++ r.Path ++ "?" ++ r.RawQuery) ∧
    (r.RawQuery = "" → FormRedirect r u = u ++ r.Path) := by
  unfold FormRedirect
  constructor
  · intro h
    simp only [h, ne_eq, not_false_eq_true, if_true, String.append_assoc]
  · intro h
    simp [h]

theorem FormRedirect_path_and_query_witness :
    FormRedirect executeRequest "http://leader:4001" = "http://leader:4001/db/execute?timings" ∧
    FormRedirect { executeRequest with RawQuery := "" } "http://leader:4001"
      = "http://leader:4001/db/execute" :=
  ⟨(FormRedirect_path_and_query executeRequest "http://leader:4001").1 (by decide),
   (FormRedirect_path_and_query { executeRequest with RawQuery := "" }
      "http://leader:4001").2 rfl⟩

end http

/-! ## Theorems: the administrative client -/

namespace tqlite

theorem removeLoop_bounded (E : Env) (maxRedirect : Nat) (b : String) :
    ∀ (fuel nRedirect : Nat) (urlStr : String) (reqs : List String) (resps : List HttpResponse),
      maxRedirect < fuel + nRedirect → nRedirect ≤ maxRedirect →
      reqs.length = nRedirect → resps.length = nRedirect →
      (∀ x ∈ resps, x.StatusCode = StatusMovedPermanently) →
      ∃ run, removeLoop E maxRedirect b fuel nRedirect urlStr reqs resps = some run ∧
        run.requests.length ≤ maxRedirect + 1 ∧
        run.responses.length ≤ run.requests.length ∧
        (∀ x ∈ run.responses.dropLast, x.StatusCode = StatusMovedPermanently) ∧
        ((∀ x ∈ run.responses, x.StatusCode = StatusMovedPermanently) →
          run.responses.length = maxRedirect + 1 →
          run.result = .error "maximum leader redirect limit exceeded" ∧
          run.requests.length = maxRedirect + 1) := by
  intro fuel
  induction fuel with
  | zero =>
    intro nRedirect urlStr reqs resps h1 h2
    omega
  | succ fuel ih =>
    intro nRedirect urlStr reqs resps h1 h2 h3 h4 h5
    have hdl : ∀ x ∈ resps.dropLast, x.StatusCode = StatusMovedPermanently :=
      fun x hx => h5 x (List.dropLast_subset _ hx)
    rw [removeLoop]
    cases hnr : E.NewRequest urlStr with
    | some err =>
      refine ⟨_, rfl, ?_, ?_, hdl, ?_⟩
      · simp only; omega
      · simp only; omega
      · intro _ hl
        simp only at hl; omega
    | none =>
      cases hdo : E.Do reqs.length urlStr b with
      | error err =>
        refine ⟨_, rfl, ?_, ?_, hdl, ?_⟩
        · simp; omega
        · simp; omega
        · intro _ hl
          simp only at hl; omega
      | ok resp =>
        simp only
        by_cases h401 : resp.StatusCode = StatusUnauthorized
        · rw [if_pos h401]
          refine ⟨_, rfl, ?_, ?_, ?_, ?_⟩
          · simp; omega
          · simp; omega
          · simpa using h5
          · intro hall _
            have := hall resp (by simp)
            rw [h401] at this
            exact absurd this (by decide)
        · rw [if_neg h401]
          by_cases h301 : resp.StatusCode = StatusMovedPermanently
          · rw [if_pos h301]
            by_cases hmax : nRedirect + 1 > maxRedirect
            · rw [if_pos hmax]
              refine ⟨_, rfl, ?_, ?_, ?_, ?_⟩
              · simp; omega
              · simp; omega
              · simpa using h5
              · intro _ _
                refine ⟨rfl, ?_⟩
                simp; omega
            · rw [if_neg hmax]
              cases hloc : resp.Location with
              | nil =>
                refine ⟨_, rfl, ?_, ?_, ?_, ?_⟩
                · simp; omega
                · simp; omega
                · simpa using h5
                · intro _ hl
                  simp at hl; omega
              | cons loc _ =>
                apply ih
                · omega
                · omega
                · simp; omega
                · simp; omega
                · intro x hx
                  rcases List.mem_append.1 hx with hx | hx
                  · exact h5 x hx
                  · simp at hx; rw [hx]; exact h301
          · rw [if_neg h301]
            by_cases h200 : resp.StatusCode ≠ StatusOK
            · rw [if_pos h200]
              refine ⟨_, rfl, ?_, ?_, ?_, ?_⟩
              · simp; omega
              · simp; omega
              · simpa using h5
              · intro hall _
                exact absurd (hall resp (by simp)) h301
            · rw [if_neg h200]
              refine ⟨_, rfl, ?_, ?_, ?_, ?_⟩
              · simp; omega
              · simp; omega
              · simpa using h5
              · intro hall _
                exact absurd (hall resp (by simp)) h301

theorem removeLoop_fuel_succ (E : Env) (maxRedirect : Nat) (b : String) :
    ∀ (fuel nRedirect : Nat) (urlStr : String) (reqs : List String) (resps : List HttpResponse)
      (run : Run),
      removeLoop E maxRedirect b fuel nRedirect urlStr reqs resps = some run →
      removeLoop E maxRedirect b (fuel + 1) nRedirect urlStr reqs resps = some run := by
  intro fuel
  induction fuel with
  | zero =>
    intro nRedirect urlStr reqs resps run h
    simp [removeLoop] at h
  | succ fuel ih =>
    intro nRedirect urlStr reqs resps run h
    rw [removeLoop] at h ⊢
    cases hnr : E.NewRequest urlStr with
    | some err => simpa [hnr] using h
    | none =>
      cases hdo : E.Do reqs.length urlStr b with
      | error err => simpa [hnr, hdo] using h
      | ok resp =>
        simp only [hnr, hdo] at h ⊢
        by_cases h401 : resp.StatusCode = StatusUnauthorized
        · rw [if_pos h401] at h ⊢
          exact h
        · rw [if_neg h401] at h ⊢
          by_cases h301 : resp.StatusCode = StatusMovedPermanently
          · rw [if_pos h301] at h ⊢
            by_cases hmax : nRedirect + 1 > maxRedirect
            · rw [if_pos hmax] at h ⊢
              exact h
            · rw [if_neg hmax] at h ⊢
              cases hloc : resp.Location with
              | nil =>
                rw [hloc] at h
                exact h
              | cons loc rest =>
                rw [hloc] at h
                exact ih _ _ _ _ _ h
          · rw [if_neg h301] at h ⊢
            exact h

theorem removeLoop_fuel_le (E : Env) (maxRedirect : Nat) (b : String) (fuel k nRedirect : Nat)
    (urlStr : String) (reqs : List String) (resps : List HttpResponse) (run : Run)
    (h : removeLoop E maxRedirect b fuel nRedirect urlStr reqs resps = some run) :
    removeLoop E maxRedirect b (fuel + k) nRedirect urlStr reqs resps = some run := by
  induction k with
  | zero => exact h
  | succ k ih => exact removeLoop_fuel_succ E maxRedirect b _ _ _ _ _ _ ih

theorem removeLoop_all_redirects (E : Env) (maxRedirect : Nat) (b : String)
    (hnew : ∀ url, E.NewRequest url = none)
    (hdo : ∀ n url, n ≤ maxRedirect → ∃ resp, E.Do n url b = .ok resp ∧
      resp.StatusCode = StatusMovedPermanently ∧ resp.Location ≠ []) :
    ∀ (fuel nRedirect : Nat) (urlStr : String) (reqs : List String) (resps : List HttpResponse),
      maxRedirect < fuel + nRedirect → nRedirect ≤ maxRedirect → reqs.length = nRedirect →
      ∃ run, removeLoop E maxRedirect b fuel nRedirect urlStr reqs resps = some run ∧
        run.result = .error "maximum leader redirect limit exceeded" ∧
        run.requests.length = maxRedirect + 1 := by
  intro fuel
  induction fuel with
  | zero =>
    intro nRedirect urlStr reqs resps h1 h2
    omega
  | succ fuel ih =>
    intro nRedirect urlStr reqs resps h1 h2 h3
    obtain ⟨resp, hresp, h301, hloc⟩ := hdo reqs.length urlStr (by omega)
    have h401 : resp.StatusCode ≠ StatusUnauthorized := by
      rw [h301]; decide
    rw [removeLoop]
    simp only [hnew, hresp, if_neg h401, if_pos h301]
    by_cases hmax : nRedirect + 1 > maxRedirect
    · rw [if_pos hmax]
      refine ⟨_, rfl, rfl, ?_⟩
      simp; omega
    · rw [if_neg hmax]
      cases hl : resp.Location with
      | nil => exact absurd hl hloc
      | cons loc rest =>
        apply ih
        · omega
        · omega
        · simp; omega

/-- C6. Whatever the server answers, `removeNode` returns: with any fuel above
`maxRedirect` the loop ends by itself, with the same result. It has then sent
at most `maxRedirect + 1` requests, each but the first following a 301, so at
most `maxRedirect` redirects are followed. When the `maxRedirect + 1` responses
received are all 301, the result is the error "maximum leader redirect limit
exceeded" and no further request was sent; this is what happens when the
server answers every request with a 301 that has a `Location`. -/
theorem removeNode_redirects_bounded (E : Env) (maxRedirect fuel : Nat) (id : String)
    (argv : argT) (hfuel : maxRedirect < fuel) :
    ∃ run, removeNode E maxRedirect fuel id argv = some run ∧
      removeNode E maxRedirect (maxRedirect + 1) id argv = some run ∧
      run.requests.length ≤ maxRedirect + 1 ∧
      run.responses.length ≤ run.requests.length ∧
      (∀ x ∈ run.responses.dropLast, x.StatusCode = StatusMovedPermanently) ∧
      ((∀ x ∈ run.responses, x.StatusCode = StatusMovedPermanently) →
        run.responses.length = maxRedirect + 1 →
        run.result = .error "maximum leader redirect limit exceeded" ∧
        run.requests.length = maxRedirect + 1) ∧
      ((∃ b, E.jsonMarshal id = .ok b ∧
          ∀ n url, n ≤ maxRedirect → ∃ resp, E.Do n url b = .ok resp ∧
            resp.StatusCode = StatusMovedPermanently ∧ resp.Location ≠ []) →
        (∀ url, E.NewRequest url = none) →
        run.result = .error "maximum leader redirect limit exceeded" ∧
        run.requests.length = maxRedirect + 1) := by
  obtain ⟨k, hk⟩ : ∃ k, fuel = maxRedirect + 1 + k := ⟨fuel - (maxRedirect + 1), by omega⟩
  subst hk
  unfold removeNode
  cases hj : E.jsonMarshal id with
  | error err =>
    refine ⟨_, rfl, rfl, by simp, by simp, by simp, ?_, ?_⟩
    · intro _ hl
      simp at hl
    · rintro ⟨b, hb, _⟩
      cases hb
  | ok b =>
    obtain ⟨run, hrun, h1, h2, h3, h4⟩ :=
      removeLoop_bounded E maxRedirect b (maxRedirect + 1) 0
        (E.urlString argv.Protocol (argv.Host ++ ":" ++ toString argv.Port)
          (argv.Prefix ++ "remove")) [] [] (by omega) (by omega) rfl rfl (by simp)
    refine ⟨run, removeLoop_fuel_le E maxRedirect b _ k _ _ _ _ run hrun, hrun, h1, h2, h3, h4, ?_⟩
    rintro ⟨b', hb', hdo⟩ hnew
    cases hb'
    obtain ⟨run', hrun', hres, hlen⟩ :=
      removeLoop_all_redirects E maxRedirect b hnew hdo (maxRedirect + 1) 0
        (E.urlString argv.Protocol (argv.Host ++ ":" ++ toString argv.Port)
          (argv.Prefix ++ "remove")) [] [] (by omega) (by omega) rfl
    rw [hrun] at hrun'
    cases hrun'
    exact ⟨hres, hlen⟩

theorem removeNode_redirects_bounded_witness :
    21 < 22 ∧
    ∃ run, removeNode alwaysRedirect 21 22 "n1" ⟨"http", "localhost", 4001, "/"⟩ = some run ∧
      run.requests.length ≤ 21 + 1 ∧
      run.result = .error "maximum leader redirect limit exceeded" ∧
      run.requests.length = 21 + 1 := by
  obtain ⟨run, h1, _, h2, _, _, _, h3⟩ :=
    removeNode_redirects_bounded alwaysRedirect 21 22 "n1" ⟨"http", "localhost", 4001, "/"⟩
      (by decide)
  have h4 := h3 ⟨_, rfl, fun n url _ => ⟨_, rfl, rfl, by simp⟩⟩ (fun _ => rfl)
  exact ⟨by decide, run, h1, h2, h4.1, h4.2⟩

theorem removeNode_22_redirects :
    (removeNode alwaysRedirect 21 22 "n1" ⟨"http", "localhost", 4001, "/"⟩).map
      (fun run => (run.result, run.requests.length,
        run.responses.all fun x => x.StatusCode == StatusMovedPermanently))
      = some (.error "maximum leader redirect limit exceeded", 22, true) := by
  decide

end tqlite

/-! ## Theorems: the cluster server on bad requests -/

namespace cluster

open tcp (Byte WriteResult)

theorem handleConn_decode_error_no_reply (P : Proto) (s : Service) (st : Stats)
    (conn : ServerConn) (sz : Nat) (payload : List Byte) (c : Command) (err : String)
    (hreq : readRequest conn.input = some (sz, payload))
    (hdec : P.unmarshalCommand payload = (c, some err)) :
    (s.handleConn P st conn).reply = [] ∧ 1 ≤ (s.handleConn P st conn).closes := by
  unfold Service.handleConn
  simp only [hreq, Service.handleCommand, hdec, Option.isSome_some, if_true]
  split
  · cases P.marshalAddress { Url := "http" ++ "://" ++ s.apiAddr } with
    | ok b => exact ⟨by simp [connWrite], by simp⟩
    | error e => exact ⟨by simp [connWrite], by simp⟩
  · exact ⟨rfl, by simp⟩

/-- C11, failing input. The payload `08 01 ff` fails to decode, leaving the
command with `type = GET_NODE_API_URL`: `handleConn` closes the connection and
no reply reaches the peer, but it goes on into the dispatch, counts a request
and a response, and closes a second time on return. -/
theorem handleConn_continues_after_decode_error :
    wireCodec.unmarshalCommand [8, 1, 255] =
      ({ type := Command_COMMAND_TYPE_GET_NODE_API_URL },
        some "proto: cannot parse invalid wire-format data") ∧
    demoServer.handleConn wireCodec Stats.init
      { input := [3, 0, 0, 0, 8, 1, 255], write := .ok } =
      { stats := { numGetNodeAPI := 0, numGetNodeAPIRequest := 1, numGetNodeAPIResponse := 1 },
        reply := [], closes := 2 } := by
  decide

/-- C12, as amended. For a request that decodes as a `GET_NODE_API_URL` command
(and an address that encodes), `handleConn` adds one to `num_get_node_api_req`
and one to `num_get_node_api_resp`, whatever the write of the reply gives; a
request that decodes as another command, or that cannot be read, changes no
counter. -/
theorem handleConn_counts_request_and_reply (P : Proto) (s : Service) (st : Stats)
    (conn : ServerConn) :
    (∀ sz payload c b, readRequest conn.input = some (sz, payload) →
      P.unmarshalCommand payload = (c, none) →
      c.type = Command_COMMAND_TYPE_GET_NODE_API_URL →
      P.marshalAddress { Url := "http://" ++ s.apiAddr } = .ok b →
      (s.handleConn P st conn).stats =
        { st with numGetNodeAPIRequest := st.numGetNodeAPIRequest + 1,
                  numGetNodeAPIResponse := st.numGetNodeAPIResponse + 1 }) ∧
    (∀ sz payload c, readRequest conn.input = some (sz, payload) →
      P.unmarshalCommand payload = (c, none) →
      c.type ≠ Command_COMMAND_TYPE_GET_NODE_API_URL →
      (s.handleConn P st conn).stats = st) ∧
    (readRequest conn.input = none → (s.handleConn P st conn).stats = st) := by
  refine ⟨?_, ?_, ?_⟩
  · intro sz payload c b hreq hdec hty henc
    have henc2 : P.marshalAddress { Url := "http" ++ "://" ++ s.apiAddr } = .ok b := henc
    simp [Service.handleConn, Service.handleCommand, hreq, hdec, hty, henc, henc2]
  · intro sz payload c hreq hdec hty
    simp [Service.handleConn, Service.handleCommand, hreq, hdec, hty]
  · intro hreq
    simp [Service.handleConn, Service.handleCommand, hreq]

theorem handleConn_counts_request_and_reply_witness :
    (demoServer.handleConn wireCodec Stats.init
      { input := [2, 0, 0, 0, 8, 1], write := .err 0 "broken pipe" }).stats =
      { Stats.init with numGetNodeAPIRequest := Stats.init.numGetNodeAPIRequest + 1,
                        numGetNodeAPIResponse := Stats.init.numGetNodeAPIResponse + 1 } :=
  (handleConn_counts_request_and_reply wireCodec demoServer Stats.init
    { input := [2, 0, 0, 0, 8, 1], write := .err 0 "broken pipe" }).1
    2 [8, 1] { type := 1 } _ (by decide) rfl rfl rfl

/-- C12, counterexample. The write of the reply fails (nothing reaches the
peer), yet `num_get_node_api_resp` goes from 0 to 1. -/
theorem handleConn_counts_failed_reply :
    readRequest [2, 0, 0, 0, 8, 1] = some (2, [8, 1]) ∧
    wireCodec.unmarshalCommand [8, 1] =
      ({ type := Command_COMMAND_TYPE_GET_NODE_API_URL }, none) ∧
    demoServer.handleConn wireCodec Stats.init
      { input := [2, 0, 0, 0, 8, 1], write := .err 0 "broken pipe" } =
      { stats := { numGetNodeAPI := 0, numGetNodeAPIRequest := 1, numGetNodeAPIResponse := 1 },
        reply := [], closes := 1 } := by
  decide

theorem Uint16_le (b : List Byte) : Uint16 b ≤ 65535 := by
  unfold Uint16
  have h0 := (b.getD 0 0).isLt
  have h1 := (b.getD 1 0).isLt
  omega

/-- C13, as amended. The length is decoded from the low two bytes of the
4-byte field only: a request that is accepted has a payload of the decoded
length, which is at most 65535 (below 64 KiB), so nothing longer is allocated
or read; the upper two bytes are ignored, whatever they are. -/
theorem readRequest_length_from_low_bytes (b0 b1 b2 b3 : Byte) (rest : List Byte) :
    (∀ sz payload, readRequest (b0 :: b1 :: b2 :: b3 :: rest) = some (sz, payload) →
      sz = b0.val + b1.val * 256 ∧ sz ≤ 65535 ∧ payload.length = sz ∧
      payload = rest.take sz) ∧
    Uint16 [b0, b1, b2, b3] = b0.val + b1.val * 256 ∧
    Uint16 [b0, b1, b2, b3] ≤ 65535 ∧
    readRequest (b0 :: b1 :: b2 :: b3 :: rest) = readRequest (b0 :: b1 :: 0 :: 0 :: rest) ∧
    (b0.val + b1.val * 256 ≤ rest.length →
      readRequest (b0 :: b1 :: b2 :: b3 :: rest) =
        some (b0.val + b1.val * 256, rest.take (b0.val + b1.val * 256))) := by
  have h4 : ∀ c2 c3 : Byte, readFull (b0 :: b1 :: c2 :: c3 :: rest) 4 =
      some ([b0, b1, c2, c3], rest) := by
    intro c2 c3
    simp [readFull]
  have hu : ∀ c2 c3 : Byte, Uint16 [b0, b1, c2, c3] = b0.val + b1.val * 256 := by
    intro c2 c3
    simp [Uint16]
  have hb : b0.val + b1.val * 256 ≤ 65535 := by
    have h0 := b0.isLt
    have h1 := b1.isLt
    omega
  have hrr : ∀ c2 c3 : Byte, readRequest (b0 :: b1 :: c2 :: c3 :: rest) =
      if b0.val + b1.val * 256 ≤ rest.length then
        some (b0.val + b1.val * 256, rest.take (b0.val + b1.val * 256)) else none := by
    intro c2 c3
    unfold readRequest
    rw [h4 c2 c3]
    simp only [hu c2 c3]
    unfold readFull
    by_cases hle : b0.val + b1.val * 256 ≤ rest.length
    · simp [hle]
    · simp [hle]
  refine ⟨?_, hu b2 b3, Uint16_le _, ?_, ?_⟩
  · intro sz payload h
    rw [hrr b2 b3] at h
    split at h
    · rename_i hle
      simp only [Option.some.injEq, Prod.mk.injEq] at h
      obtain ⟨h1, h2⟩ := h
      subst h1
      subst h2
      exact ⟨rfl, hb, by simp [List.length_take, hle], rfl⟩
    · cases h
  · rw [hrr b2 b3, hrr 0 0]
  · intro hle
    rw [hrr b2 b3, if_pos hle]

theorem readRequest_length_from_low_bytes_witness :
    readRequest ([1, 0, 1, 0, 7] : List Byte) = some (1, [7]) :=
  (readRequest_length_from_low_bytes 1 0 1 0 [7]).2.2.2.2 (by decide)

/-- C13, counterexample. The length field `01 00 01 00` is 65537 as a 32-bit
little-endian number, above 64 KiB, yet it is accepted as a request of one
byte, which the server answers. -/
theorem readRequest_accepts_upper_bytes :
    (1 + 0 * 256 + 1 * 65536 + 0 * 16777216 > 65536) ∧
    readRequest ([1, 0, 1, 0, 1] : List Byte) = some (1, [1]) ∧
    (demoServer.handleConn byteCodec Stats.init
      { input := [1, 0, 1, 0, 1], write := .ok }).reply =
      [104, 116, 116, 112, 58, 47, 47, 108, 111, 99, 97, 108, 104, 111, 115, 116, 58, 52, 48,
        48, 49] := by
  decide

end cluster

/-! ## Theorems: the HTTP service, continued -/

namespace http

theorem lookup_mapSet_same {α : Type} (m : List (String × α)) (k : String) (v : α) :
    (mapSet m k v).lookup k = some v := by
  induction m with
  | nil => simp [mapSet, List.lookup]
  | cons a m ih =>
    obtain ⟨k', v'⟩ := a
    unfold mapSet
    by_cases h : k' = k
    · simp [h, List.lookup]
    · have h' : (k == k') = false := by simpa using fun e : k = k' => h e.symm
      simp only [h, if_false, List.lookup_cons, h']
      exact ih

theorem lookup_mapSet_other {α : Type} (m : List (String × α)) (k k' : String) (v : α)
    (hk : k' ≠ k) : (mapSet m k v).lookup k' = m.lookup k' := by
  have hkk : (k' == k) = false := by simpa using hk
  induction m with
  | nil => simp [mapSet, List.lookup, hkk]
  | cons a m ih =>
    obtain ⟨k1, v1⟩ := a
    unfold mapSet
    by_cases h : k1 = k
    · subst h
      simp [List.lookup_cons, hkk]
    · simp only [h, if_false, List.lookup_cons]
      cases k' == k1 with
      | true => rfl
      | false => exact ih

theorem mem_keys_mapSet {α : Type} (m : List (String × α)) (k k' : String) (v : α) :
    k' ∈ (mapSet m k v).map Prod.fst ↔ k' = k ∨ k' ∈ m.map Prod.fst := by
  induction m with
  | nil => simp [mapSet]
  | cons a m ih =>
    obtain ⟨k1, v1⟩ := a
    unfold mapSet
    by_cases h : k1 = k
    · subst h
      simp
    · simp only [h, if_false, List.map_cons, List.mem_cons, ih]
      tauto

theorem nodup_keys_mapSet {α : Type} (m : List (String × α)) (k : String) (v : α)
    (hm : (m.map Prod.fst).Nodup) : ((mapSet m k v).map Prod.fst).Nodup := by
  induction m with
  | nil => simp [mapSet]
  | cons a m ih =>
    obtain ⟨k1, v1⟩ := a
    unfold mapSet
    simp only [List.map_cons, List.nodup_cons] at hm
    by_cases h : k1 = k
    · subst h
      simpa using hm
    · rw [if_neg h]
      simp only [List.map_cons, List.nodup_cons, mem_keys_mapSet]
      refine ⟨?_, ih hm.2⟩
      rintro (e | e)
      · exact h e
      · exact hm.1 e

theorem foldl_lookup_other {α ν : Type} (f : List (String × α) → ν → List (String × α))
    (key : ν → String)
    (hother : ∀ m n k, k ≠ key n → (f m n).lookup k = m.lookup k)
    (k : String) (ns : List ν) :
    ∀ m, (∀ n ∈ ns, key n ≠ k) → (ns.foldl f m).lookup k = m.lookup k := by
  induction ns with
  | nil => intro m _; rfl
  | cons a ns ih =>
    intro m h
    rw [List.foldl_cons, ih _ (fun n hn => h n (List.mem_cons_of_mem _ hn))]
    exact hother m a k (fun e => h a (List.mem_cons_self _ _) e.symm)

theorem foldl_lookup_mem {α ν : Type} (f : List (String × α) → ν → List (String × α))
    (key : ν → String)
    (hother : ∀ m n k, k ≠ key n → (f m n).lookup k = m.lookup k)
    (hsame : ∀ m m' n, m.lookup (key n) = m'.lookup (key n) →
      (f m n).lookup (key n) = (f m' n).lookup (key n))
    (ns : List ν) (hnd : (ns.map key).Nodup) :
    ∀ m, ∀ n ∈ ns, (ns.foldl f m).lookup (key n) = (f m n).lookup (key n) := by
  induction ns with
  | nil => intro m n hn; cases hn
  | cons a ns ih =>
    intro m n hn
    simp only [List.map_cons, List.nodup_cons] at hnd
    rw [List.foldl_cons]
    rcases List.mem_cons.1 hn with e | hn'
    · subst e
      apply foldl_lookup_other f key hother
      intro n' hn' e
      exact hnd.1 (e ▸ List.mem_map_of_mem key hn')
    · have hne : key n ≠ key a := by
        intro e
        exact hnd.1 (e ▸ List.mem_map_of_mem key hn')
      rw [ih hnd.2 _ n hn']
      exact hsame _ _ n (hother m a (key n) hne)

theorem foldl_mapSet_keys {α ν : Type} (key : ν → String) (val : ν → α) (ns : List ν) :
    ∀ m : List (String × α), (m.map Prod.fst).Nodup →
      ((ns.foldl (fun m n => mapSet m (key n) (val n)) m).map Prod.fst).Nodup ∧
      ∀ k, k ∈ (ns.foldl (fun m n => mapSet m (key n) (val n)) m).map Prod.fst ↔
        k ∈ m.map Prod.fst ∨ ∃ n ∈ ns, key n = k := by
  induction ns with
  | nil => intro m hm; simpa using hm
  | cons a ns ih =>
    intro m hm
    rw [List.foldl_cons]
    obtain ⟨h1, h2⟩ := ih (mapSet m (key a) (val a)) (nodup_keys_mapSet m _ _ hm)
    refine ⟨h1, fun k => ?_⟩
    rw [h2 k, mem_keys_mapSet]
    constructor
    · rintro ((e | h) | ⟨n, hn, e⟩)
      · exact Or.inr ⟨a, List.mem_cons_self _ _, e.symm⟩
      · exact Or.inl h
      · exact Or.inr ⟨n, List.mem_cons_of_mem _ hn, e⟩
    · rintro (h | ⟨n, hn, e⟩)
      · exact Or.inl (Or.inr h)
      · rcases List.mem_cons.1 hn with e' | hn'
        · subst e'
          exact Or.inl (Or.inl e.symm)
        · exact Or.inr ⟨n, hn', e⟩

theorem timeout_ok (L : Lib) (r : Request) (d : Int) : ∃ t, timeout L r d = .ok t := by
  unfold timeout
  simp only
  split
  · exact ⟨_, rfl⟩
  · split <;> exact ⟨_, rfl⟩

theorem mem_filterNodes (nodes : List Server) (inc : Bool) (n : Server) :
    n ∈ filterNodes nodes inc ↔ n ∈ nodes ∧ (n.Suffrage = "Voter" ∨ inc = true) := by
  unfold filterNodes
  rw [List.mem_filter]
  by_cases hv : n.Suffrage = "Voter" <;> cases inc <;> simp [hv]

theorem checkNodesAPIAddr_lookup (s : Service) (nodes : List Server) (t : Int)
    (hnd : (nodes.map Server.ID).Nodup) :
    ∃ apiAddrs, s.checkNodesAPIAddr nodes t = .ok apiAddrs ∧
      ∀ n ∈ nodes, mapGet apiAddrs n.ID =
        match s.cluster.GetNodeAPIAddr n.Addr with
        | .ok a => a
        | .error _ => "" := by
  refine ⟨_, rfl, ?_⟩
  intro n hn
  have h1 : (nodes.foldl (fun m n => mapSet m n.ID "") []).lookup n.ID = some "" := by
    rw [foldl_lookup_mem (fun m n => mapSet m n.ID "") Server.ID
      (fun m n k hk => lookup_mapSet_other m _ k _ hk)
      (fun m m' n _ => by simp only [lookup_mapSet_same]) nodes hnd [] n hn]
    exact lookup_mapSet_same _ _ _
  have h2 := foldl_lookup_mem
    (fun (m : List (String × String)) (n : Server) =>
      match s.cluster.GetNodeAPIAddr n.Addr with
      | .ok apiAddr => mapSet m n.ID apiAddr
      | .error _ => m) Server.ID
    (fun m n k hk => by
      dsimp only
      split
      · exact lookup_mapSet_other m _ k _ hk
      · rfl)
    (fun m m' n h => by
      dsimp only
      split
      · simp only [lookup_mapSet_same]
      · exact h)
    nodes hnd (nodes.foldl (fun m n => mapSet m n.ID "") []) n hn
  unfold mapGet
  rw [h2]
  dsimp only
  cases hg : s.cluster.GetNodeAPIAddr n.Addr with
  | ok a => simp [lookup_mapSet_same]
  | error e => simp [h1]

theorem nodesResponse_lookup (kept : List Server) (lAddr : String)
    (apiAddrs : List (String × String)) (hnd : (kept.map Server.ID).Nodup) :
    ∀ n ∈ kept, (nodesResponse kept lAddr apiAddrs).lookup n.ID =
      some { Addr := n.Addr, Leader := n.Addr == lAddr, APIAddr := mapGet apiAddrs n.ID,
             Reachable := mapGet apiAddrs n.ID != "" } := by
  intro n hn
  unfold nodesResponse
  rw [foldl_lookup_mem _ Server.ID
    (fun m n k hk => lookup_mapSet_other m _ k _ hk)
    (fun m m' n _ => by simp only [lookup_mapSet_same]) kept hnd [] n hn]
  exact lookup_mapSet_same _ _ _

theorem nodesResponse_keys (kept : List Server) (lAddr : String)
    (apiAddrs : List (String × String)) :
    ((nodesResponse kept lAddr apiAddrs).map Prod.fst).Nodup ∧
    ∀ id, id ∈ (nodesResponse kept lAddr apiAddrs).map Prod.fst ↔ ∃ n ∈ kept, n.ID = id := by
  have h := foldl_mapSet_keys Server.ID
    (fun n : Server => NodeEntry.mk (mapGet apiAddrs n.ID) n.Addr
      (mapGet apiAddrs n.ID != "") (n.Addr == lAddr))
    kept [] (by simp)
  refine ⟨h.1, fun id => ?_⟩
  have := h.2 id
  simpa using this

theorem handleNodes_eq (L : Lib) (s : Service) (w : ResponseWriter) (r : Request)
    (nodes : List Server) (lAddr : String)
    (hm : r.Method = "GET") (hpf : r.parseForm = none)
    (hnodes : s.store.Nodes = .ok nodes) (hl : s.store.LeaderAddr = .ok lAddr) :
    ∃ apiAddrs,
      (∀ t, s.checkNodesAPIAddr
        (filterNodes nodes (r.Form.any fun kv => kv.1 == "nonvoters")) t = .ok apiAddrs) ∧
      s.handleNodes L w r =
        match L.marshalNodes (r.Form.any fun kv => kv.1 == "pretty")
          (nodesResponse (filterNodes nodes (r.Form.any fun kv => kv.1 == "nonvoters"))
            lAddr apiAddrs) with
        | .error err =>
          Error (w.Set "Content-Type" "application/json; charset=utf-8") err
            StatusInternalServerError
        | .ok b => (w.Set "Content-Type" "application/json; charset=utf-8").Write b := by
  obtain ⟨t, ht⟩ := timeout_ok L r 1
  refine ⟨_, fun _ => rfl, ?_⟩
  simp only [Service.handleNodes, hm, ne_eq, not_true_eq_false, if_false, ht, nonVoters,
    queryParam, hpf, hnodes, hl, Service.checkNodesAPIAddr, isPretty]

theorem Write_fresh (w : ResponseWriter) (b : String) (hw : w.status = none) :
    (w.Write b).status = some StatusOK ∧ (w.Write b).body = w.body ++ b := by
  simp [ResponseWriter.Write, WriteHeader_fresh w 200 hw, StatusOK]

theorem Error_body (w : ResponseWriter) (msg : String) (code : Nat) :
    (Error w msg code).body = w.body ++ (msg ++ "\n") := by
  unfold Error ResponseWriter.Write ResponseWriter.WriteHeader ResponseWriter.Set
  simp only
  split <;> split <;> simp_all

/-- C16. For every request, `level` returns no error; on the `level` parameter
trimmed and lower-cased it returns NONE for "none", STRONG for "strong", and
WEAK for "weak" and for every other value; an absent parameter is read as the
empty string and gives WEAK (trimming and lower-casing leave the empty string
as it is). -/
theorem level_defaults_to_weak (L : Lib) (req : Request) :
    ∃ lvl, level L req = .ok lvl ∧
      (L.ToLower (L.TrimSpace (req.Query.Get "level")) = "none" → lvl = .NONE) ∧
      (L.ToLower (L.TrimSpace (req.Query.Get "level")) = "weak" → lvl = .WEAK) ∧
      (L.ToLower (L.TrimSpace (req.Query.Get "level")) = "strong" → lvl = .STRONG) ∧
      (L.ToLower (L.TrimSpace (req.Query.Get "level")) ≠ "none" →
        L.ToLower (L.TrimSpace (req.Query.Get "level")) ≠ "strong" → lvl = .WEAK) ∧
      (req.Query.lookup "level" = none → L.TrimSpace "" = "" → L.ToLower "" = "" →
        lvl = .WEAK) := by
  have habs : req.Query.lookup "level" = none → req.Query.Get "level" = "" := by
    intro h
    simp [Values.Get, h]
  unfold level
  simp only
  by_cases h1 : L.ToLower (L.TrimSpace (req.Query.Get "level")) = "none"
  · refine ⟨.NONE, by simp [h1], fun _ => rfl, ?_, ?_, ?_, ?_⟩
    · intro h; rw [h1] at h; exact absurd h (by decide)
    · intro h; rw [h1] at h; exact absurd h (by decide)
    · intro h; exact absurd h1 h
    · intro ha ht hl
      rw [habs ha, ht, hl] at h1
      exact absurd h1 (by decide)
  · by_cases h2 : L.ToLower (L.TrimSpace (req.Query.Get "level")) = "weak"
    · refine ⟨.WEAK, by simp [h2], fun h => absurd h h1, fun _ => rfl, ?_, fun _ _ => rfl,
        fun _ _ _ => rfl⟩
      intro h; rw [h2] at h; exact absurd h (by decide)
    · by_cases h3 : L.ToLower (L.TrimSpace (req.Query.Get "level")) = "strong"
      · refine ⟨.STRONG, by simp [h3], fun h => absurd h h1, fun h => absurd h h2,
          fun _ => rfl, fun _ h => absurd h3 h, ?_⟩
        intro ha ht hl
        rw [habs ha, ht, hl] at h3
        exact absurd h3 (by decide)
      · exact ⟨.WEAK, by simp [h1, h2, h3], fun h => absurd h h1, fun _ => rfl,
          fun h => absurd h h3, fun _ _ => rfl, fun _ _ _ => rfl⟩

theorem level_defaults_to_weak_witness :
    ∃ lvl, level demoLib (nodesRequest "1s") = .ok lvl ∧ lvl = .WEAK := by
  obtain ⟨lvl, h, _, _, _, _, h5⟩ := level_defaults_to_weak demoLib (nodesRequest "1s")
  exact ⟨lvl, h, h5 (by decide) rfl rfl⟩

/-- C18. For a `GET /nodes` whose Store calls succeed, the response is the
serialisation of a map with exactly one entry per id of the nodes kept by the
filter (voters, and the others only when `nonvoters` is set). When those ids
are distinct, the entry of a kept node has its consensus address as `addr`,
`leader` true iff that address is the leader's, the probe's result as
`api_addr` (empty when the probe failed), and `reachable` true iff the probe
succeeded with a non-empty address. With no node kept the map is empty, and the
body is `{}` when that is how the empty map is serialised. -/
theorem nodes_response_entries (L : Lib) (s : Service) (w : ResponseWriter) (r : Request)
    (nodes : List Server) (lAddr : String)
    (hm : r.Method = "GET") (hpf : r.parseForm = none) (hw : w.status = none)
    (hnodes : s.store.Nodes = .ok nodes) (hl : s.store.LeaderAddr = .ok lAddr) :
    ∃ resp : List (String × NodeEntry),
      (∀ b, L.marshalNodes (r.Form.any fun kv => kv.1 == "pretty") resp = .ok b →
        (s.handleNodes L w r).status = some StatusOK ∧
        (s.handleNodes L w r).body = w.body ++ b) ∧
      (resp.map Prod.fst).Nodup ∧
      (∀ id, id ∈ resp.map Prod.fst ↔
        ∃ n ∈ nodes, (n.Suffrage = "Voter" ∨
          (r.Form.any fun kv => kv.1 == "nonvoters") = true) ∧ n.ID = id) ∧
      (((filterNodes nodes (r.Form.any fun kv => kv.1 == "nonvoters")).map Server.ID).Nodup →
        ∀ n ∈ nodes, (n.Suffrage = "Voter" ∨
            (r.Form.any fun kv => kv.1 == "nonvoters") = true) →
          ∃ e, resp.lookup n.ID = some e ∧ e.Addr = n.Addr ∧
            (e.Leader = true ↔ n.Addr = lAddr) ∧
            (e.APIAddr = match s.cluster.GetNodeAPIAddr n.Addr with
              | .ok a => a
              | .error _ => "") ∧
            (e.Reachable = true ↔
              ∃ a, s.cluster.GetNodeAPIAddr n.Addr = .ok a ∧ a ≠ "")) ∧
      (filterNodes nodes (r.Form.any fun kv => kv.1 == "nonvoters") = [] →
        resp = [] ∧
        (L.marshalNodes (r.Form.any fun kv => kv.1 == "pretty") [] = .ok "\x7b\x7d" →
          (s.handleNodes L w r).body = w.body ++ "\x7b\x7d")) := by
  obtain ⟨apiAddrs, hchk, heq⟩ := handleNodes_eq L s w r nodes lAddr hm hpf hnodes hl
  have hbody : ∀ b, L.marshalNodes (r.Form.any fun kv => kv.1 == "pretty")
      (nodesResponse (filterNodes nodes (r.Form.any fun kv => kv.1 == "nonvoters"))
        lAddr apiAddrs) = .ok b →
      (s.handleNodes L w r).status = some StatusOK ∧
      (s.handleNodes L w r).body = w.body ++ b := by
    intro b hb
    rw [heq, hb]
    exact Write_fresh _ b hw
  have hkeys := nodesResponse_keys
    (filterNodes nodes (r.Form.any fun kv => kv.1 == "nonvoters")) lAddr apiAddrs
  refine ⟨_, hbody, hkeys.1, ?_, ?_, ?_⟩
  · intro id
    rw [hkeys.2 id]
    constructor
    · rintro ⟨n, hn, e⟩
      rw [mem_filterNodes] at hn
      exact ⟨n, hn.1, hn.2, e⟩
    · rintro ⟨n, hn, hk, e⟩
      exact ⟨n, (mem_filterNodes _ _ _).2 ⟨hn, hk⟩, e⟩
  · intro hnd n hn hk
    have hmem := (mem_filterNodes nodes _ n).2 ⟨hn, hk⟩
    obtain ⟨apiAddrs', hchk', hprobe⟩ := checkNodesAPIAddr_lookup s _ 0 hnd
    rw [hchk 0] at hchk'
    cases hchk'
    refine ⟨_, nodesResponse_lookup _ lAddr apiAddrs hnd n hmem, rfl, by simp, ?_, ?_⟩
    · exact hprobe n hmem
    · simp only [hprobe n hmem]
      cases hg : s.cluster.GetNodeAPIAddr n.Addr with
      | ok a => simp
      | error e => simp
  · intro hnil
    have hresp : nodesResponse (filterNodes nodes (r.Form.any fun kv => kv.1 == "nonvoters"))
        lAddr apiAddrs = [] := by
      rw [hnil]; rfl
    refine ⟨hresp, fun hb => ?_⟩
    rw [← hresp] at hb
    exact (hbody _ hb).2

theorem nodes_response_entries_witness :
    (nodesRequest "1s").Method = "GET" ∧ (nodesRequest "1s").parseForm = none ∧
    ResponseWriter.new.status = none ∧
    ∃ resp : List (String × NodeEntry),
      (resp.map Prod.fst).Nodup ∧
      (∀ b, demoLib.marshalNodes ((nodesRequest "1s").Form.any fun kv => kv.1 == "pretty") resp
          = .ok b →
        (follower.handleNodes demoLib ResponseWriter.new (nodesRequest "1s")).status
          = some StatusOK ∧
        (follower.handleNodes demoLib ResponseWriter.new (nodesRequest "1s")).body
          = ResponseWriter.new.body ++ b) := by
  obtain ⟨resp, h1, h2, _, _, _⟩ :=
    nodes_response_entries demoLib follower ResponseWriter.new (nodesRequest "1s") _ _
      rfl rfl rfl rfl rfl
  exact ⟨rfl, rfl, rfl, resp, h2, h1⟩

/-- C19, the defect. `checkNodesAPIAddr` makes no use of the timeout it is
handed: its result is the same for every value, and so is the response to
`/nodes` for two requests that differ in `?timeout=` only (1 ms and 1 s here,
parsed as such by `timeout`). -/
theorem checkNodesAPIAddr_ignores_timeout :
    (∀ (s : Service) (nodes : List Server) (t t' : Int),
      s.checkNodesAPIAddr nodes t = s.checkNodesAPIAddr nodes t') ∧
    timeout demoLib (nodesRequest "1ms") 1 = .ok 1000000 ∧
    timeout demoLib (nodesRequest "1s") 1 = .ok 1000000000 ∧
    follower.handleNodes demoLib ResponseWriter.new (nodesRequest "1ms") =
      follower.handleNodes demoLib ResponseWriter.new (nodesRequest "1s") := by
  refine ⟨fun _ _ _ _ => rfl, rfl, rfl, by decide⟩

theorem bodyAfterForm_post (r : Request) (hm : r.Method = "POST") :
    r.bodyAfterForm = if r.formEncoded = true then .ok "" else r.Body := by
  simp [Request.bodyAfterForm, hm]

/-- C20, as amended. For a POST to `/db/load` with body `b`, `handleLoad` calls
`Store.ExecuteOrAbort` with the request of one statement, `Transaction` false
and `Timings` set iff the form has `timings`. The SQL of the statement is `b`
in full when the content type of the request is not form-encoded; when it is,
`timings(r)` has parsed the form out of the body before the handler reads it,
and the SQL is empty. The mark of the call is the Store's answer to that
request, and the handler depends on the Store through that answer (and the
leader lookup) only. `executeRequestFromStrings` turns a list of strings
into the statements that carry them, one each, in the same order. -/
theorem handleLoad_single_statement (L : Lib) (s : Service) (w : ResponseWriter) (r : Request)
    (b : String) (hm : r.Method = "POST") (hpf : r.parseForm = none) (hb : r.Body = .ok b) :
    ∃ sql : String,
      (r.formEncoded = false → sql = b) ∧
      (r.formEncoded = true → sql = "") ∧
      executeRequestFromStrings [sql] (r.Form.any fun kv => kv.1 == "timings") false =
        { Request := { Transaction := false, Statements := [{ Sql := sql }] },
          Timings := r.Form.any fun kv => kv.1 == "timings" } ∧
      (s.handleLoad L w r).storeCall = some
        (match s.store.ExecuteOrAbort
            { Request := { Transaction := false, Statements := [{ Sql := sql }] },
              Timings := r.Form.any fun kv => kv.1 == "timings" } with
          | .error e => some e
          | .ok _ => none) ∧
      (∀ s' : Service,
        s'.store.ExecuteOrAbort
            { Request := { Transaction := false, Statements := [{ Sql := sql }] },
              Timings := r.Form.any fun kv => kv.1 == "timings" } =
          s.store.ExecuteOrAbort
            { Request := { Transaction := false, Statements := [{ Sql := sql }] },
              Timings := r.Form.any fun kv => kv.1 == "timings" } →
        s'.LeaderAPIAddr = s.LeaderAPIAddr →
        s'.handleLoad L w r = s.handleLoad L w r) ∧
      (∀ (l : List String) (t tx : Bool),
        (executeRequestFromStrings l t tx).Request.Statements.map Statement.Sql = l ∧
        (executeRequestFromStrings l t tx).Request.Statements.length = l.length ∧
        (executeRequestFromStrings l t tx).Request.Transaction = tx ∧
        (executeRequestFromStrings l t tx).Timings = t) := by
  obtain ⟨sql, hsql1, hsql2, hbody⟩ : ∃ sql : String,
      (r.formEncoded = false → sql = b) ∧ (r.formEncoded = true → sql = "") ∧
      r.bodyAfterForm = .ok sql := by
    rw [bodyAfterForm_post r hm]
    cases hf : r.formEncoded with
    | false => exact ⟨b, fun _ => rfl, fun h => by simp at h, by simpa using hb⟩
    | true => exact ⟨"", fun h => by simp at h, fun _ => rfl, by simp⟩
  have hload : ∀ s0 : Service, s0.handleLoad L w r =
      match s0.store.ExecuteOrAbort
          { Request := { Transaction := false, Statements := [{ Sql := sql }] },
            Timings := r.Form.any fun kv => kv.1 == "timings" } with
      | .error err =>
        if err.notLeader = true then
          { w := s0.notLeader L w r err, storeCall := some (some err), envelope := none }
        else
          { w := writeResponse L w r
              { NewResponse L with Error := err.text, finish := L.later },
            storeCall := some (some err),
            envelope := some { NewResponse L with Error := err.text, finish := L.later } }
      | .ok results =>
        { w := writeResponse L w r
            { NewResponse L with Results := some results, finish := L.later },
          storeCall := some none,
          envelope := some { NewResponse L with Results := some results, finish := L.later } } := by
    intro s0
    simp only [Service.handleLoad, hm, ne_eq, not_true_eq_false, if_false, timings, queryParam,
      hpf, hbody, executeRequestFromStrings, List.map_cons, List.map_nil]
  refine ⟨sql, hsql1, hsql2, rfl, ?_, ?_, ?_⟩
  · rw [hload s]
    cases s.store.ExecuteOrAbort _ with
    | error e => by_cases hn : e.notLeader = true <;> simp [hn]
    | ok res => rfl
  · intro s' hs hlead
    rw [hload s, hload s', hs]
    cases s.store.ExecuteOrAbort _ with
    | error e =>
      simp only [Service.notLeader, hlead]
    | ok res => rfl
  · intro l t tx
    refine ⟨?_, by simp [executeRequestFromStrings], rfl, rfl⟩
    simp only [executeRequestFromStrings, List.map_map]
    induction l with
    | nil => rfl
    | cons a l ih => simpa using ih

theorem handleLoad_single_statement_witness :
    executeRequest.Method = "POST" ∧ executeRequest.parseForm = none ∧
    ∃ sql : String, sql = "[\"CREATE TABLE t(x)\"]" ∧
      (follower.handleLoad demoLib ResponseWriter.new executeRequest).storeCall = some
        (match follower.store.ExecuteOrAbort
            { Request := { Transaction := false, Statements := [{ Sql := sql }] },
              Timings := executeRequest.Form.any fun kv => kv.1 == "timings" } with
          | .error e => some e
          | .ok _ => none) := by
  obtain ⟨sql, h1, _, _, h4, _⟩ :=
    handleLoad_single_statement demoLib follower ResponseWriter.new executeRequest
      "[\"CREATE TABLE t(x)\"]" rfl rfl rfl
  exact ⟨rfl, rfl, sql, h1 rfl, h4⟩

/-- C20, counterexample. The request `curl -d` sends, a POST to `/db/load` whose
content type is form-encoded and whose body is the SQL text: the form parser
takes the body, and the Store is handed one statement with no text, not the
body; with a content type of plain text it is handed the body. -/
theorem handleLoad_form_encoded_body_is_lost :
    (formLoad true).Body = .ok "CREATE TABLE t(x)" ∧
    (recording.handleLoad demoLib ResponseWriter.new (formLoad true)).envelope.bind
        (fun j => j.Results) = some "[]" ∧
    recording.store.ExecuteOrAbort (executeRequestFromStrings [""] false false) = .ok "[]" ∧
    (recording.handleLoad demoLib ResponseWriter.new (formLoad false)).envelope.bind
        (fun j => j.Results) = some "[CREATE TABLE t(x)]" :=
  ⟨rfl, by decide, rfl, by decide⟩

end http

/-! ## Theorems: Store errors and validation in the HTTP service -/

namespace http

theorem backupFormat_body (L : Lib) (w : ResponseWriter) (r : Request) :
    (backupFormat L w r).1.body = w.body := by
  unfold backupFormat
  split
  · rfl
  · split <;> rfl

theorem writeResponse_status (L : Lib) (w : ResponseWriter) (r : Request) (j : Response)
    (hw : w.status = none) :
    ∃ p j', j'.Error = j.Error ∧ j'.Results = j.Results ∧
      ((∃ b, L.marshalResponse p j' = .ok b ∧ (writeResponse L w r j).status = some StatusOK ∧
          (writeResponse L w r j).body = w.body ++ b) ∨
       (∃ e, L.marshalResponse p j' = .error e ∧
          (writeResponse L w r j).status = some StatusInternalServerError ∧
          (writeResponse L w r j).body = w.body ++ (e ++ "\n"))) := by
  unfold writeResponse
  simp only
  generalize (match isPretty r with
    | .ok b => b
    | .error _ => false) = p
  generalize hj : (if (match timings r with
    | .ok b => b
    | .error _ => false) = true then j.SetTime else j) = j'
  have hj' : j'.Error = j.Error ∧ j'.Results = j.Results := by
    rw [← hj]
    split <;> exact ⟨rfl, rfl⟩
  refine ⟨p, j', hj'.1, hj'.2, ?_⟩
  cases hm : L.marshalResponse p j' with
  | ok b => exact Or.inl ⟨b, rfl, Write_fresh w b hw⟩
  | error e => exact Or.inr ⟨e, rfl, Error_status w e _ hw, Error_body w e _⟩

theorem handleExecute_storeError (L : Lib) (s : Service) (w : ResponseWriter) (r : Request)
    (err : StoreError) (hw : w.status = none)
    (hcall : (s.handleExecute L w r).storeCall = some (some err))
    (hnl : err.notLeader = false) :
    ∃ w' resp, w'.status = none ∧ w'.body = w.body ∧
      (s.handleExecute L w r).envelope = some resp ∧ resp.Error = err.text ∧ resp.Results = none ∧
      (s.handleExecute L w r).w = writeResponse L w' r resp := by
  unfold Service.handleExecute at hcall ⊢
  try simp only at hcall ⊢
  repeat' (split at hcall)
  all_goals first
    | (simp at hcall; done)
    | (simp only [Option.some.injEq] at hcall
       subst hcall
       simp_all
       done)
    | (simp only [Option.some.injEq] at hcall
       subst hcall
       simp only [*, if_true, if_false, Bool.false_eq_true]
       refine ⟨_, _, ?_, ?_, rfl, rfl, rfl, rfl⟩
       · exact hw
       · rfl)

theorem handleQuery_storeError (L : Lib) (s : Service) (w : ResponseWriter) (r : Request)
    (err : StoreError) (hw : w.status = none)
    (hcall : (s.handleQuery L w r).storeCall = some (some err))
    (hnl : err.notLeader = false) :
    ∃ w' resp, w'.status = none ∧ w'.body = w.body ∧
      (s.handleQuery L w r).envelope = some resp ∧ resp.Error = err.text ∧ resp.Results = none ∧
      (s.handleQuery L w r).w = writeResponse L w' r resp := by
  unfold Service.handleQuery at hcall ⊢
  try simp only at hcall ⊢
  repeat' (split at hcall)
  all_goals first
    | (simp at hcall; done)
    | (simp only [Option.some.injEq] at hcall
       subst hcall
       simp_all
       done)
    | (simp only [Option.some.injEq] at hcall
       subst hcall
       simp only [*, if_true, if_false, Bool.false_eq_true]
       refine ⟨_, _, ?_, ?_, rfl, rfl, rfl, rfl⟩
       · exact hw
       · rfl)

theorem handleLoad_storeError (L : Lib) (s : Service) (w : ResponseWriter) (r : Request)
    (err : StoreError) (hw : w.status = none)
    (hcall : (s.handleLoad L w r).storeCall = some (some err))
    (hnl : err.notLeader = false) :
    ∃ w' resp, w'.status = none ∧ w'.body = w.body ∧
      (s.handleLoad L w r).envelope = some resp ∧ resp.Error = err.text ∧ resp.Results = none ∧
      (s.handleLoad L w r).w = writeResponse L w' r resp := by
  unfold Service.handleLoad at hcall ⊢
  try simp only at hcall ⊢
  repeat' (split at hcall)
  all_goals first
    | (simp at hcall; done)
    | (simp only [Option.some.injEq] at hcall
       subst hcall
       simp_all
       done)
    | (simp only [Option.some.injEq] at hcall
       subst hcall
       simp only [*, if_true, if_false, Bool.false_eq_true]
       refine ⟨_, _, ?_, ?_, rfl, rfl, rfl, rfl⟩
       · exact hw
       · rfl)

theorem handleRemove_storeError (L : Lib) (s : Service) (w : ResponseWriter) (r : Request)
    (err : StoreError) (hw : w.status = none)
    (hcall : (s.handleRemove L w r).storeCall = some (some err))
    (hnl : err.notLeader = false) :
    ∃ w', w'.status = none ∧ w'.body = w.body ∧
      (s.handleRemove L w r).w = Error w' err.text StatusInternalServerError ∧
      (s.handleRemove L w r).envelope = none := by
  unfold Service.handleRemove at hcall ⊢
  try simp only at hcall ⊢
  repeat' (split at hcall)
  all_goals first
    | (simp at hcall; done)
    | (simp only [Option.some.injEq] at hcall
       subst hcall
       simp_all
       done)
    | (simp only [Option.some.injEq] at hcall
       subst hcall
       simp only [*, if_true, if_false, Bool.false_eq_true]
       first
         | exact ⟨_, hw, rfl, rfl, rfl⟩
         | exact ⟨_, hw, rfl, rfl, trivial⟩)

theorem handleBackup_storeError (L : Lib) (s : Service) (w : ResponseWriter) (r : Request)
    (err : StoreError) (hw : w.status = none)
    (hcall : (s.handleBackup L w r).1.storeCall = some (some err))
    (hnl : err.notLeader = false) :
    ∃ w', w'.status = none ∧ w'.body = w.body ∧
      (s.handleBackup L w r).1.w = Error w' err.text StatusInternalServerError ∧
      (s.handleBackup L w r).1.envelope = none := by
  unfold Service.handleBackup at hcall ⊢
  repeat' (split at hcall)
  all_goals try (simp at hcall; done)
  · simp only [Option.some.injEq] at hcall
    subst hcall
    simp_all
  · simp only [Option.some.injEq] at hcall
    subst hcall
    have h := backupFormat_status L w r
    have hb := backupFormat_body L w r
    simp only [*] at h hb
    simp only [*, if_true, if_false, Bool.false_eq_true]
    exact ⟨_, h, hb, rfl, trivial⟩

theorem handleJoin_storeError (L : Lib) (s : Service) (w : ResponseWriter) (r : Request)
    (o : Outcome) (err : StoreError) (hw : w.status = none)
    (hrun : s.handleJoin L w r = some o)
    (hcall : o.storeCall = some (some err))
    (hnl : err.notLeader = false) :
    ∃ w', w'.status = none ∧ w'.body = w.body ∧
      o.w = Error w' err.text StatusInternalServerError ∧ o.envelope = none := by
  unfold Service.handleJoin at hrun
  try simp only at hrun
  repeat' (split at hrun)
  all_goals first
    | (simp at hrun; done)
    | (simp only [Option.some.injEq] at hrun
       subst hrun
       simp at hcall; done)
    | (simp only [Option.some.injEq] at hrun
       subst hrun
       simp only [Option.some.injEq] at hcall
       subst hcall
       simp_all
       done)
    | (simp only [Option.some.injEq] at hrun
       subst hrun
       simp only [Option.some.injEq] at hcall
       subst hcall
       exact ⟨_, hw, rfl, rfl, rfl⟩)

theorem run_storeError (L : Lib) (s : Service) (h : LeaderHandler) (w : ResponseWriter)
    (r : Request) (o : Outcome) (err : StoreError) (hw : w.status = none)
    (hrun : s.run L h w r = some o) (hcall : o.storeCall = some (some err))
    (hnl : err.notLeader = false) :
    ((h = .join ∨ h = .remove ∨ h = .backup) →
      ∃ w', w'.status = none ∧ w'.body = w.body ∧
        o.w = Error w' err.text StatusInternalServerError ∧ o.envelope = none) ∧
    ((h = .execute ∨ h = .query ∨ h = .load) →
      ∃ w' resp, w'.status = none ∧ w'.body = w.body ∧
        o.envelope = some resp ∧ resp.Error = err.text ∧ resp.Results = none ∧
        o.w = writeResponse L w' r resp) := by
  cases h with
  | join =>
    exact ⟨fun _ => handleJoin_storeError L s w r o err hw hrun hcall hnl,
      fun h => by rcases h with h | h | h <;> cases h⟩
  | remove =>
    simp only [Service.run, Option.some.injEq] at hrun
    subst hrun
    exact ⟨fun _ => handleRemove_storeError L s w r err hw hcall hnl,
      fun h => by rcases h with h | h | h <;> cases h⟩
  | backup =>
    simp only [Service.run, Option.some.injEq] at hrun
    subst hrun
    exact ⟨fun _ => handleBackup_storeError L s w r err hw hcall hnl,
      fun h => by rcases h with h | h | h <;> cases h⟩
  | execute =>
    simp only [Service.run, Option.some.injEq] at hrun
    subst hrun
    exact ⟨(fun h => by rcases h with h | h | h <;> cases h),
      fun _ => handleExecute_storeError L s w r err hw hcall hnl⟩
  | query =>
    simp only [Service.run, Option.some.injEq] at hrun
    subst hrun
    exact ⟨(fun h => by rcases h with h | h | h <;> cases h),
      fun _ => handleQuery_storeError L s w r err hw hcall hnl⟩
  | load =>
    simp only [Service.run, Option.some.injEq] at hrun
    subst hrun
    exact ⟨(fun h => by rcases h with h | h | h <;> cases h),
      fun _ => handleLoad_storeError L s w r err hw hcall hnl⟩

/-- C14, as amended. When the Store call of a leader-required handler fails
with an error other than NotLeader: join, remove and backup answer 500 with the
error text as the body and no envelope; execute, query and load put the error
text in the `error` field of the envelope (with no results) and write the
envelope, so the status is 200, or 500 only when the envelope cannot be
serialised. -/
theorem store_error_500_or_envelope (L : Lib) (s : Service) (h : LeaderHandler)
    (w : ResponseWriter) (r : Request) (o : Outcome) (err : StoreError) (hw : w.status = none)
    (hrun : s.run L h w r = some o) (hcall : o.storeCall = some (some err))
    (hnl : err.notLeader = false) :
    ((h = .join ∨ h = .remove ∨ h = .backup) →
      o.w.status = some StatusInternalServerError ∧
      o.w.body = w.body ++ (err.text ++ "\n") ∧ o.envelope = none) ∧
    ((h = .execute ∨ h = .query ∨ h = .load) →
      ∃ resp, o.envelope = some resp ∧ resp.Error = err.text ∧ resp.Results = none ∧
        ∃ p j, j.Error = err.text ∧ j.Results = none ∧
          ((∃ b, L.marshalResponse p j = .ok b ∧ o.w.status = some StatusOK ∧
              o.w.body = w.body ++ b) ∨
           (∃ e, L.marshalResponse p j = .error e ∧
              o.w.status = some StatusInternalServerError ∧
              o.w.body = w.body ++ (e ++ "\n")))) := by
  have hboth := run_storeError L s h w r o err hw hrun hcall hnl
  constructor
  · intro hh
    obtain ⟨w', hw', hb', how, henv⟩ := hboth.1 hh
    rw [how, Error_body, hb']
    exact ⟨Error_status w' _ _ hw', rfl, henv⟩
  · intro hh
    obtain ⟨w', resp, hw', hb', henv, he, hr, how⟩ := hboth.2 hh
    obtain ⟨p, j, hje, hjr, hj⟩ := writeResponse_status L w' r resp hw'
    rw [how]
    rw [hb'] at hj
    exact ⟨resp, henv, he, hr, p, j, hje.trans he, hjr.trans hr, hj⟩

theorem store_error_500_or_envelope_witness :
    (failing.run demoLib .remove ResponseWriter.new
        { executeRequest with Method := "DELETE" }).bind (fun o => o.w.status)
      = some StatusInternalServerError := by
  have h : ∃ o, failing.run demoLib .remove ResponseWriter.new
      { executeRequest with Method := "DELETE" } = some o ∧
      o.storeCall = some (some { notLeader := false, text := "disk I/O error" }) :=
    ⟨_, rfl, rfl⟩
  obtain ⟨o, h1, h2⟩ := h
  have t := ((store_error_500_or_envelope demoLib failing .remove ResponseWriter.new
    { executeRequest with Method := "DELETE" } o _ rfl h1 h2 rfl).1
    (Or.inr (Or.inl rfl))).1
  rw [h1]
  exact t

/-- C14, counterexample. The Store fails `Execute` with an error that is not
NotLeader, and the response of `handleExecute` is 200 with the envelope that
carries the error, not 500. -/
theorem handleExecute_store_error_is_200 :
    (failing.run demoLib .execute ResponseWriter.new executeRequest).map
      (fun o => (o.storeCall, o.w.status, o.w.body, o.envelope.map fun e => e.Error))
      = some (some (some { notLeader := false, text := "disk I/O error" }), some 200,
          "disk I/O error", some "disk I/O error") := by
  decide

theorem WriteHeader_fresh_body (w : ResponseWriter) (code : Nat) (hw : w.status = none) :
    (w.WriteHeader code).status = some code ∧ (w.WriteHeader code).body = w.body := by
  rw [WriteHeader_fresh w code hw]
  exact ⟨rfl, rfl⟩

theorem serve_method_not_allowed (L : Lib) (s : Service) (w : ResponseWriter) (r : Request)
    (hw : w.status = none) (e : Endpoint) (hm : r.Method ∉ e.methods) :
    ∃ w', s.serve L e w r = some w' ∧ w'.status = some StatusMethodNotAllowed ∧
      w'.body = w.body := by
  have hset : (w.Set "Content-Type" "application/json; charset=utf-8").status = none := hw
  cases e with
  | execute =>
    have h1 : r.Method ≠ "POST" := by simpa [Endpoint.methods] using hm
    refine ⟨_, rfl, ?_⟩
    simp only [Service.handleExecute, h1, ne_eq, not_false_eq_true, if_true]
    exact WriteHeader_fresh_body _ _ hset
  | query =>
    have h1 : r.Method ≠ "GET" ∧ r.Method ≠ "POST" := by
      simpa [Endpoint.methods] using hm
    refine ⟨_, rfl, ?_⟩
    simp only [Service.handleQuery, h1, ne_eq, not_false_eq_true, and_self, if_true]
    exact WriteHeader_fresh_body _ _ hset
  | backup =>
    have h1 : r.Method ≠ "GET" := by simpa [Endpoint.methods] using hm
    refine ⟨_, rfl, ?_⟩
    simp only [Service.handleBackup, h1, ne_eq, not_false_eq_true, if_true]
    exact WriteHeader_fresh_body _ _ hw
  | load =>
    have h1 : r.Method ≠ "POST" := by simpa [Endpoint.methods] using hm
    refine ⟨_, rfl, ?_⟩
    simp only [Service.handleLoad, h1, ne_eq, not_false_eq_true, if_true]
    exact WriteHeader_fresh_body _ _ hw
  | join =>
    have h1 : r.Method ≠ "POST" := by simpa [Endpoint.methods] using hm
    refine ⟨w.WriteHeader StatusMethodNotAllowed, ?_, WriteHeader_fresh_body _ _ hw⟩
    simp [Service.serve, Service.handleJoin, h1]
  | remove =>
    have h1 : r.Method ≠ "DELETE" := by simpa [Endpoint.methods] using hm
    refine ⟨_, rfl, ?_⟩
    simp only [Service.handleRemove, h1, ne_eq, not_false_eq_true, if_true]
    exact WriteHeader_fresh_body _ _ hw
  | status =>
    have h1 : r.Method ≠ "GET" := by simpa [Endpoint.methods] using hm
    refine ⟨_, rfl, ?_⟩
    simp only [Service.handleStatus, h1, ne_eq, not_false_eq_true, if_true]
    exact WriteHeader_fresh_body _ _ hset
  | nodes =>
    have h1 : r.Method ≠ "GET" := by simpa [Endpoint.methods] using hm
    refine ⟨_, rfl, ?_⟩
    simp only [Service.handleNodes, h1, ne_eq, not_false_eq_true, if_true]
    exact WriteHeader_fresh_body _ _ hset

/-- C15, as amended. A request whose method the endpoint does not allow is
answered with 405 and no body, on each of the eight endpoints that check the
method. A body that is not valid JSON, or that lacks a required field, is
answered with 400: by join and remove (and by query, for a request without
statements) with the bare status and no body, by execute with the text of the
parser's error as the body (the body execute parses is the one it reads once
the form has been parsed). -/
theorem validation_405_or_400 (L : Lib) (s : Service) (w : ResponseWriter) (r : Request)
    (hw : w.status = none) :
    (∀ e : Endpoint, r.Method ∉ e.methods →
      ∃ w', s.serve L e w r = some w' ∧ w'.status = some StatusMethodNotAllowed ∧
        w'.body = w.body) ∧
    (r.Method = "POST" → ∀ b, r.Body = .ok b →
      ((∃ err, L.jsonObject b = .error err) ∨
        ∃ md, L.jsonObject b = .ok md ∧ (md.lookup "id" = none ∨ md.lookup "addr" = none)) →
      ∃ w', s.serve L .join w r = some w' ∧ w'.status = some StatusBadRequest ∧
        w'.body = w.body) ∧
    (r.Method = "DELETE" → ∀ b, r.Body = .ok b →
      ((∃ err, L.jsonStringMap b = .error err) ∨
        ∃ m, L.jsonStringMap b = .ok m ∧ (m.length ≠ 1 ∨ m.lookup "id" = none)) →
      ∃ w', s.serve L .remove w r = some w' ∧ w'.status = some StatusBadRequest ∧
        w'.body = w.body) ∧
    (r.Method = "POST" → r.parseForm = none → ∀ b err, r.bodyAfterForm = .ok b →
      L.ParseRequest b = .error err →
      ∃ w', s.serve L .execute w r = some w' ∧ w'.status = some StatusBadRequest ∧
        w'.body = w.body ++ (err ++ "\n")) ∧
    ((r.Method = "GET" ∨ r.Method = "POST") → r.parseForm = none →
      (∃ f, freshness L r = .ok f) → (∃ err, requestQueries L r = .error err) →
      ∃ w', s.serve L .query w r = some w' ∧ w'.status = some StatusBadRequest ∧
        w'.body = w.body) := by
  have hset : (w.Set "Content-Type" "application/json; charset=utf-8").status = none := hw
  refine ⟨fun e hm => serve_method_not_allowed L s w r hw e hm, ?_, ?_, ?_, ?_⟩
  · intro hm b hb hbad
    refine ⟨w.WriteHeader StatusBadRequest, ?_, WriteHeader_fresh_body _ _ hw⟩
    rcases hbad with ⟨err, he⟩ | ⟨md, hmd, hid | haddr⟩
    · simp [Service.serve, Service.handleJoin, hm, hb, he]
    · simp [Service.serve, Service.handleJoin, hm, hb, hmd, hid]
    · cases hid : md.lookup "id" with
      | none => simp [Service.serve, Service.handleJoin, hm, hb, hmd, hid]
      | some v => simp [Service.serve, Service.handleJoin, hm, hb, hmd, hid, haddr]
  · intro hm b hb hbad
    refine ⟨w.WriteHeader StatusBadRequest, ?_, WriteHeader_fresh_body _ _ hw⟩
    rcases hbad with ⟨err, he⟩ | ⟨m, hmm, hlen | hid⟩
    · simp [Service.serve, Service.handleRemove, hm, hb, he]
    · simp [Service.serve, Service.handleRemove, hm, hb, hmm, hlen]
    · by_cases hlen : m.length = 1
      · simp [Service.serve, Service.handleRemove, hm, hb, hmm, hlen, hid]
      · simp [Service.serve, Service.handleRemove, hm, hb, hmm, hlen]
  · intro hm hpf b err hb hp
    refine ⟨Error (w.Set "Content-Type" "application/json; charset=utf-8") err StatusBadRequest,
      ?_, Error_status _ _ _ hset, Error_body _ _ _⟩
    simp [Service.serve, Service.handleExecute, hm, isTx, timings, queryParam, hpf, hb, hp]
  · intro hm hpf hf hq
    obtain ⟨f, hf⟩ := hf
    obtain ⟨err, hq⟩ := hq
    have hlvl : ∃ lvl, level L r = .ok lvl := by
      unfold level
      simp only
      split
      · exact ⟨_, rfl⟩
      · split
        · exact ⟨_, rfl⟩
        · split <;> exact ⟨_, rfl⟩
    obtain ⟨lvl, hlvl⟩ := hlvl
    have hmeth : ¬ (r.Method ≠ "GET" ∧ r.Method ≠ "POST") := by
      rcases hm with h | h <;> simp [h]
    refine ⟨(w.Set "Content-Type" "application/json; charset=utf-8").WriteHeader
      StatusBadRequest, ?_, WriteHeader_fresh_body _ _ hset⟩
    simp only [Service.serve, Service.handleQuery, hmeth, if_false, isTx, timings, queryParam,
      hpf, hlvl, hf, hq]

theorem validation_405_or_400_witness :
    executeRequest.Method = "POST" ∧ executeRequest.parseForm = none ∧
    (∃ w', follower.serve demoLib .execute ResponseWriter.new { executeRequest with Body := .ok "" }
        = some w' ∧ w'.status = some StatusBadRequest ∧
      w'.body = ResponseWriter.new.body ++ ("EOF" ++ "\n")) ∧
    (∃ w', follower.serve demoLib .remove ResponseWriter.new executeRequest = some w' ∧
      w'.status = some StatusMethodNotAllowed ∧ w'.body = ResponseWriter.new.body) :=
  ⟨rfl, rfl,
   (validation_405_or_400 demoLib follower ResponseWriter.new
      { executeRequest with Body := .ok "" } rfl).2.2.2.1 rfl rfl "" "EOF" rfl rfl,
   (validation_405_or_400 demoLib follower ResponseWriter.new executeRequest rfl).1
      .remove (by decide)⟩

/-- C15, counterexample. A GET to `/join` fails the method check and is
answered with 405, not 400; a POST to `/join` whose JSON body has no `id` is
answered with 400 but with an empty body. -/
theorem handleJoin_405_and_empty_400 :
    (follower.serve demoLib .join ResponseWriter.new { executeRequest with Method := "GET" }).map
      (fun w => (w.status, w.body)) = some (some 405, "") ∧
    demoLib.jsonObject "\x7b\x7d" = .ok [] ∧
    (follower.serve demoLib .join ResponseWriter.new
      { executeRequest with Body := .ok "\x7b\x7d" }).map
      (fun w => (w.status, w.body)) = some (some 400, "") := by
  refine ⟨by decide, rfl, by decide⟩

end http

/-! ## Theorems: how the administrative client ends -/

namespace tqlite

theorem getLast?_mem {α : Type} (l : List α) (a : α) (h : l.getLast? = some a) : a ∈ l :=
  List.mem_of_getLast?_eq_some h

theorem removeLoop_last (E : Env) (maxRedirect : Nat) (b : String) :
    ∀ (fuel nRedirect : Nat) (urlStr : String) (reqs : List String) (resps : List HttpResponse)
      (run : Run),
      (∀ x ∈ resps, x.StatusCode = StatusMovedPermanently) → reqs.length = resps.length →
      removeLoop E maxRedirect b fuel nRedirect urlStr reqs resps = some run →
      (∀ x ∈ run.responses.dropLast, x.StatusCode = StatusMovedPermanently) ∧
      ∀ resp, run.responses.getLast? = some resp →
        (resp.StatusCode = StatusUnauthorized →
          run.result = .error "unauthorized" ∧
          run.requests.length = run.responses.length) ∧
        (resp.StatusCode ≠ StatusUnauthorized → resp.StatusCode ≠ StatusMovedPermanently →
          resp.StatusCode ≠ StatusOK →
          run.result = .error ("server responded with: " ++ resp.Status) ∧
          run.requests.length = run.responses.length) ∧
        (resp.StatusCode = StatusOK →
          run.result = .nil ∧ run.requests.length = run.responses.length) := by
  intro fuel
  induction fuel with
  | zero =>
    intro nRedirect urlStr reqs resps run _ _ h
    simp [removeLoop] at h
  | succ fuel ih =>
    intro nRedirect urlStr reqs resps run h5 hlen h
    have hdl : ∀ x ∈ resps.dropLast, x.StatusCode = StatusMovedPermanently :=
      fun x hx => h5 x (List.dropLast_subset _ hx)
    have hold : ∀ resp, resps.getLast? = some resp →
        (resp.StatusCode = StatusUnauthorized → False) ∧
        (resp.StatusCode ≠ StatusMovedPermanently → False) ∧
        (resp.StatusCode = StatusOK → False) := by
      intro resp hr
      have h301 := h5 resp (getLast?_mem _ _ hr)
      refine ⟨fun e => ?_, fun e => e h301, fun e => ?_⟩
      · rw [h301] at e; exact absurd e (by decide)
      · rw [h301] at e; exact absurd e (by decide)
    rw [removeLoop] at h
    cases hnr : E.NewRequest urlStr with
    | some err =>
      simp only [hnr, Option.some.injEq] at h
      subst h
      refine ⟨hdl, fun resp hr => ?_⟩
      obtain ⟨o1, o2, o3⟩ := hold resp hr
      exact ⟨fun e => (o1 e).elim, fun _ e _ => (o2 e).elim, fun e => (o3 e).elim⟩
    | none =>
      cases hdo : E.Do reqs.length urlStr b with
      | error err =>
        simp only [hnr, hdo, Option.some.injEq] at h
        subst h
        refine ⟨hdl, fun resp hr => ?_⟩
        obtain ⟨o1, o2, o3⟩ := hold resp hr
        exact ⟨fun e => (o1 e).elim, fun _ e _ => (o2 e).elim, fun e => (o3 e).elim⟩
      | ok resp0 =>
        simp only [hnr, hdo] at h
        have hlast : ∀ resp, (resps ++ [resp0]).getLast? = some resp → resp = resp0 := by
          intro resp hr
          simpa using hr.symm
        have hdl' : ∀ x ∈ (resps ++ [resp0]).dropLast,
            x.StatusCode = StatusMovedPermanently := by
          simpa using h5
        have hl' : (reqs ++ [urlStr]).length = (resps ++ [resp0]).length := by
          simp [hlen]
        by_cases h401 : resp0.StatusCode = StatusUnauthorized
        · rw [if_pos h401] at h
          simp only [Option.some.injEq] at h
          subst h
          refine ⟨hdl', fun resp hr => ?_⟩
          have := hlast resp hr
          subst this
          refine ⟨fun _ => ⟨rfl, hl'⟩, fun e => absurd h401 e, fun e => ?_⟩
          rw [h401] at e; exact absurd e (by decide)
        · rw [if_neg h401] at h
          by_cases h301 : resp0.StatusCode = StatusMovedPermanently
          · rw [if_pos h301] at h
            by_cases hmax : nRedirect + 1 > maxRedirect
            · rw [if_pos hmax] at h
              simp only [Option.some.injEq] at h
              subst h
              refine ⟨hdl', fun resp hr => ?_⟩
              have := hlast resp hr
              subst this
              refine ⟨fun e => absurd e h401, fun _ e => absurd h301 e, fun e => ?_⟩
              rw [h301] at e; exact absurd e (by decide)
            · rw [if_neg hmax] at h
              cases hloc : resp0.Location with
              | nil =>
                rw [hloc] at h
                simp only [Option.some.injEq] at h
                subst h
                refine ⟨hdl', fun resp hr => ?_⟩
                have := hlast resp hr
                subst this
                refine ⟨fun e => absurd e h401, fun _ e => absurd h301 e, fun e => ?_⟩
                rw [h301] at e; exact absurd e (by decide)
              | cons loc rest =>
                rw [hloc] at h
                refine ih _ _ _ _ run ?_ hl' h
                intro x hx
                rcases List.mem_append.1 hx with hx | hx
                · exact h5 x hx
                · simp at hx; rw [hx]; exact h301
          · rw [if_neg h301] at h
            by_cases h200 : resp0.StatusCode ≠ StatusOK
            · rw [if_pos h200] at h
              simp only [Option.some.injEq] at h
              subst h
              refine ⟨hdl', fun resp hr => ?_⟩
              have := hlast resp hr
              subst this
              exact ⟨fun e => absurd e h401, fun _ _ _ => ⟨rfl, hl'⟩, fun e => absurd e h200⟩
            · rw [if_neg h200] at h
              simp only [Option.some.injEq] at h
              subst h
              refine ⟨hdl', fun resp hr => ?_⟩
              have := hlast resp hr
              subst this
              exact ⟨fun e => absurd e h401, fun _ _ e => absurd (not_not.1 h200) e,
                fun _ => ⟨rfl, hl'⟩⟩

/-- C17. In every finished call of `removeNode`, a response with status 401 is
the last one received: every earlier response is a 301, the result is the
error "unauthorized", and no request follows it. A last response whose status
is neither 2xx nor 301 nor 401 gives the error "server responded with: "
followed by its status line, again with no further request. -/
theorem removeNode_unauthorized_or_status (E : Env) (maxRedirect fuel : Nat) (id : String)
    (argv : argT) (run : Run) (h : removeNode E maxRedirect fuel id argv = some run) :
    (∀ x ∈ run.responses.dropLast, x.StatusCode = StatusMovedPermanently) ∧
    ∀ resp, run.responses.getLast? = some resp →
      (resp.StatusCode = StatusUnauthorized →
        run.result = .error "unauthorized" ∧ run.requests.length = run.responses.length) ∧
      (¬ (200 ≤ resp.StatusCode ∧ resp.StatusCode < 300) →
        resp.StatusCode ≠ StatusMovedPermanently → resp.StatusCode ≠ StatusUnauthorized →
        run.result = .error ("server responded with: " ++ resp.Status) ∧
        run.requests.length = run.responses.length) := by
  unfold removeNode at h
  cases hj : E.jsonMarshal id with
  | error err =>
    simp only [hj, Option.some.injEq] at h
    subst h
    exact ⟨by simp, fun resp hr => by simp at hr⟩
  | ok b =>
    simp only [hj] at h
    obtain ⟨h1, h2⟩ := removeLoop_last E maxRedirect b fuel 0 _ [] [] run (by simp) rfl h
    refine ⟨h1, fun resp hr => ?_⟩
    obtain ⟨a1, a2, _⟩ := h2 resp hr
    refine ⟨a1, fun h2xx h301 h401 => a2 h401 h301 ?_⟩
    intro e
    apply h2xx
    rw [e]
    decide

theorem removeNode_unauthorized_or_status_witness :
    removeNode (scripted [movedToLeader, unauthorized]) 21 22 "n2" demoArgv =
      some { result := .error "unauthorized",
             requests := ["http://localhost:4001/remove", "http://leader:4001/remove"],
             responses := [movedToLeader, unauthorized] } ∧
    (Run.mk (.error "unauthorized")
      ["http://localhost:4001/remove", "http://leader:4001/remove"]
      [movedToLeader, unauthorized]).requests.length = 2 :=
  ⟨by decide,
   (((removeNode_unauthorized_or_status (scripted [movedToLeader, unauthorized]) 21 22 "n2"
      demoArgv
      (Run.mk (.error "unauthorized")
        ["http://localhost:4001/remove", "http://leader:4001/remove"]
        [movedToLeader, unauthorized])
      (by decide)).2 unauthorized rfl).1 rfl).2⟩

theorem removeNode_503 :
    removeNode (scripted [unavailable]) 21 22 "n2" demoArgv =
      some { result := .error "server responded with: 503 Service Unavailable",
             requests := ["http://localhost:4001/remove"], responses := [unavailable] } := by
  decide

end tqlite

/-! ## Theorems: the version header and the address prefix -/

namespace http

theorem Carries_Set {k v : String} {w : ResponseWriter} (k1 v1 : String) (hk : k ≠ k1)
    (h : Carries k v w) : Carries k v (w.Set k1 v1) := by
  refine ⟨?_, h.2⟩
  simp only [ResponseWriter.Set, List.mem_append, List.mem_filter]
  exact Or.inl ⟨h.1, by simpa using hk⟩

theorem Carries_Del {k v : String} {w : ResponseWriter} (k1 : String) (hk : k ≠ k1)
    (h : Carries k v w) : Carries k v (w.Del k1) := by
  refine ⟨?_, h.2⟩
  simp only [ResponseWriter.Del, List.mem_filter]
  exact ⟨h.1, by simpa using hk⟩

theorem Carries_WriteHeader {k v : String} {w : ResponseWriter} (code : Nat)
    (h : Carries k v w) : Carries k v (w.WriteHeader code) := by
  unfold ResponseWriter.WriteHeader
  cases hs : w.status with
  | some c => exact h
  | none => exact ⟨h.1, fun _ _ => h.1⟩

theorem Carries_Write {k v : String} {w : ResponseWriter} (b : String)
    (h : Carries k v w) : Carries k v (w.Write b) :=
  Carries_WriteHeader 200 h

theorem Carries_Error {k v : String} {w : ResponseWriter} (hk : k ∉ handlerKeys)
    (error : String) (code : Nat) (h : Carries k v w) : Carries k v (Error w error code) := by
  simp only [handlerKeys, List.mem_cons, List.mem_singleton, not_or] at hk
  exact Carries_Write _ (Carries_WriteHeader _ (Carries_Set _ _ hk.2.1 (Carries_Set _ _ hk.1 h)))

theorem Carries_Redirect {k v : String} {w : ResponseWriter} (hk : k ∉ handlerKeys)
    (L : Lib) (r : Request) (url : String) (code : Nat) (h : Carries k v w) :
    Carries k v (Redirect L w r url code) := by
  simp only [handlerKeys, List.mem_cons, List.mem_singleton, not_or] at hk
  unfold Redirect
  dsimp only
  have h1 := Carries_Set "Location" (hexEscapeNonASCII (L.redirectURL r.Path url)) hk.2.2.1 h
  split <;> split <;>
    first
    | exact Carries_Write _ (Carries_WriteHeader _ (Carries_Set _ _ hk.1 h1))
    | exact Carries_Write _ (Carries_WriteHeader _ h1)
    | exact Carries_WriteHeader _ (Carries_Set _ _ hk.1 h1)
    | exact Carries_WriteHeader _ h1

theorem Carries_writeResponse {k v : String} {w : ResponseWriter} (hk : k ∉ handlerKeys)
    (L : Lib) (r : Request) (j : Response) (h : Carries k v w) :
    Carries k v (writeResponse L w r j) := by
  unfold writeResponse
  dsimp only
  split
  · exact Carries_Error hk _ _ h
  · exact Carries_Write _ h

theorem Carries_notLeader {k v : String} {w : ResponseWriter} (hk : k ∉ handlerKeys)
    (L : Lib) (s : Service) (r : Request) (err : StoreError) (h : Carries k v w) :
    Carries k v (s.notLeader L w r err) := by
  unfold Service.notLeader
  dsimp only
  split
  · exact Carries_Error hk _ _ h
  · exact Carries_Redirect hk _ _ _ _ h

theorem Carries_backupFormat {k v : String} {w : ResponseWriter} (hk : k ∉ handlerKeys)
    (L : Lib) (r : Request) (h : Carries k v w) : Carries k v (backupFormat L w r).1 := by
  simp only [handlerKeys, List.mem_cons, List.mem_singleton, not_or] at hk
  unfold backupFormat
  split
  · exact h
  · split
    · exact Carries_Set _ _ hk.1 h
    · exact Carries_Set _ _ hk.1 h

theorem Carries_addStatuses {k v : String} (hk : k ∉ handlerKeys) :
    ∀ (l : List (String × Except String String)) (w : ResponseWriter)
      (status : List (String × StatusValue)),
      Carries k v w → Carries k v (addStatuses w status l).1
  | [], w, status, h => by simpa [addStatuses] using h
  | (k1, .error err) :: rest, w, status, h => by
    simpa [addStatuses] using Carries_Error hk err _ h
  | (k1, .ok stat) :: rest, w, status, h => by
    simpa [addStatuses] using Carries_addStatuses hk rest w _ h

theorem Carries_handleExecute {k v : String} {w : ResponseWriter} (hk : k ∉ handlerKeys)
    (L : Lib) (s : Service) (r : Request) (h : Carries k v w) :
    Carries k v (s.handleExecute L w r).w := by
  have hct : k ≠ "Content-Type" := by
    intro e; exact hk (by simp [handlerKeys, e])
  have h1 := Carries_Set "Content-Type" "application/json; charset=utf-8" hct h
  unfold Service.handleExecute
  dsimp only
  repeat' split
  all_goals
    first
    | exact Carries_WriteHeader _ h1
    | exact Carries_Error hk _ _ h1
    | exact Carries_notLeader hk _ _ _ _ h1
    | exact Carries_writeResponse hk _ _ _ h1

theorem Carries_handleQuery {k v : String} {w : ResponseWriter} (hk : k ∉ handlerKeys)
    (L : Lib) (s : Service) (r : Request) (h : Carries k v w) :
    Carries k v (s.handleQuery L w r).w := by
  have hct : k ≠ "Content-Type" := by
    intro e; exact hk (by simp [handlerKeys, e])
  have h1 := Carries_Set "Content-Type" "application/json; charset=utf-8" hct h
  unfold Service.handleQuery
  dsimp only
  repeat' split
  all_goals
    first
    | exact Carries_WriteHeader _ h1
    | exact Carries_Error hk _ _ h1
    | exact Carries_notLeader hk _ _ _ _ h1
    | exact Carries_writeResponse hk _ _ _ h1

theorem Carries_handleLoad {k v : String} {w : ResponseWriter} (hk : k ∉ handlerKeys)
    (L : Lib) (s : Service) (r : Request) (h : Carries k v w) :
    Carries k v (s.handleLoad L w r).w := by
  unfold Service.handleLoad
  dsimp only
  repeat' split
  all_goals
    first
    | exact Carries_WriteHeader _ h
    | exact Carries_Error hk _ _ h
    | exact Carries_notLeader hk _ _ _ _ h
    | exact Carries_writeResponse hk _ _ _ h

theorem Carries_handleRemove {k v : String} {w : ResponseWriter} (hk : k ∉ handlerKeys)
    (L : Lib) (s : Service) (r : Request) (h : Carries k v w) :
    Carries k v (s.handleRemove L w r).w := by
  unfold Service.handleRemove
  repeat' split
  all_goals
    first
    | exact h
    | exact Carries_WriteHeader _ h
    | exact Carries_Error hk _ _ h
    | exact Carries_notLeader hk _ _ _ _ h

theorem Carries_handleJoin {k v : String} {w : ResponseWriter} (hk : k ∉ handlerKeys)
    (L : Lib) (s : Service) (r : Request) (o : Outcome) (h : Carries k v w)
    (ho : s.handleJoin L w r = some o) : Carries k v o.w := by
  unfold Service.handleJoin at ho
  dsimp only at ho
  repeat' split at ho
  all_goals
    first
    | (simp only [Option.some.injEq] at ho
       subst ho
       first
       | exact h
       | exact Carries_WriteHeader _ h
       | exact Carries_Error hk _ _ h
       | exact Carries_notLeader hk _ _ _ _ h)
    | simp at ho

theorem Carries_handleBackup {k v : String} {w : ResponseWriter} (hk : k ∉ handlerKeys)
    (L : Lib) (s : Service) (r : Request) (h : Carries k v w) :
    Carries k v (s.handleBackup L w r).1.w := by
  have hb := Carries_backupFormat hk L r h
  unfold Service.handleBackup
  split
  · exact Carries_WriteHeader _ h
  · split
    · exact Carries_Error hk _ _ h
    · split
      · rename_i heq
        rw [heq] at hb
        exact Carries_Error hk _ _ hb
      · rename_i heq
        rw [heq] at hb
        split
        · split
          · exact Carries_notLeader hk _ _ _ _ hb
          · exact Carries_Error hk _ _ hb
        · exact Carries_Write _ hb

theorem Carries_handleNodes {k v : String} {w : ResponseWriter} (hk : k ∉ handlerKeys)
    (L : Lib) (s : Service) (r : Request) (h : Carries k v w) :
    Carries k v (s.handleNodes L w r) := by
  have hct : k ≠ "Content-Type" := by
    intro e; exact hk (by simp [handlerKeys, e])
  have h1 := Carries_Set "Content-Type" "application/json; charset=utf-8" hct h
  unfold Service.handleNodes
  dsimp only
  repeat' split
  all_goals
    first
    | exact Carries_WriteHeader _ h1
    | exact Carries_Error hk _ _ h1

theorem Carries_handleStatus {k v : String} {w : ResponseWriter} (hk : k ∉ handlerKeys)
    (L : Lib) (s : Service) (r : Request) (h : Carries k v w) :
    Carries k v (s.handleStatus L w r) := by
  have hct : k ≠ "Content-Type" := by
    intro e; exact hk (by simp [handlerKeys, e])
  have h1 := Carries_Set "Content-Type" "application/json; charset=utf-8" hct h
  unfold Service.handleStatus
  dsimp only
  split
  · exact Carries_WriteHeader _ h1
  · split
    · exact Carries_Error hk _ _ h1
    · split
      · exact Carries_Error hk _ _ h1
      · split
        · exact Carries_Error hk _ _ (Carries_addStatuses hk _ _ _ h1)
        · exact Carries_Write _ (Carries_addStatuses hk _ _ _ h1)

theorem Carries_handleExpvar {k v : String} {w : ResponseWriter} (hk : k ∉ handlerKeys)
    (D : Debug) (h : Carries k v w) : Carries k v (handleExpvar D w) := by
  have hct : k ≠ "Content-Type" := by
    intro e; exact hk (by simp [handlerKeys, e])
  have loop : ∀ (l : List (String × String)) (wf : ResponseWriter × Bool), Carries k v wf.1 →
      Carries k v (l.foldl (fun (wf : ResponseWriter × Bool) kv =>
        ((if !wf.2 then wf.1.Write ",\n" else wf.1).Write (D.quote kv.1 ++ ": " ++ kv.2),
          false)) wf).1 := by
    intro l
    induction l with
    | nil => intro wf hwf; exact hwf
    | cons kv rest ih =>
      intro wf hwf
      apply ih
      dsimp only
      split
      · exact Carries_Write _ (Carries_Write _ hwf)
      · exact Carries_Write _ hwf
  exact Carries_Write _ (loop _ _ (Carries_Write _ (Carries_Set _ _ hct h)))

theorem Carries_servePprof {k v : String} {w : ResponseWriter} (hk : k ∉ handlerKeys)
    (reply : PprofReply) (h : Carries k v w) : Carries k v (servePprof w reply) := by
  simp only [handlerKeys, List.mem_cons, List.mem_singleton, not_or] at hk
  obtain ⟨k1, k2, _, k4, k5⟩ := hk
  have k5 : k ≠ "X-Go-Pprof" := by simpa using k5
  rcases reply with ⟨ct, disp, failed, status, body⟩
  cases disp <;> cases failed <;> cases status <;>
    simp only [servePprof, Bool.false_eq_true, if_false, if_true] <;> split <;>
    with_reducible
      repeat
        first
        | exact h
        | refine Carries_Write _ ?_
        | refine Carries_WriteHeader _ ?_
        | refine Carries_Del "Content-Disposition" k4 ?_
        | refine Carries_Set "X-Go-Pprof" _ k5 ?_
        | refine Carries_Set "Content-Type" _ k1 ?_
        | refine Carries_Set "Content-Disposition" _ k4 ?_
        | refine Carries_Set "X-Content-Type-Options" _ k2 ?_

theorem Carries_handlePprof {k v : String} {w : ResponseWriter} (hk : k ∉ handlerKeys)
    (D : Debug) (r : Request) (h : Carries k v w) : Carries k v (handlePprof D w r) := by
  unfold handlePprof
  repeat' split
  all_goals exact Carries_servePprof hk _ h

theorem Carries_addBuildVersion (s : Service) (w : ResponseWriter) (version : String)
    (hw : w.status = none)
    (hv : (s.addBuildVersion w).header = w.header ++ [(CanonicalMIMEHeaderKey VersionHTTPHeader, version)]) :
    Carries (CanonicalMIMEHeaderKey VersionHTTPHeader) version (s.addBuildVersion w) := by
  refine ⟨by rw [hv]; simp, fun code hc => ?_⟩
  have : (s.addBuildVersion w).status = w.status := rfl
  rw [this, hw] at hc
  exact absurd hc (by simp)

theorem version_key : CanonicalMIMEHeaderKey VersionHTTPHeader = "X-Tqlite-Version" := by
  decide

theorem version_key_free : CanonicalMIMEHeaderKey VersionHTTPHeader ∉ handlerKeys := by
  rw [version_key]
  decide

theorem Carries_ServeHTTP {k v : String} (hk : k ∉ handlerKeys) (L : Lib) (D : Debug)
    (s : Service) (stats : Counters) (w : ResponseWriter) (r : Request)
    (h : Carries k v (s.addBuildVersion w)) :
    Carries k v (s.ServeHTTP L D stats w r).w := by
  unfold Service.ServeHTTP
  dsimp only
  repeat' split
  all_goals
    with_reducible first
    | exact h
    | exact Carries_handleExecute hk _ _ _ h
    | exact Carries_handleQuery hk _ _ _ h
    | exact Carries_handleBackup hk _ _ _ h
    | exact Carries_handleLoad hk _ _ _ h
    | exact Carries_handleRemove hk _ _ _ h
    | exact Carries_handleStatus hk _ _ _ h
    | exact Carries_handleNodes hk _ _ _ h
    | exact Carries_handleExpvar hk _ h
    | exact Carries_handlePprof hk _ _ h
    | exact Carries_WriteHeader _ h
    | (rename_i o ho; exact Carries_handleJoin hk _ _ _ o h ho)


theorem ServeHTTP_panicked (L : Lib) (D : Debug) (s : Service) (stats : Counters)
    (w : ResponseWriter) (r : Request) (hp : (s.ServeHTTP L D stats w r).panicked = true) :
    (s.ServeHTTP L D stats w r).w = s.addBuildVersion w := by
  unfold Service.ServeHTTP at hp ⊢
  dsimp only at hp ⊢
  repeat' split at hp
  all_goals first
    | (simp at hp; done)
    | skip
  all_goals
    rename_i h1 h2 h3 h4 h5 o ho
    simp only [h1, h2, h3, h4, h5, ho, if_false, if_true]
    simp

/-- C21. Whatever the request, `ServeHTTP` on a fresh response first adds the
version header, and every handler keeps it: the entry is in the header map
when `ServeHTTP` ends, and in the header sent if a status went out (a 404 and
a 405 included); if the handler panics the response is just the one with the
entry added. The value is `BuildInfo["version"]` when that entry is a
string, and "unknown" when `BuildInfo` is nil, has no such entry, or has one
that is not a string. The header map stores the name `X-TQLITE-VERSION` in
canonical form, the same name up to the case of its letters. -/
theorem ServeHTTP_adds_build_version (L : Lib) (D : Debug) (s : Service) (stats : Counters)
    (w : ResponseWriter) (r : Request) (hw : w.status = none) :
    ∃ version : String,
      (∀ info v, s.BuildInfo = some info → info.lookup "version" = some (.string v) →
        version = v) ∧
      (s.BuildInfo = none → version = "unknown") ∧
      (∀ info, s.BuildInfo = some info → (∀ v, info.lookup "version" ≠ some (.string v)) →
        version = "unknown") ∧
      s.addBuildVersion w = w.Add (CanonicalMIMEHeaderKey VersionHTTPHeader) version ∧
      (CanonicalMIMEHeaderKey VersionHTTPHeader, version) ∈
        (s.ServeHTTP L D stats w r).w.header ∧
      (∀ code, (s.ServeHTTP L D stats w r).w.status = some code →
        (CanonicalMIMEHeaderKey VersionHTTPHeader, version) ∈
          (s.ServeHTTP L D stats w r).w.sentHeader) ∧
      ((s.ServeHTTP L D stats w r).panicked = true →
        (s.ServeHTTP L D stats w r).w =
          w.Add (CanonicalMIMEHeaderKey VersionHTTPHeader) version) ∧
      (CanonicalMIMEHeaderKey VersionHTTPHeader).data.map Char.toLower =
        VersionHTTPHeader.data.map Char.toLower := by
  obtain ⟨version, hadd, c1, c2, c3⟩ : ∃ version : String,
      s.addBuildVersion w = w.Add (CanonicalMIMEHeaderKey VersionHTTPHeader) version ∧
      (∀ info v, s.BuildInfo = some info → info.lookup "version" = some (.string v) →
        version = v) ∧
      (s.BuildInfo = none → version = "unknown") ∧
      (∀ info, s.BuildInfo = some info → (∀ v, info.lookup "version" ≠ some (.string v)) →
        version = "unknown") := by
    cases hb : s.BuildInfo with
    | none =>
      exact ⟨"unknown", by simp only [Service.addBuildVersion, hb], fun _ _ h => by simp at h,
        fun _ => rfl, fun _ _ _ => rfl⟩
    | some info =>
      cases hl : info.lookup "version" with
      | none =>
        refine ⟨"unknown", by simp only [Service.addBuildVersion, hb, hl],
          fun info1 v h1 h2 => ?_, fun h => by simp at h, fun _ _ _ => rfl⟩
        simp only [Option.some.injEq] at h1
        subst h1
        rw [hl] at h2
        simp at h2
      | some x =>
        cases x with
        | string v0 =>
          refine ⟨v0, by simp only [Service.addBuildVersion, hb, hl],
            fun info1 v h1 h2 => ?_, fun h => by simp at h, fun info1 h1 h2 => ?_⟩
          · simp only [Option.some.injEq] at h1
            subst h1
            rw [hl] at h2
            simpa using h2
          · simp only [Option.some.injEq] at h1
            subst h1
            exact absurd hl (h2 v0)
        | bool b0 =>
          refine ⟨"unknown", by simp only [Service.addBuildVersion, hb, hl],
            fun info1 v h1 h2 => ?_, fun h => by simp at h, fun _ _ _ => rfl⟩
          simp only [Option.some.injEq] at h1
          subst h1
          rw [hl] at h2
          simp at h2
        | other raw =>
          refine ⟨"unknown", by simp only [Service.addBuildVersion, hb, hl],
            fun info1 v h1 h2 => ?_, fun h => by simp at h, fun _ _ _ => rfl⟩
          simp only [Option.some.injEq] at h1
          subst h1
          rw [hl] at h2
          simp at h2
  have h0 : Carries (CanonicalMIMEHeaderKey VersionHTTPHeader) version (s.addBuildVersion w) := by
    rw [hadd]
    exact ⟨by simp [ResponseWriter.Add], fun code hc => by
      simp [ResponseWriter.Add, hw] at hc⟩
  have h1 := Carries_ServeHTTP version_key_free L D s stats w r h0
  refine ⟨version, c1, c2, c3, hadd, h1.1, h1.2, ?_, by decide⟩
  intro hp
  rw [← hadd]
  exact ServeHTTP_panicked L D s stats w r hp

theorem ServeHTTP_adds_build_version_witness :
    ∃ version : String, version = "v6.0.0" ∧
      ("X-Tqlite-Version", version) ∈
        (released.ServeHTTP demoLib demoDebug Counters.init ResponseWriter.new
          (bare "GET" "/nope")).w.sentHeader := by
  obtain ⟨version, h1, _, _, _, _, h6, _, _⟩ :=
    ServeHTTP_adds_build_version demoLib demoDebug released Counters.init ResponseWriter.new
      (bare "GET" "/nope") rfl
  exact ⟨version, h1 _ _ rfl (by decide), h6 404 (by decide)⟩

theorem HasPrefix_append (p a : String) : HasPrefix (p ++ a) p = true := by
  simp [HasPrefix, String.data_append]

/-- C22. `NormalizeAddr` returns its argument when that starts with `http://`
and `http://` followed by the argument otherwise; the result always starts
with `http://`, and normalising twice is normalising once. -/
theorem NormalizeAddr_starts_with_http (a : String) :
    NormalizeAddr a = (if HasPrefix a "http://" = true then a else "http://" ++ a) ∧
    HasPrefix (NormalizeAddr a) "http://" = true ∧
    NormalizeAddr (NormalizeAddr a) = NormalizeAddr a := by
  have h1 : HasPrefix (NormalizeAddr a) "http://" = true := by
    unfold NormalizeAddr
    by_cases h : HasPrefix a "http://" = true
    · simp [h]
    · simp [h, HasPrefix_append]
  refine ⟨?_, h1, ?_⟩
  · unfold NormalizeAddr
    by_cases h : HasPrefix a "http://" = true <;> simp [h]
  · have fix : ∀ b : String, HasPrefix b "http://" = true → NormalizeAddr b = b := by
      intro b hb
      simp [NormalizeAddr, hb]
    exact fix _ h1

end http

/-! ## Theorems: the administrative client on success and on a bare redirect -/

namespace tqlite

theorem removeLoop_result (E : Env) (maxRedirect : Nat) (b : String) :
    ∀ (fuel nRedirect : Nat) (urlStr : String) (reqs : List String) (resps : List HttpResponse)
      (run : Run),
      removeLoop E maxRedirect b fuel nRedirect urlStr reqs resps = some run →
      (run.result = .nil →
        ∃ resp, run.responses.getLast? = some resp ∧ resp.StatusCode = StatusOK) ∧
      (run.result = .panic →
        ∃ resp, run.responses.getLast? = some resp ∧
          resp.StatusCode = StatusMovedPermanently ∧ resp.Location = []) := by
  intro fuel
  induction fuel with
  | zero =>
    intro nRedirect urlStr reqs resps run h
    simp [removeLoop] at h
  | succ fuel ih =>
    intro nRedirect urlStr reqs resps run h
    rw [removeLoop] at h
    cases hnr : E.NewRequest urlStr with
    | some err =>
      simp only [hnr, Option.some.injEq] at h
      subst h
      exact ⟨fun e => by simp at e, fun e => by simp at e⟩
    | none =>
      cases hdo : E.Do reqs.length urlStr b with
      | error err =>
        simp only [hnr, hdo, Option.some.injEq] at h
        subst h
        exact ⟨fun e => by simp at e, fun e => by simp at e⟩
      | ok resp0 =>
        simp only [hnr, hdo] at h
        by_cases h401 : resp0.StatusCode = StatusUnauthorized
        · rw [if_pos h401] at h
          simp only [Option.some.injEq] at h
          subst h
          exact ⟨fun e => by simp at e, fun e => by simp at e⟩
        · rw [if_neg h401] at h
          by_cases h301 : resp0.StatusCode = StatusMovedPermanently
          · rw [if_pos h301] at h
            by_cases hmax : nRedirect + 1 > maxRedirect
            · rw [if_pos hmax] at h
              simp only [Option.some.injEq] at h
              subst h
              exact ⟨fun e => by simp at e, fun e => by simp at e⟩
            · rw [if_neg hmax] at h
              cases hloc : resp0.Location with
              | nil =>
                rw [hloc] at h
                simp only [Option.some.injEq] at h
                subst h
                exact ⟨fun e => by simp at e, fun _ => ⟨resp0, by simp, h301, hloc⟩⟩
              | cons loc rest =>
                rw [hloc] at h
                exact ih _ _ _ _ run h
          · rw [if_neg h301] at h
            by_cases h200 : resp0.StatusCode ≠ StatusOK
            · rw [if_pos h200] at h
              simp only [Option.some.injEq] at h
              subst h
              exact ⟨fun e => by simp at e, fun e => by simp at e⟩
            · rw [if_neg h200] at h
              simp only [Option.some.injEq] at h
              subst h
              exact ⟨fun _ => ⟨resp0, by simp, not_not.1 h200⟩, fun e => by simp at e⟩

/-- C23. A finished call of `removeNode` returns nil exactly when the last
response it received has status 200. -/
theorem removeNode_nil_iff_last_200 (E : Env) (maxRedirect fuel : Nat) (id : String)
    (argv : argT) (run : Run) (h : removeNode E maxRedirect fuel id argv = some run) :
    run.result = .nil ↔
      ∃ resp, run.responses.getLast? = some resp ∧ resp.StatusCode = 200 := by
  unfold removeNode at h
  cases hj : E.jsonMarshal id with
  | error err =>
    simp only [hj, Option.some.injEq] at h
    subst h
    simp
  | ok b =>
    simp only [hj] at h
    constructor
    · intro hn
      exact (removeLoop_result E maxRedirect b fuel 0 _ [] [] run h).1 hn
    · rintro ⟨resp, hl, h200⟩
      obtain ⟨_, h2⟩ := removeLoop_last E maxRedirect b fuel 0 _ [] [] run (by simp) rfl h
      exact ((h2 resp hl).2.2 h200).1

theorem removeNode_nil_iff_last_200_witness :
    removeNode (scripted [movedToLeader, okResponse]) 21 22 "n2" demoArgv =
      some { result := .nil,
             requests := ["http://localhost:4001/remove", "http://leader:4001/remove"],
             responses := [movedToLeader, okResponse] } ∧
    ∃ resp, [movedToLeader, okResponse].getLast? = some resp ∧ resp.StatusCode = 200 :=
  ⟨by decide,
   (removeNode_nil_iff_last_200 (scripted [movedToLeader, okResponse]) 21 22 "n2" demoArgv
      (Run.mk .nil ["http://localhost:4001/remove", "http://leader:4001/remove"]
        [movedToLeader, okResponse])
      (by decide)).1 rfl⟩

/-- C23, as stated, fails: a 201 and a 204 are 2xx responses, and `removeNode`
answers each with an error. -/
theorem removeNode_201_is_an_error :
    removeNode (scripted [created]) 21 22 "n2" demoArgv =
      some { result := .error "server responded with: 201 Created",
             requests := ["http://localhost:4001/remove"], responses := [created] } ∧
    (200 ≤ created.StatusCode ∧ created.StatusCode < 300) ∧
    removeNode (scripted [noContent]) 21 22 "n2" demoArgv =
      some { result := .error "server responded with: 204 No Content",
             requests := ["http://localhost:4001/remove"], responses := [noContent] } ∧
    (200 ≤ noContent.StatusCode ∧ noContent.StatusCode < 300) := by
  decide

/-- C24. A 301 without a `Location` header makes `removeNode` panic: the
index `[0]` is past the end of the empty list. The request before it was sent;
none follows. -/
theorem removeNode_panics_without_location :
    removeNode (scripted [movedNowhere]) 21 22 "n2" demoArgv =
      some { result := .panic, requests := ["http://localhost:4001/remove"],
             responses := [movedNowhere] } ∧
    removeNode (scripted [movedToLeader, movedNowhere]) 21 22 "n2" demoArgv =
      some { result := .panic,
             requests := ["http://localhost:4001/remove", "http://leader:4001/remove"],
             responses := [movedToLeader, movedNowhere] } := by
  decide

end tqlite

/-! ## Theorems: a join with fields of the wrong type -/

namespace http

/-- C25. A join whose `id` is a JSON number makes `handleJoin` panic at the
type assertion `remoteID.(string)`, and so does one whose `voter` is a string
at `voter.(bool)`: `ServeHTTP` ends without a response. The sibling
`handleRemove` answers an `id` that is a number with 400. -/
theorem handleJoin_panics_on_numeric_id :
    follower.handleJoin typedLib ResponseWriter.new
      (joinRequest "\x7b\"id\":1,\"addr\":\"n2:4002\"\x7d") = none ∧
    (follower.ServeHTTP typedLib demoDebug Counters.init ResponseWriter.new
      (joinRequest "\x7b\"id\":1,\"addr\":\"n2:4002\"\x7d")).panicked = true ∧
    (follower.ServeHTTP typedLib demoDebug Counters.init ResponseWriter.new
      (joinRequest "\x7b\"id\":1,\"addr\":\"n2:4002\"\x7d")).w.status = none ∧
    follower.handleJoin typedLib ResponseWriter.new
      (joinRequest "\x7b\"id\":\"n2\",\"addr\":\"n2:4002\",\"voter\":\"yes\"\x7d") = none ∧
    (follower.handleRemove typedLib ResponseWriter.new
      (removeRequest "\x7b\"id\":1\x7d")).w.status = some 400 := by
  decide

end http
